import Mathlib

/-!
Shallow embedding of the aksview memory-mapped file viewer (src/aksview.c,
src/aksview.h) and proofs about its windowing engine and typed access layer.

Modelling conventions:
* The viewer structure `AKSVIEW` mirrors `struct AKSVIEW_TAG` (POSIX build):
  `flags`, `flen`, `pgsize`, `hint`, `wlen`, and the window state.  The mapped
  window pointer `pw` is modelled by the boolean `mapped`; since the window is
  a `MAP_SHARED` view of the file, a window access `pw[i]` is modelled as the
  file byte at offset `wfirst + i` (`winGet` / `winSet`), and the file content
  is the function `file : Int → Nat` (bytes, meaningful on `[0, flen)`).
* A fatal fault (the `fault` macro) is modelled as `none`; operations that can
  fault return `Option`.  OS mapping calls issued by the library are assumed
  to succeed (their failure is also fatal in the source); the one genuinely
  fallible OS interaction, the file resize inside `aksview_setlen`, is
  modelled by an explicit oracle parameter `osOk`.
* C `int64_t`/`int32_t` arithmetic is modelled on `Int`.  Every division and
  modulus in the translated code is applied to non-negative operands with a
  positive divisor (established by the checks that precede them), where C's
  truncating division and Lean's `Int` division agree; the int32 quantities
  involved stay far below 2^31 so no wrap-around occurs.
* The `le` parameter (`int le`, normalised by `if (le) le = FLAG_LE;`) is a
  `Bool`; the test `(le ^ pv->flags) & FLAG_LE` is `le != hostLE pv`.
* `memcpy` between integers and byte buffers is host-byte-order
  (re)interpretation on a two's-complement machine, modelled by the
  `memcpyVal…` / `memcpyBytes…` / `memcpyHalves…` helpers, `toSigned` and
  `toUnsigned`.
-/

namespace Aksview

/-- FLAG_RO from aksview.c: viewer is read-only. -/
def FLAG_RO : Nat := 1

/-- FLAG_LE from aksview.c: platform is little endian. -/
def FLAG_LE : Nat := 2

/-- FLAG_DT from aksview.c: dirty window. -/
def FLAG_DT : Nat := 4

/-- FLAG_UT from aksview.c: update timestamp on close. -/
def FLAG_UT : Nat := 8

/-- AKSVIEW_MAXLEN from aksview.h: INT64_MAX / 2 = 2^62 - 1. -/
def AKSVIEW_MAXLEN : Int := 4611686018427387903

/-- AKSVIEW_DEFAULT_HINT from aksview.h: 16 MiB. -/
def AKSVIEW_DEFAULT_HINT : Int := 16777216

/-- Reinterpretation of a `w`-bit unsigned value as a two's-complement signed
value (the effect of `memcpy` from a byte buffer into a signed integer). -/
def toSigned (w : Nat) (u : Nat) : Int :=
  if u < 2 ^ (w - 1) then (u : Int) else (u : Int) - 2 ^ w

/-- Reinterpretation of a `w`-bit two's-complement signed value as the
unsigned value with the same bit pattern (the effect of `memcpy` from a
signed integer into a byte buffer). -/
def toUnsigned (w : Nat) (v : Int) : Nat := (v % 2 ^ w).toNat

/-- Effect of `memcpy(&result, bb, 2)` into a `uint16_t` on a host whose
byte order is little-endian iff `h`: assemble two bytes in host order. -/
def memcpyVal2 (h : Bool) (b0 b1 : Nat) : Nat :=
  if h then b0 + 256 * b1 else b1 + 256 * b0

/-- Effect of `memcpy(bb, &v, 2)` from a `uint16_t`: the two bytes of `v`
in host order. -/
def memcpyBytes2 (h : Bool) (v : Nat) : Nat × Nat :=
  if h then (v % 256, v / 256 % 256) else (v / 256 % 256, v % 256)

/-- Effect of `memcpy(&result, bb, 4)` into a `uint32_t`: assemble four
bytes in host order. -/
def memcpyVal4 (h : Bool) (b0 b1 b2 b3 : Nat) : Nat :=
  if h then b0 + 256 * b1 + 65536 * b2 + 16777216 * b3
  else b3 + 256 * b2 + 65536 * b1 + 16777216 * b0

/-- Effect of `memcpy(bb, &v, 4)` from a `uint32_t`: the four bytes of `v`
in host order. -/
def memcpyBytes4 (h : Bool) (v : Nat) : Nat × Nat × Nat × Nat :=
  if h then (v % 256, v / 256 % 256, v / 65536 % 256, v / 16777216 % 256)
  else (v / 16777216 % 256, v / 65536 % 256, v / 256 % 256, v % 256)

/-- Effect of `memcpy(&result, bw, 4)` from two `uint16_t` halves into a
`uint32_t`: combine the halves in host order. -/
def memcpyVal4w (h : Bool) (w0 w1 : Nat) : Nat :=
  if h then w0 + 65536 * w1 else w1 + 65536 * w0

/-- Effect of `memcpy(bw, &v, 4)` from a `uint32_t` into two `uint16_t`:
the two halves of `v` in host order. -/
def memcpyHalves4 (h : Bool) (v : Nat) : Nat × Nat :=
  if h then (v % 65536, v / 65536 % 65536) else (v / 65536 % 65536, v % 65536)

/-- Effect of `memcpy(&result, bb, 8)` into a `uint64_t`: assemble eight
bytes in host order. -/
def memcpyVal8 (h : Bool) (b0 b1 b2 b3 b4 b5 b6 b7 : Nat) : Nat :=
  if h then
    b0 + 256 * b1 + 65536 * b2 + 16777216 * b3 + 4294967296 * b4 +
    1099511627776 * b5 + 281474976710656 * b6 + 72057594037927936 * b7
  else
    b7 + 256 * b6 + 65536 * b5 + 16777216 * b4 + 4294967296 * b3 +
    1099511627776 * b2 + 281474976710656 * b1 + 72057594037927936 * b0

/-- Effect of `memcpy(bb, &v, 8)` from a `uint64_t`: the eight bytes of `v`
in host order. -/
def memcpyBytes8 (h : Bool) (v : Nat) :
    Nat × Nat × Nat × Nat × Nat × Nat × Nat × Nat :=
  if h then
    (v % 256, v / 256 % 256, v / 65536 % 256, v / 16777216 % 256,
     v / 4294967296 % 256, v / 1099511627776 % 256,
     v / 281474976710656 % 256, v / 72057594037927936 % 256)
  else
    (v / 72057594037927936 % 256, v / 281474976710656 % 256,
     v / 1099511627776 % 256, v / 4294967296 % 256, v / 16777216 % 256,
     v / 65536 % 256, v / 256 % 256, v % 256)

/-- Effect of `memcpy(&result, bw, 8)` from two `uint32_t` halves into a
`uint64_t`: combine the halves in host order. -/
def memcpyVal8w (h : Bool) (w0 w1 : Nat) : Nat :=
  if h then w0 + 4294967296 * w1 else w1 + 4294967296 * w0

/-- Effect of `memcpy(bw, &v, 8)` from a `uint64_t` into two `uint32_t`:
the two halves of `v` in host order. -/
def memcpyHalves8 (h : Bool) (v : Nat) : Nat × Nat :=
  if h then (v % 4294967296, v / 4294967296 % 4294967296)
  else (v / 4294967296 % 4294967296, v % 4294967296)

/-- The viewer object, mirroring `struct AKSVIEW_TAG` (POSIX build).  The
file handle and path copy play no role in the modelled behaviour; the mapped
window pointer `pw` is represented by `mapped`, and the file bytes by
`file`. -/
structure AKSVIEW where
  flags : Nat
  flen : Int
  pgsize : Int
  hint : Int
  wlen : Int
  mapped : Bool
  wfirst : Int
  wlast : Int
  file : Int → Nat

/-- Test `pv->flags & fl` for a flag constant `fl`. -/
def testFlag (pv : AKSVIEW) (fl : Nat) : Bool := pv.flags &&& fl != 0

/-- Whether the host platform is little endian (`pv->flags & FLAG_LE`). -/
def hostLE (pv : AKSVIEW) : Bool := testFlag pv FLAG_LE

/-- Model of the window read `(pv->pw)[i]`: the mapped window is a shared
view of the file starting at `wfirst`. -/
def winGet (pv : AKSVIEW) (i : Int) : Nat := pv.file (pv.wfirst + i)

/-- Model of the window write `(pv->pw)[i] = v`: stores through the shared
mapping, i.e. updates the file byte at `wfirst + i`. -/
def winSet (pv : AKSVIEW) (i : Int) (v : Nat) : AKSVIEW :=
  { pv with file := fun j => if j = pv.wfirst + i then v else pv.file j }

/-- Window-size computation of `computeWindow` (aksview.c): start from the
hint, raise to at least the page size, clamp to 1 GiB, round up to a page
multiple, and finally clamp to the file length.  All divisions happen on
positive operands, where C truncating division agrees with Lean's. -/
def computeWindowVal (flen pgsize hint : Int) : Int :=
  let wl0 := hint
  let wl1 := if wl0 < pgsize then pgsize else wl0
  let wl2 := if wl1 > 1073741824 then 1073741824 else wl1
  let wl3 := if wl2 % pgsize ≠ 0 then (wl2 / pgsize + 1) * pgsize else wl2
  if wl3 > flen then flen else wl3

/-- The `computeWindow` function of aksview.c: checks its preconditions
(fault = `none`), writes the recomputed window size into `wlen` and reports
whether it changed. -/
def computeWindow (pv : AKSVIEW) : Option (AKSVIEW × Bool) :=
  if pv.flen < 0 ∨ pv.flen > AKSVIEW_MAXLEN then none
  else if pv.pgsize < 8 ∨ pv.pgsize % 8 ≠ 0 then none
  else
    let wl := computeWindowVal pv.flen pv.pgsize pv.hint
    some ({ pv with wlen := wl }, pv.wlen != wl)

/-- The `aksview_flush` function: if the dirty flag is set and a window is
mapped, flush (the `msync` itself has no effect on the modelled state) and
clear the dirty flag by XOR. -/
def aksview_flush (pv : AKSVIEW) : AKSVIEW :=
  if testFlag pv FLAG_DT && pv.mapped then
    { pv with flags := pv.flags ^^^ FLAG_DT }
  else pv

/-- The `unview` function: if a window is mapped, flush it and unmap it,
resetting the window fields to the sentinel values. -/
def unview (pv : AKSVIEW) : AKSVIEW :=
  if pv.mapped then
    let pv1 := aksview_flush pv
    { pv1 with mapped := false, wfirst := -1, wlast := -1 }
  else pv

/-- The `unmap` function: on POSIX this is exactly `unview` (the Windows
file-mapping object does not exist in the POSIX build). -/
def unmap (pv : AKSVIEW) : AKSVIEW := unview pv

/-- The `mapByte` function: ensure a window containing byte offset `b` is
mapped.  Faults when `b` is outside `[0, flen)`.  On a miss, unview and map
the window `[w, w - 1 + ws]` with `w = b / wlen * wlen` and
`ws = min(wlen, flen - w)`. -/
def mapByte (pv : AKSVIEW) (b : Int) : Option AKSVIEW :=
  if b < 0 ∨ b ≥ pv.flen then none
  else if b < pv.wfirst ∨ b > pv.wlast then
    let pv1 := unview pv
    let w := b / pv1.wlen * pv1.wlen
    let r := pv1.flen - w
    let ws := if r < pv1.wlen then r else pv1.wlen
    some { pv1 with mapped := true, wfirst := w, wlast := w - 1 + ws }
  else some pv

/-- The `aksview_read8u` function: map the byte, then read it from the
window. -/
def aksview_read8u (pv : AKSVIEW) (pos : Int) : Option (AKSVIEW × Nat) :=
  (mapByte pv pos).map (fun pv1 => (pv1, winGet pv1 (pos - pv1.wfirst)))

/-- The `aksview_read8s` function: like `aksview_read8u`, reinterpreting the
byte as a signed `int8_t` via `memcpy`. -/
def aksview_read8s (pv : AKSVIEW) (pos : Int) : Option (AKSVIEW × Int) :=
  (mapByte pv pos).map
    (fun pv1 => (pv1, toSigned 8 (winGet pv1 (pos - pv1.wfirst))))

/-- The `aksview_write8u` function: map the byte, fault if read-only, set
the dirty and timestamp flags, and store the byte. -/
def aksview_write8u (pv : AKSVIEW) (pos : Int) (v : Nat) : Option AKSVIEW :=
  (mapByte pv pos).bind (fun pv1 =>
    if testFlag pv1 FLAG_RO then none
    else
      let pv2 := { pv1 with flags := pv1.flags ||| FLAG_DT ||| FLAG_UT }
      some (winSet pv2 (pos - pv2.wfirst) v))

/-- The `aksview_write8s` function: like `aksview_write8u` with the byte
pattern of the signed value. -/
def aksview_write8s (pv : AKSVIEW) (pos : Int) (v : Int) : Option AKSVIEW :=
  (mapByte pv pos).bind (fun pv1 =>
    if testFlag pv1 FLAG_RO then none
    else
      let pv2 := { pv1 with flags := pv1.flags ||| FLAG_DT ||| FLAG_UT }
      some (winSet pv2 (pos - pv2.wfirst) (toUnsigned 8 v)))

/-- The `aksview_read16u` function: rough range check; on the aligned path
map `pos + 1` and read both bytes from the window, flipping iff the
requested and host byte orders differ; on the unaligned path decompose into
two `aksview_read8u` calls, flipping the order of the results likewise. -/
def aksview_read16u (pv : AKSVIEW) (pos : Int) (le : Bool) :
    Option (AKSVIEW × Nat) :=
  if pos < 0 ∨ pos ≥ AKSVIEW_MAXLEN then none
  else if pos % 2 = 0 then
    (mapByte pv (pos + 1)).map (fun pv1 =>
      let c0 := winGet pv1 (pos - pv1.wfirst)
      let c1 := winGet pv1 (pos - pv1.wfirst + 1)
      let bb := if le != hostLE pv1 then (c1, c0) else (c0, c1)
      (pv1, memcpyVal2 (hostLE pv1) bb.1 bb.2))
  else
    (aksview_read8u pv pos).bind (fun s0 =>
      (aksview_read8u s0.1 (pos + 1)).map (fun s1 =>
        let bb := if le != hostLE pv then (s1.2, s0.2) else (s0.2, s1.2)
        (s1.1, memcpyVal2 (hostLE pv) bb.1 bb.2)))

/-- The `aksview_read16s` function: the same code as `aksview_read16u` with
the result reinterpreted as a signed `int16_t`. -/
def aksview_read16s (pv : AKSVIEW) (pos : Int) (le : Bool) :
    Option (AKSVIEW × Int) :=
  if pos < 0 ∨ pos ≥ AKSVIEW_MAXLEN then none
  else if pos % 2 = 0 then
    (mapByte pv (pos + 1)).map (fun pv1 =>
      let c0 := winGet pv1 (pos - pv1.wfirst)
      let c1 := winGet pv1 (pos - pv1.wfirst + 1)
      let bb := if le != hostLE pv1 then (c1, c0) else (c0, c1)
      (pv1, toSigned 16 (memcpyVal2 (hostLE pv1) bb.1 bb.2)))
  else
    (aksview_read8u pv pos).bind (fun s0 =>
      (aksview_read8u s0.1 (pos + 1)).map (fun s1 =>
        let bb := if le != hostLE pv then (s1.2, s0.2) else (s0.2, s1.2)
        (s1.1, toSigned 16 (memcpyVal2 (hostLE pv) bb.1 bb.2))))

/-- The `aksview_write16u` function: rough range check; on the aligned path
split the value into host-order bytes, map `pos + 1`, fault if read-only,
store the two bytes (flipped iff requested and host orders differ) and set
the dirty and timestamp flags; on the unaligned path decompose into two
`aksview_write8u` calls. -/
def aksview_write16u (pv : AKSVIEW) (pos : Int) (le : Bool) (v : Nat) :
    Option AKSVIEW :=
  if pos < 0 ∨ pos ≥ AKSVIEW_MAXLEN then none
  else if pos % 2 = 0 then
    let bb := memcpyBytes2 (hostLE pv) v
    (mapByte pv (pos + 1)).bind (fun pv1 =>
      if testFlag pv1 FLAG_RO then none
      else
        let ss := if le != hostLE pv1 then (bb.2, bb.1) else (bb.1, bb.2)
        let pv2 := winSet pv1 (pos - pv1.wfirst) ss.1
        let pv3 := winSet pv2 (pos - pv2.wfirst + 1) ss.2
        some { pv3 with flags := pv3.flags ||| FLAG_DT ||| FLAG_UT })
  else
    let bb := memcpyBytes2 (hostLE pv) v
    let ss := if le != hostLE pv then (bb.2, bb.1) else (bb.1, bb.2)
    (aksview_write8u pv pos ss.1).bind (fun pv1 =>
      aksview_write8u pv1 (pos + 1) ss.2)

/-- The `aksview_write16s` function: the same code as `aksview_write16u`
with the byte pattern of the signed value. -/
def aksview_write16s (pv : AKSVIEW) (pos : Int) (le : Bool) (v : Int) :
    Option AKSVIEW :=
  if pos < 0 ∨ pos ≥ AKSVIEW_MAXLEN then none
  else if pos % 2 = 0 then
    let bb := memcpyBytes2 (hostLE pv) (toUnsigned 16 v)
    (mapByte pv (pos + 1)).bind (fun pv1 =>
      if testFlag pv1 FLAG_RO then none
      else
        let ss := if le != hostLE pv1 then (bb.2, bb.1) else (bb.1, bb.2)
        let pv2 := winSet pv1 (pos - pv1.wfirst) ss.1
        let pv3 := winSet pv2 (pos - pv2.wfirst + 1) ss.2
        some { pv3 with flags := pv3.flags ||| FLAG_DT ||| FLAG_UT })
  else
    let bb := memcpyBytes2 (hostLE pv) (toUnsigned 16 v)
    let ss := if le != hostLE pv then (bb.2, bb.1) else (bb.1, bb.2)
    (aksview_write8u pv pos ss.1).bind (fun pv1 =>
      aksview_write8u pv1 (pos + 1) ss.2)

/-- The `aksview_read32u` function: aligned fast path reads four window
bytes (flipped iff orders differ); unaligned path decomposes into two
`aksview_read16u` calls whose results are combined in host order. -/
def aksview_read32u (pv : AKSVIEW) (pos : Int) (le : Bool) :
    Option (AKSVIEW × Nat) :=
  if pos < 0 ∨ pos ≥ AKSVIEW_MAXLEN then none
  else if pos % 4 = 0 then
    (mapByte pv (pos + 3)).map (fun pv1 =>
      let c0 := winGet pv1 (pos - pv1.wfirst)
      let c1 := winGet pv1 (pos - pv1.wfirst + 1)
      let c2 := winGet pv1 (pos - pv1.wfirst + 2)
      let c3 := winGet pv1 (pos - pv1.wfirst + 3)
      let bb := if le != hostLE pv1 then (c3, c2, c1, c0) else (c0, c1, c2, c3)
      (pv1, memcpyVal4 (hostLE pv1) bb.1 bb.2.1 bb.2.2.1 bb.2.2.2))
  else
    (aksview_read16u pv pos le).bind (fun s0 =>
      (aksview_read16u s0.1 (pos + 2) le).map (fun s1 =>
        let bw := if le != hostLE pv then (s1.2, s0.2) else (s0.2, s1.2)
        (s1.1, memcpyVal4w (hostLE pv) bw.1 bw.2)))

/-- The `aksview_read32s` function: the same code as `aksview_read32u` with
the result reinterpreted as a signed `int32_t`. -/
def aksview_read32s (pv : AKSVIEW) (pos : Int) (le : Bool) :
    Option (AKSVIEW × Int) :=
  if pos < 0 ∨ pos ≥ AKSVIEW_MAXLEN then none
  else if pos % 4 = 0 then
    (mapByte pv (pos + 3)).map (fun pv1 =>
      let c0 := winGet pv1 (pos - pv1.wfirst)
      let c1 := winGet pv1 (pos - pv1.wfirst + 1)
      let c2 := winGet pv1 (pos - pv1.wfirst + 2)
      let c3 := winGet pv1 (pos - pv1.wfirst + 3)
      let bb := if le != hostLE pv1 then (c3, c2, c1, c0) else (c0, c1, c2, c3)
      (pv1, toSigned 32 (memcpyVal4 (hostLE pv1) bb.1 bb.2.1 bb.2.2.1 bb.2.2.2)))
  else
    (aksview_read16u pv pos le).bind (fun s0 =>
      (aksview_read16u s0.1 (pos + 2) le).map (fun s1 =>
        let bw := if le != hostLE pv then (s1.2, s0.2) else (s0.2, s1.2)
        (s1.1, toSigned 32 (memcpyVal4w (hostLE pv) bw.1 bw.2))))

/-- The `aksview_write32u` function: aligned fast path stores four
host-order bytes (flipped iff orders differ) and sets the flags; unaligned
path decomposes into two `aksview_write16u` calls on the host-order halves
(the halves are swapped iff orders differ). -/
def aksview_write32u (pv : AKSVIEW) (pos : Int) (le : Bool) (v : Nat) :
    Option AKSVIEW :=
  if pos < 0 ∨ pos ≥ AKSVIEW_MAXLEN then none
  else if pos % 4 = 0 then
    let bb := memcpyBytes4 (hostLE pv) v
    (mapByte pv (pos + 3)).bind (fun pv1 =>
      if testFlag pv1 FLAG_RO then none
      else
        let ss := if le != hostLE pv1 then (bb.2.2.2, bb.2.2.1, bb.2.1, bb.1)
          else bb
        let pv2 := winSet pv1 (pos - pv1.wfirst) ss.1
        let pv3 := winSet pv2 (pos - pv2.wfirst + 1) ss.2.1
        let pv4 := winSet pv3 (pos - pv3.wfirst + 2) ss.2.2.1
        let pv5 := winSet pv4 (pos - pv4.wfirst + 3) ss.2.2.2
        some { pv5 with flags := pv5.flags ||| FLAG_DT ||| FLAG_UT })
  else
    let bw := memcpyHalves4 (hostLE pv) v
    let ss := if le != hostLE pv then (bw.2, bw.1) else bw
    (aksview_write16u pv pos le ss.1).bind (fun pv1 =>
      aksview_write16u pv1 (pos + 2) le ss.2)

/-- The `aksview_write32s` function: the same code as `aksview_write32u`
with the byte pattern of the signed value. -/
def aksview_write32s (pv : AKSVIEW) (pos : Int) (le : Bool) (v : Int) :
    Option AKSVIEW :=
  if pos < 0 ∨ pos ≥ AKSVIEW_MAXLEN then none
  else if pos % 4 = 0 then
    let bb := memcpyBytes4 (hostLE pv) (toUnsigned 32 v)
    (mapByte pv (pos + 3)).bind (fun pv1 =>
      if testFlag pv1 FLAG_RO then none
      else
        let ss := if le != hostLE pv1 then (bb.2.2.2, bb.2.2.1, bb.2.1, bb.1)
          else bb
        let pv2 := winSet pv1 (pos - pv1.wfirst) ss.1
        let pv3 := winSet pv2 (pos - pv2.wfirst + 1) ss.2.1
        let pv4 := winSet pv3 (pos - pv3.wfirst + 2) ss.2.2.1
        let pv5 := winSet pv4 (pos - pv4.wfirst + 3) ss.2.2.2
        some { pv5 with flags := pv5.flags ||| FLAG_DT ||| FLAG_UT })
  else
    let bw := memcpyHalves4 (hostLE pv) (toUnsigned 32 v)
    let ss := if le != hostLE pv then (bw.2, bw.1) else bw
    (aksview_write16u pv pos le ss.1).bind (fun pv1 =>
      aksview_write16u pv1 (pos + 2) le ss.2)

/-- The `aksview_read64u` function: aligned fast path reads eight window
bytes (flipped iff orders differ); unaligned path decomposes into two
`aksview_read32u` calls whose results are combined in host order. -/
def aksview_read64u (pv : AKSVIEW) (pos : Int) (le : Bool) :
    Option (AKSVIEW × Nat) :=
  if pos < 0 ∨ pos ≥ AKSVIEW_MAXLEN then none
  else if pos % 8 = 0 then
    (mapByte pv (pos + 7)).map (fun pv1 =>
      let c0 := winGet pv1 (pos - pv1.wfirst)
      let c1 := winGet pv1 (pos - pv1.wfirst + 1)
      let c2 := winGet pv1 (pos - pv1.wfirst + 2)
      let c3 := winGet pv1 (pos - pv1.wfirst + 3)
      let c4 := winGet pv1 (pos - pv1.wfirst + 4)
      let c5 := winGet pv1 (pos - pv1.wfirst + 5)
      let c6 := winGet pv1 (pos - pv1.wfirst + 6)
      let c7 := winGet pv1 (pos - pv1.wfirst + 7)
      let bb := if le != hostLE pv1 then (c7, c6, c5, c4, c3, c2, c1, c0)
        else (c0, c1, c2, c3, c4, c5, c6, c7)
      (pv1, memcpyVal8 (hostLE pv1) bb.1 bb.2.1 bb.2.2.1 bb.2.2.2.1
        bb.2.2.2.2.1 bb.2.2.2.2.2.1 bb.2.2.2.2.2.2.1 bb.2.2.2.2.2.2.2))
  else
    (aksview_read32u pv pos le).bind (fun s0 =>
      (aksview_read32u s0.1 (pos + 4) le).map (fun s1 =>
        let bw := if le != hostLE pv then (s1.2, s0.2) else (s0.2, s1.2)
        (s1.1, memcpyVal8w (hostLE pv) bw.1 bw.2)))

/-- The `aksview_read64s` function: the same code as `aksview_read64u` with
the result reinterpreted as a signed `int64_t`. -/
def aksview_read64s (pv : AKSVIEW) (pos : Int) (le : Bool) :
    Option (AKSVIEW × Int) :=
  if pos < 0 ∨ pos ≥ AKSVIEW_MAXLEN then none
  else if pos % 8 = 0 then
    (mapByte pv (pos + 7)).map (fun pv1 =>
      let c0 := winGet pv1 (pos - pv1.wfirst)
      let c1 := winGet pv1 (pos - pv1.wfirst + 1)
      let c2 := winGet pv1 (pos - pv1.wfirst + 2)
      let c3 := winGet pv1 (pos - pv1.wfirst + 3)
      let c4 := winGet pv1 (pos - pv1.wfirst + 4)
      let c5 := winGet pv1 (pos - pv1.wfirst + 5)
      let c6 := winGet pv1 (pos - pv1.wfirst + 6)
      let c7 := winGet pv1 (pos - pv1.wfirst + 7)
      let bb := if le != hostLE pv1 then (c7, c6, c5, c4, c3, c2, c1, c0)
        else (c0, c1, c2, c3, c4, c5, c6, c7)
      (pv1, toSigned 64 (memcpyVal8 (hostLE pv1) bb.1 bb.2.1 bb.2.2.1
        bb.2.2.2.1 bb.2.2.2.2.1 bb.2.2.2.2.2.1 bb.2.2.2.2.2.2.1
        bb.2.2.2.2.2.2.2)))
  else
    (aksview_read32u pv pos le).bind (fun s0 =>
      (aksview_read32u s0.1 (pos + 4) le).map (fun s1 =>
        let bw := if le != hostLE pv then (s1.2, s0.2) else (s0.2, s1.2)
        (s1.1, toSigned 64 (memcpyVal8w (hostLE pv) bw.1 bw.2))))

/-- The `aksview_write64u` function: aligned fast path stores eight
host-order bytes (flipped iff orders differ) and sets the flags; unaligned
path decomposes into two `aksview_write32u` calls on the host-order halves
(the halves are swapped iff orders differ). -/
def aksview_write64u (pv : AKSVIEW) (pos : Int) (le : Bool) (v : Nat) :
    Option AKSVIEW :=
  if pos < 0 ∨ pos ≥ AKSVIEW_MAXLEN then none
  else if pos % 8 = 0 then
    let bb := memcpyBytes8 (hostLE pv) v
    (mapByte pv (pos + 7)).bind (fun pv1 =>
      if testFlag pv1 FLAG_RO then none
      else
        let ss := if le != hostLE pv1 then
            (bb.2.2.2.2.2.2.2, bb.2.2.2.2.2.2.1, bb.2.2.2.2.2.1,
             bb.2.2.2.2.1, bb.2.2.2.1, bb.2.2.1, bb.2.1, bb.1)
          else bb
        let pv2 := winSet pv1 (pos - pv1.wfirst) ss.1
        let pv3 := winSet pv2 (pos - pv2.wfirst + 1) ss.2.1
        let pv4 := winSet pv3 (pos - pv3.wfirst + 2) ss.2.2.1
        let pv5 := winSet pv4 (pos - pv4.wfirst + 3) ss.2.2.2.1
        let pv6 := winSet pv5 (pos - pv5.wfirst + 4) ss.2.2.2.2.1
        let pv7 := winSet pv6 (pos - pv6.wfirst + 5) ss.2.2.2.2.2.1
        let pv8 := winSet pv7 (pos - pv7.wfirst + 6) ss.2.2.2.2.2.2.1
        let pv9 := winSet pv8 (pos - pv8.wfirst + 7) ss.2.2.2.2.2.2.2
        some { pv9 with flags := pv9.flags ||| FLAG_DT ||| FLAG_UT })
  else
    let bw := memcpyHalves8 (hostLE pv) v
    let ss := if le != hostLE pv then (bw.2, bw.1) else bw
    (aksview_write32u pv pos le ss.1).bind (fun pv1 =>
      aksview_write32u pv1 (pos + 4) le ss.2)

/-- The `aksview_write64s` function: the same code as `aksview_write64u`
with the byte pattern of the signed value. -/
def aksview_write64s (pv : AKSVIEW) (pos : Int) (le : Bool) (v : Int) :
    Option AKSVIEW :=
  if pos < 0 ∨ pos ≥ AKSVIEW_MAXLEN then none
  else if pos % 8 = 0 then
    let bb := memcpyBytes8 (hostLE pv) (toUnsigned 64 v)
    (mapByte pv (pos + 7)).bind (fun pv1 =>
      if testFlag pv1 FLAG_RO then none
      else
        let ss := if le != hostLE pv1 then
            (bb.2.2.2.2.2.2.2, bb.2.2.2.2.2.2.1, bb.2.2.2.2.2.1,
             bb.2.2.2.2.1, bb.2.2.2.1, bb.2.2.1, bb.2.1, bb.1)
          else bb
        let pv2 := winSet pv1 (pos - pv1.wfirst) ss.1
        let pv3 := winSet pv2 (pos - pv2.wfirst + 1) ss.2.1
        let pv4 := winSet pv3 (pos - pv3.wfirst + 2) ss.2.2.1
        let pv5 := winSet pv4 (pos - pv4.wfirst + 3) ss.2.2.2.1
        let pv6 := winSet pv5 (pos - pv5.wfirst + 4) ss.2.2.2.2.1
        let pv7 := winSet pv6 (pos - pv6.wfirst + 5) ss.2.2.2.2.2.1
        let pv8 := winSet pv7 (pos - pv7.wfirst + 6) ss.2.2.2.2.2.2.1
        let pv9 := winSet pv8 (pos - pv8.wfirst + 7) ss.2.2.2.2.2.2.2
        some { pv9 with flags := pv9.flags ||| FLAG_DT ||| FLAG_UT })
  else
    let bw := memcpyHalves8 (hostLE pv) (toUnsigned 64 v)
    let ss := if le != hostLE pv then (bw.2, bw.1) else bw
    (aksview_write32u pv pos le ss.1).bind (fun pv1 =>
      aksview_write32u pv1 (pos + 4) le ss.2)

/-- The `aksview_setlen` function.  Faults on a bad new length or a
read-only viewer; no-op (successfully) when the length is unchanged.
Otherwise unmaps everything, attempts the OS resize (its success is the
oracle `osOk`, covering the `lseek`/`write`/`ftruncate` outcomes), and only
on success sets the timestamp flag, updates the cached length and
recomputes the window size. -/
def aksview_setlen (osOk : Bool) (pv : AKSVIEW) (newlen : Int) :
    Option (AKSVIEW × Bool) :=
  if newlen < 0 ∨ newlen > AKSVIEW_MAXLEN then none
  else if testFlag pv FLAG_RO then none
  else if newlen ≠ pv.flen then
    let pv1 := unmap pv
    if osOk then
      let pv2 := { pv1 with flags := pv1.flags ||| FLAG_UT, flen := newlen }
      (computeWindow pv2).map (fun r => (r.1, true))
    else some (pv1, false)
  else some (pv, true)

/-- The `aksview_sethint` function: no-op when the hint is unchanged;
otherwise store the new hint, recompute the window size, and unview iff the
window size changed. -/
def aksview_sethint (pv : AKSVIEW) (wlen : Int) : Option AKSVIEW :=
  if wlen ≠ pv.hint then
    let pv1 := { pv with hint := wlen }
    (computeWindow pv1).map (fun r => if r.2 then unview r.1 else r.1)
  else some pv

/-- Whether `aksview_flush` actually pushes bytes to disk (`msync`): the
guard of aksview_flush, dirty flag set and a window mapped. -/
def flushes (pv : AKSVIEW) : Bool := testFlag pv FLAG_DT && pv.mapped

/-- Observable effects of `aksview_close`: whether the close-time flush
writes dirty data (the unmap path flushes iff the dirty flag is set and a
window is mapped) and whether the last-modified timestamp is updated (iff
the timestamp flag is set; it is untouched by the unmap). -/
def aksview_close (pv : AKSVIEW) : Bool × Bool :=
  (flushes pv, testFlag pv FLAG_UT)

/-- Spec-side definition (§4.4 byte-order rule / P2 of spec.md): the value
of a `W`-byte little-endian read is the bytes at `p, p+1, …` with the byte
at `p` least significant.  Recursive little-endian assembly. -/
def rdLE (f : Int → Nat) : Int → Nat → Nat
  | _, 0 => 0
  | p, n + 1 => f p + 256 * rdLE f (p + 1) n

/-- Spec-side definition: big-endian assembly, the byte at `p` most
significant. -/
def rdBE (f : Int → Nat) : Int → Nat → Nat
  | _, 0 => 0
  | p, n + 1 => f p * 256 ^ n + rdBE f (p + 1) n

/-- Spec-side definition of a typed read ("reading the W/8 individual bytes
at offsets O..O+W/8-1 and assembling them according to B"): byte-wise
assembly of `w` bytes starting at `p` in the requested order. -/
def spec_read_val (le : Bool) (f : Int → Nat) (p : Int) (w : Nat) : Nat :=
  if le then rdLE f p w else rdBE f p w

/-- Byte `k` of a `w`-byte store of value `v` in the requested order: for
little-endian the byte at offset `p + k` is `v / 256^k % 256`, for
big-endian it is `v / 256^(w-1-k) % 256`. -/
def wByte (le : Bool) (v : Nat) (w k : Nat) : Nat :=
  if le then v / 256 ^ k % 256 else v / 256 ^ (w - 1 - k) % 256

/-- File content after a `w`-byte store of `v` at offset `p` in the
requested order: the `w` bytes of `v` replace offsets `p..p+w-1`, all other
bytes are unchanged. -/
def wrFile (le : Bool) (v : Nat) (p : Int) (w : Nat) (f : Int → Nat) :
    Int → Nat :=
  fun j => if 0 ≤ j - p ∧ j - p < (w : Int) then wByte le v w (j - p).toNat
    else f j

/-- Trace operations for a viewer on which only read-type public calls are
made: the eight typed reads, `aksview_writable`, `aksview_getlen` (both of
which do not touch the state) and `aksview_flush`. -/
inductive ROp where
  | r8 (pos : Int)
  | r8s (pos : Int)
  | r16u (pos : Int) (le : Bool)
  | r16s (pos : Int) (le : Bool)
  | r32u (pos : Int) (le : Bool)
  | r32s (pos : Int) (le : Bool)
  | r64u (pos : Int) (le : Bool)
  | r64s (pos : Int) (le : Bool)
  | wrtble
  | glen
  | fl

/-- Run one read-type operation, keeping only the state. -/
def runROp (pv : AKSVIEW) : ROp → Option AKSVIEW
  | .r8 pos => (aksview_read8u pv pos).map Prod.fst
  | .r8s pos => (aksview_read8s pv pos).map Prod.fst
  | .r16u pos le => (aksview_read16u pv pos le).map Prod.fst
  | .r16s pos le => (aksview_read16s pv pos le).map Prod.fst
  | .r32u pos le => (aksview_read32u pv pos le).map Prod.fst
  | .r32s pos le => (aksview_read32s pv pos le).map Prod.fst
  | .r64u pos le => (aksview_read64u pv pos le).map Prod.fst
  | .r64s pos le => (aksview_read64s pv pos le).map Prod.fst
  | .wrtble => some pv
  | .glen => some pv
  | .fl => some (aksview_flush pv)

/-- Run a sequence of read-type operations. -/
def runROps (pv : AKSVIEW) : List ROp → Option AKSVIEW
  | [] => some pv
  | op :: t => (runROp pv op).bind (fun pv1 => runROps pv1 t)

/-- State invariant of a reachable viewer: the four flag bits, valid length
and page size, the derived window-size facts established by `computeWindow`
(zero iff the file is empty, at most the file length, and either a multiple
of eight or the whole file), and the window bounds established by `mapByte`
(aligned start, clipped end) or the `-1` sentinels when unmapped. -/
def Inv (pv : AKSVIEW) : Prop :=
  pv.flags < 16 ∧ 0 ≤ pv.flen ∧ pv.flen ≤ AKSVIEW_MAXLEN ∧
  8 ≤ pv.pgsize ∧ pv.pgsize % 8 = 0 ∧
  0 ≤ pv.wlen ∧ pv.wlen ≤ pv.flen ∧ (0 < pv.flen → 1 ≤ pv.wlen) ∧
  (pv.wlen % 8 = 0 ∨ pv.wlen = pv.flen) ∧
  (pv.mapped = true → 0 ≤ pv.wfirst ∧ pv.wfirst < pv.flen ∧
    pv.wfirst % pv.wlen = 0 ∧
    pv.wlast = pv.wfirst - 1 + min pv.wlen (pv.flen - pv.wfirst)) ∧
  (pv.mapped = false → pv.wfirst = -1 ∧ pv.wlast = -1)

/-- Fields and flag bits that no typed access changes. -/
def BaseFrame (pv pv' : AKSVIEW) : Prop :=
  pv'.flen = pv.flen ∧ pv'.pgsize = pv.pgsize ∧ pv'.hint = pv.hint ∧
  pv'.wlen = pv.wlen ∧ testFlag pv' FLAG_RO = testFlag pv FLAG_RO ∧
  hostLE pv' = hostLE pv

/-- Additional guarantees of read-type operations: the file bytes and the
timestamp flag are unchanged and the dirty flag is never newly set. -/
def ReadFrame (pv pv' : AKSVIEW) : Prop :=
  BaseFrame pv pv' ∧ pv'.file = pv.file ∧
  testFlag pv' FLAG_UT = testFlag pv FLAG_UT ∧
  (testFlag pv' FLAG_DT = true → testFlag pv FLAG_DT = true)

/-- The implicit dirty-window invariant: whenever the window-dirty flag is
set, a window is currently mapped and its bounds are non-negative (so the
guard of `aksview_flush` is true and the dirty data is actually flushed). -/
def DtInv (pv : AKSVIEW) : Prop :=
  testFlag pv FLAG_DT = true →
    pv.mapped = true ∧ 0 ≤ pv.wfirst ∧ 0 ≤ pv.wlast

/-- A concrete writable little-endian-host viewer over a 16-byte zero file
with an 8-byte page size and no window mapped, used to evaluate the
theorems on a specific state. -/
def pvA : AKSVIEW :=
  { flags := 2, flen := 16, pgsize := 8, hint := 16777216, wlen := 16,
    mapped := false, wfirst := -1, wlast := -1, file := fun _ => 0 }

/-- The same concrete viewer opened read-only. -/
def pvRO : AKSVIEW :=
  { flags := 1, flen := 16, pgsize := 8, hint := 16777216, wlen := 16,
    mapped := false, wfirst := -1, wlast := -1, file := fun _ => 0 }

/-- The same concrete viewer over an empty file. -/
def pvE : AKSVIEW :=
  { flags := 2, flen := 0, pgsize := 8, hint := 16777216, wlen := 0,
    mapped := false, wfirst := -1, wlast := -1, file := fun _ => 0 }

theorem BaseFrame_rfl (pv : AKSVIEW) : BaseFrame pv pv :=
  ⟨rfl, rfl, rfl, rfl, rfl, rfl⟩

theorem BaseFrame_trans {a b c : AKSVIEW} (h1 : BaseFrame a b)
    (h2 : BaseFrame b c) : BaseFrame a c := by
  obtain ⟨u1, u2, u3, u4, u5, u6⟩ := h1
  obtain ⟨v1, v2, v3, v4, v5, v6⟩ := h2
  exact ⟨v1.trans u1, v2.trans u2, v3.trans u3, v4.trans u4, v5.trans u5,
    v6.trans u6⟩

theorem ReadFrame_rfl (pv : AKSVIEW) : ReadFrame pv pv :=
  ⟨BaseFrame_rfl pv, rfl, rfl, fun h => h⟩

theorem ReadFrame_trans {a b c : AKSVIEW} (h1 : ReadFrame a b)
    (h2 : ReadFrame b c) : ReadFrame a c := by
  obtain ⟨u1, u2, u3, u4⟩ := h1
  obtain ⟨v1, v2, v3, v4⟩ := h2
  exact ⟨BaseFrame_trans u1 v1, v2.trans u2, v3.trans u3,
    fun h => u4 (v4 h)⟩

theorem natFlagXor : ∀ x : Nat, x < 16 → x ^^^ 4 < 16 ∧
    (x ^^^ 4) &&& 1 = x &&& 1 ∧ (x ^^^ 4) &&& 2 = x &&& 2 ∧
    (x ^^^ 4) &&& 8 = x &&& 8 ∧ (x &&& 4 ≠ 0 → (x ^^^ 4) &&& 4 = 0) := by
  decide

theorem natFlagOrDtUt : ∀ x : Nat, x < 16 → x ||| 4 ||| 8 < 16 ∧
    (x ||| 4 ||| 8) &&& 1 = x &&& 1 ∧ (x ||| 4 ||| 8) &&& 2 = x &&& 2 ∧
    (x ||| 4 ||| 8) &&& 4 ≠ 0 ∧ (x ||| 4 ||| 8) &&& 8 ≠ 0 := by
  decide

theorem natFlagOrUt : ∀ x : Nat, x < 16 → x ||| 8 < 16 ∧
    (x ||| 8) &&& 1 = x &&& 1 ∧ (x ||| 8) &&& 2 = x &&& 2 ∧
    (x ||| 8) &&& 4 = x &&& 4 ∧ (x ||| 8) &&& 8 ≠ 0 := by
  decide

theorem flush_spec (pv : AKSVIEW) (h16 : pv.flags < 16) :
    (aksview_flush pv).flags < 16 ∧ ReadFrame pv (aksview_flush pv) ∧
    (aksview_flush pv).flen = pv.flen ∧
    (aksview_flush pv).pgsize = pv.pgsize ∧
    (aksview_flush pv).hint = pv.hint ∧
    (aksview_flush pv).wlen = pv.wlen ∧
    (aksview_flush pv).mapped = pv.mapped ∧
    (aksview_flush pv).wfirst = pv.wfirst ∧
    (aksview_flush pv).wlast = pv.wlast ∧
    (aksview_flush pv).file = pv.file := by
  unfold aksview_flush
  by_cases hc : (testFlag pv FLAG_DT && pv.mapped) = true
  · rw [if_pos hc]
    obtain ⟨x1, x2, x3, x4, x5⟩ := natFlagXor pv.flags h16
    refine ⟨x1, ⟨⟨rfl, rfl, rfl, rfl, ?_, ?_⟩, rfl, ?_, ?_⟩,
      rfl, rfl, rfl, rfl, rfl, rfl, rfl, rfl⟩
    · show ((pv.flags ^^^ 4) &&& 1 != 0) = (pv.flags &&& 1 != 0)
      rw [x2]
    · show ((pv.flags ^^^ 4) &&& 2 != 0) = (pv.flags &&& 2 != 0)
      rw [x3]
    · show ((pv.flags ^^^ 4) &&& 8 != 0) = (pv.flags &&& 8 != 0)
      rw [x4]
    · intro h
      have hdt : pv.flags &&& 4 ≠ 0 := by
        have hb := (Bool.and_eq_true _ _).mp hc
        simpa [testFlag, FLAG_DT] using hb.1
      have h0 := x5 hdt
      simp [testFlag, FLAG_DT, h0] at h
  · rw [if_neg hc]
    exact ⟨h16, ReadFrame_rfl pv, rfl, rfl, rfl, rfl, rfl, rfl, rfl, rfl⟩

theorem flush_inv {pv : AKSVIEW} (hI : Inv pv) : Inv (aksview_flush pv) := by
  obtain ⟨h16, hf0, hfM, hp8, hpm, hw0, hwle, hwpos, hwal, hwm, hwu⟩ := hI
  obtain ⟨g16, _, gflen, gpg, ghint, gwlen, gmap, gwf, gwl, _⟩ :=
    flush_spec pv h16
  refine ⟨g16, ?_, ?_, ?_, ?_, ?_, ?_, ?_, ?_, ?_, ?_⟩ <;>
    simp only [gflen, gpg, ghint, gwlen, gmap, gwf, gwl]
  · exact hf0
  · exact hfM
  · exact hp8
  · exact hpm
  · exact hw0
  · exact hwle
  · exact hwpos
  · exact hwal
  · exact hwm
  · exact hwu

theorem unview_spec {pv : AKSVIEW} (hI : Inv pv) :
    Inv (unview pv) ∧ ReadFrame pv (unview pv) ∧
    (unview pv).mapped = false ∧ (unview pv).wfirst = -1 ∧
    (unview pv).wlast = -1 := by
  obtain ⟨h16, hf0, hfM, hp8, hpm, hw0, hwle, hwpos, hwal, hwm, hwu⟩ := hI
  unfold unview
  by_cases hm : pv.mapped = true
  · obtain ⟨g16, gRF, gflen, gpg, ghint, gwlen, _, _, _, gfile⟩ :=
      flush_spec pv h16
    obtain ⟨⟨b1, b2, b3, b4, b5, b6⟩, _, gUT, gDT⟩ := gRF
    rw [if_pos hm]
    constructor
    · exact ⟨g16, gflen ▸ hf0, gflen ▸ hfM, gpg ▸ hp8, gpg ▸ hpm,
        gwlen ▸ hw0, by rw [gwlen, gflen]; exact hwle,
        by rw [gwlen, gflen]; exact hwpos,
        by rw [gwlen, gflen]; exact hwal,
        by intro h; exact absurd h (by simp),
        by intro _; exact ⟨rfl, rfl⟩⟩
    · exact ⟨⟨⟨b1, b2, b3, b4, b5, b6⟩, gfile, gUT, gDT⟩, rfl, rfl, rfl⟩
  · have hm' : pv.mapped = false := by
      cases hq : pv.mapped
      · rfl
      · exact absurd hq hm
    rw [if_neg hm]
    exact ⟨⟨h16, hf0, hfM, hp8, hpm, hw0, hwle, hwpos, hwal, hwm, hwu⟩,
      ReadFrame_rfl pv, hm', (hwu hm').1, (hwu hm').2⟩

theorem window_calc {b L F : Int} (h0 : 0 ≤ b) (h1 : b < F) (hL : 0 < L) :
    0 ≤ b / L * L ∧ b / L * L ≤ b ∧ b / L * L % L = 0 ∧
    b ≤ b / L * L - 1 + min L (F - b / L * L) := by
  have hmodz : b / L * L % L = 0 := Int.mul_emod_left _ _
  have hdiv0 : 0 ≤ b / L := Int.ediv_nonneg h0 (le_of_lt hL)
  have hw0 : 0 ≤ b / L * L := mul_nonneg hdiv0 (le_of_lt hL)
  have hsum : b / L * L + b % L = b := by
    rw [mul_comm]
    exact Int.ediv_add_emod b L
  have hmod0 : 0 ≤ b % L := Int.emod_nonneg b (by omega)
  have hmodL : b % L < L := Int.emod_lt_of_pos b hL
  obtain ⟨w, hw⟩ : ∃ w, b / L * L = w := ⟨_, rfl⟩
  obtain ⟨e, he⟩ : ∃ e, b % L = e := ⟨_, rfl⟩
  rw [hw] at hmodz hw0 hsum ⊢
  rw [he] at hsum hmod0 hmodL
  refine ⟨hw0, by omega, hmodz, ?_⟩
  rcases le_total L (F - w) with h | h
  · rw [min_eq_left h]
    omega
  · rw [min_eq_right h]
    omega

theorem window_align {pos W L F wf : Int}
    (hW : W = 1 ∨ W = 2 ∨ W = 4 ∨ W = 8) (hal : pos % W = 0)
    (h0 : 0 ≤ pos) (hWle : pos + W ≤ F) (hwal : L % 8 = 0 ∨ L = F)
    (hwf0 : 0 ≤ wf) (hwfF : wf < F) (hwfm : wf % L = 0)
    (hwfb : wf ≤ pos + W - 1) : wf ≤ pos := by
  rcases hwal with hw8 | hwF
  · have h8L : (8 : Int) ∣ L := Int.dvd_of_emod_eq_zero hw8
    have hWL : W ∣ L := by
      rcases hW with rfl | rfl | rfl | rfl
      · exact one_dvd L
      · exact dvd_trans (by norm_num) h8L
      · exact dvd_trans (by norm_num) h8L
      · exact h8L
    have hWwf : wf % W = 0 :=
      Int.emod_eq_zero_of_dvd
        (dvd_trans hWL (Int.dvd_of_emod_eq_zero hwfm))
    rcases hW with rfl | rfl | rfl | rfl <;> omega
  · have hwlt : wf < L := by omega
    have : wf % L = wf := Int.emod_eq_of_lt hwf0 hwlt
    omega

theorem mapByte_spec {pv : AKSVIEW} {b : Int} (hI : Inv pv) (h0 : 0 ≤ b)
    (h1 : b < pv.flen) :
    ∃ pv', mapByte pv b = some pv' ∧ Inv pv' ∧ ReadFrame pv pv' ∧
      pv'.mapped = true ∧ pv'.wfirst ≤ b ∧ b ≤ pv'.wlast := by
  obtain ⟨h16, hf0, hfM, hp8, hpm, hw0, hwle, hwpos, hwal, hwm, hwu⟩ := hI
  have hbound : ¬(b < 0 ∨ b ≥ pv.flen) := by omega
  by_cases hmiss : b < pv.wfirst ∨ b > pv.wlast
  · obtain ⟨hI1, hRF1, hm1, hwf1, hwl1⟩ :=
      @unview_spec pv
        ⟨h16, hf0, hfM, hp8, hpm, hw0, hwle, hwpos, hwal, hwm, hwu⟩
    obtain ⟨q, hq⟩ : ∃ q, unview pv = q := ⟨_, rfl⟩
    rw [hq] at hI1 hRF1 hm1 hwf1 hwl1
    obtain ⟨⟨q1, q2, q3, q4, q5, q6⟩, qfile, qUT, qDT⟩ := hRF1
    obtain ⟨k16, kf0, kfM, kp8, kpm, kw0, kwle, kwpos, kwal, kwm, kwu⟩ := hI1
    have hrun : mapByte pv b = some
        ({ q with mapped := true,
                  wfirst := b / q.wlen * q.wlen,
                  wlast := b / q.wlen * q.wlen - 1 +
                    (if q.flen - b / q.wlen * q.wlen < q.wlen
                      then q.flen - b / q.wlen * q.wlen else q.wlen) }) := by
      unfold mapByte
      rw [if_neg hbound, if_pos hmiss, hq]
    have hL0 : (0 : Int) < q.wlen := by
      rw [q4]
      have := hwpos (by omega)
      omega
    have hcalc := window_calc (L := q.wlen) (F := q.flen) h0 (by omega) hL0
    obtain ⟨c0, c1, c2, c3⟩ := hcalc
    have hmin : (if q.flen - b / q.wlen * q.wlen < q.wlen
        then q.flen - b / q.wlen * q.wlen else q.wlen) =
        min q.wlen (q.flen - b / q.wlen * q.wlen) := by
      by_cases h : q.flen - b / q.wlen * q.wlen < q.wlen
      · rw [if_pos h, min_eq_right (le_of_lt h)]
      · rw [if_neg h, min_eq_left (not_lt.mp h)]
    refine ⟨_, hrun, ?_, ?_, rfl, c1, ?_⟩
    · refine ⟨k16, kf0, kfM, kp8, kpm, kw0, kwle, kwpos, kwal, ?_, ?_⟩
      · intro _
        refine ⟨c0, ?_, c2, ?_⟩
        · show b / q.wlen * q.wlen < q.flen
          omega
        · show b / q.wlen * q.wlen - 1 +
              (if q.flen - b / q.wlen * q.wlen < q.wlen
                then q.flen - b / q.wlen * q.wlen else q.wlen) =
              b / q.wlen * q.wlen - 1 +
              min q.wlen (q.flen - b / q.wlen * q.wlen)
          rw [hmin]
      · intro h
        exact absurd h (by simp)
    · refine ReadFrame_trans ⟨⟨q1, q2, q3, q4, q5, q6⟩, qfile, qUT, qDT⟩
        ⟨⟨rfl, rfl, rfl, rfl, rfl, rfl⟩, rfl, rfl, fun h => h⟩
    · show b ≤ b / q.wlen * q.wlen - 1 +
          (if q.flen - b / q.wlen * q.wlen < q.wlen
            then q.flen - b / q.wlen * q.wlen else q.wlen)
      rw [hmin]
      exact c3
  · have hrun : mapByte pv b = some pv := by
      unfold mapByte
      rw [if_neg hbound, if_neg hmiss]
    push_neg at hmiss
    have hm : pv.mapped = true := by
      cases hmq : pv.mapped
      · obtain ⟨_, hlast⟩ := hwu hmq
        omega
      · rfl
    exact ⟨pv, hrun,
      ⟨h16, hf0, hfM, hp8, hpm, hw0, hwle, hwpos, hwal, hwm, hwu⟩,
      ReadFrame_rfl pv, hm, hmiss.1, hmiss.2⟩

theorem mapByte_aligned {pv : AKSVIEW} {pos W : Int} (hI : Inv pv)
    (hW : W = 1 ∨ W = 2 ∨ W = 4 ∨ W = 8) (hal : pos % W = 0)
    (h0 : 0 ≤ pos) (hWle : pos + W ≤ pv.flen) :
    ∃ pv', mapByte pv (pos + W - 1) = some pv' ∧ Inv pv' ∧
      ReadFrame pv pv' ∧ pv'.mapped = true ∧
      pv'.wfirst ≤ pos ∧ pos + W - 1 ≤ pv'.wlast := by
  have hWpos : (0 : Int) < W := by rcases hW with rfl | rfl | rfl | rfl <;> omega
  obtain ⟨pv', hrun, hI', hRF', hmp', hwf', hwl'⟩ :=
    mapByte_spec hI (b := pos + W - 1) (by omega) (by omega)
  have hwal' := hI'.2.2.2.2.2.2.2.2.1
  have hwm' := hI'.2.2.2.2.2.2.2.2.2.1
  have hflen' : pv'.flen = pv.flen := hRF'.1.1
  obtain ⟨g0, gF, gm, _⟩ := hwm' hmp'
  refine ⟨pv', hrun, hI', hRF', hmp', ?_, hwl'⟩
  exact window_align (F := pv'.flen) hW hal h0 (by omega) hwal' g0 gF gm
    (by omega)

theorem read8u_spec {pv : AKSVIEW} {pos : Int} (hI : Inv pv) (h0 : 0 ≤ pos)
    (h1 : pos + 1 ≤ pv.flen) :
    ∃ pv', aksview_read8u pv pos = some (pv', pv.file pos) ∧ Inv pv' ∧
      ReadFrame pv pv' ∧ pv'.mapped = true := by
  obtain ⟨pv', hrun, hI', hRF', hmp', _, _⟩ := mapByte_spec hI h0 (by omega)
  refine ⟨pv', ?_, hI', hRF', hmp'⟩
  unfold aksview_read8u
  rw [hrun]
  have harg : pv'.wfirst + (pos - pv'.wfirst) = pos := by ring
  have hval : winGet pv' (pos - pv'.wfirst) = pv.file pos := by
    unfold winGet
    rw [harg, hRF'.2.1]
  simp [hval]

theorem write8u_spec {pv : AKSVIEW} {pos : Int} {v : Nat} (hI : Inv pv)
    (hRO : testFlag pv FLAG_RO = false) (h0 : 0 ≤ pos)
    (h1 : pos + 1 ≤ pv.flen) :
    ∃ pv', aksview_write8u pv pos v = some pv' ∧ Inv pv' ∧
      BaseFrame pv pv' ∧ pv'.mapped = true ∧
      testFlag pv' FLAG_DT = true ∧ testFlag pv' FLAG_UT = true ∧
      pv'.file = fun j => if j = pos then v else pv.file j := by
  obtain ⟨pv1, hrun, hI1, hRF1, hmp1, _, _⟩ := mapByte_spec hI h0 (by omega)
  obtain ⟨⟨b1, b2, b3, b4, b5, b6⟩, bfile, bUT, bDT⟩ := hRF1
  obtain ⟨k16, kf0, kfM, kp8, kpm, kw0, kwle, kwpos, kwal, kwm, kwu⟩ := hI1
  obtain ⟨o16, oRO, oLE, oDT, oUT⟩ := natFlagOrDtUt pv1.flags k16
  unfold aksview_write8u
  rw [hrun]
  have hro1 : ¬ testFlag pv1 FLAG_RO = true := by
    rw [b5, hRO]
    simp
  refine ⟨winSet { pv1 with flags := pv1.flags ||| FLAG_DT ||| FLAG_UT }
      (pos - pv1.wfirst) v,
    by rw [Option.some_bind, if_neg hro1], ?_, ?_, hmp1, ?_, ?_, ?_⟩
  · refine ⟨?_, kf0, kfM, kp8, kpm, kw0, kwle, kwpos, kwal, kwm, kwu⟩
    show pv1.flags ||| 4 ||| 8 < 16
    exact o16
  · refine ⟨b1, b2, b3, b4, ?_, ?_⟩
    · show ((pv1.flags ||| 4 ||| 8) &&& 1 != 0) = (pv.flags &&& 1 != 0)
      rw [oRO]
      exact b5
    · show ((pv1.flags ||| 4 ||| 8) &&& 2 != 0) = (pv.flags &&& 2 != 0)
      rw [oLE]
      exact b6
  · show ((pv1.flags ||| 4 ||| 8) &&& 4 != 0) = true
    simp [oDT]
  · show ((pv1.flags ||| 4 ||| 8) &&& 8 != 0) = true
    simp [oUT]
  · show (fun j => if j = pv1.wfirst + (pos - pv1.wfirst) then v
        else pv1.file j) = fun j => if j = pos then v else pv.file j
    have harg : pv1.wfirst + (pos - pv1.wfirst) = pos := by ring
    rw [harg, bfile]

theorem sv2T (f : Int → Nat) (p : Int) :
    spec_read_val true f p 2 = f p + 256 * f (p + 1) := by
  show f p + 256 * (f (p + 1) + 256 * 0) = _
  ring

theorem sv2F (f : Int → Nat) (p : Int) :
    spec_read_val false f p 2 = 256 * f p + f (p + 1) := by
  show f p * 256 ^ 1 + (f (p + 1) * 256 ^ 0 + 0) = _
  ring

theorem sv4T (f : Int → Nat) (p : Int) :
    spec_read_val true f p 4 = f p + 256 * f (p + 1) + 65536 * f (p + 2) +
      16777216 * f (p + 3) := by
  show f p + 256 * (f (p + 1) + 256 * (f (p + 1 + 1) +
    256 * (f (p + 1 + 1 + 1) + 256 * 0))) = _
  simp only [show p + 1 + 1 = p + 2 from by ring,
    show p + 2 + 1 = p + 3 from by ring]
  ring

theorem sv4F (f : Int → Nat) (p : Int) :
    spec_read_val false f p 4 = 16777216 * f p + 65536 * f (p + 1) +
      256 * f (p + 2) + f (p + 3) := by
  show f p * 256 ^ 3 + (f (p + 1) * 256 ^ 2 + (f (p + 1 + 1) * 256 ^ 1 +
    (f (p + 1 + 1 + 1) * 256 ^ 0 + 0))) = _
  simp only [show p + 1 + 1 = p + 2 from by ring,
    show p + 2 + 1 = p + 3 from by ring]
  ring

theorem sv8T (f : Int → Nat) (p : Int) :
    spec_read_val true f p 8 = f p + 256 * f (p + 1) + 65536 * f (p + 2) +
      16777216 * f (p + 3) + 4294967296 * f (p + 4) +
      1099511627776 * f (p + 5) + 281474976710656 * f (p + 6) +
      72057594037927936 * f (p + 7) := by
  show f p + 256 * (f (p + 1) + 256 * (f (p + 1 + 1) +
    256 * (f (p + 1 + 1 + 1) + 256 * (f (p + 1 + 1 + 1 + 1) +
    256 * (f (p + 1 + 1 + 1 + 1 + 1) + 256 * (f (p + 1 + 1 + 1 + 1 + 1 + 1) +
    256 * (f (p + 1 + 1 + 1 + 1 + 1 + 1 + 1) + 256 * 0))))))) = _
  simp only [show p + 1 + 1 = p + 2 from by ring,
    show p + 2 + 1 = p + 3 from by ring,
    show p + 3 + 1 = p + 4 from by ring,
    show p + 4 + 1 = p + 5 from by ring,
    show p + 5 + 1 = p + 6 from by ring,
    show p + 6 + 1 = p + 7 from by ring]
  ring

theorem sv8F (f : Int → Nat) (p : Int) :
    spec_read_val false f p 8 = 72057594037927936 * f p +
      281474976710656 * f (p + 1) + 1099511627776 * f (p + 2) +
      4294967296 * f (p + 3) + 16777216 * f (p + 4) + 65536 * f (p + 5) +
      256 * f (p + 6) + f (p + 7) := by
  show f p * 256 ^ 7 + (f (p + 1) * 256 ^ 6 + (f (p + 1 + 1) * 256 ^ 5 +
    (f (p + 1 + 1 + 1) * 256 ^ 4 + (f (p + 1 + 1 + 1 + 1) * 256 ^ 3 +
    (f (p + 1 + 1 + 1 + 1 + 1) * 256 ^ 2 +
    (f (p + 1 + 1 + 1 + 1 + 1 + 1) * 256 ^ 1 +
    (f (p + 1 + 1 + 1 + 1 + 1 + 1 + 1) * 256 ^ 0 + 0))))))) = _
  simp only [show p + 1 + 1 = p + 2 from by ring,
    show p + 2 + 1 = p + 3 from by ring,
    show p + 3 + 1 = p + 4 from by ring,
    show p + 4 + 1 = p + 5 from by ring,
    show p + 5 + 1 = p + 6 from by ring,
    show p + 6 + 1 = p + 7 from by ring]
  ring

theorem flip_val2 (le h : Bool) (c0 c1 : Nat) :
    memcpyVal2 h (if le != h then (c1, c0) else (c0, c1)).1
      (if le != h then (c1, c0) else (c0, c1)).2 =
    if le then c0 + 256 * c1 else c1 + 256 * c0 := by
  cases le <;> cases h <;> simp [memcpyVal2]

theorem flip_val4 (le h : Bool) (c0 c1 c2 c3 : Nat) :
    memcpyVal4 h (if le != h then (c3, c2, c1, c0) else (c0, c1, c2, c3)).1
      (if le != h then (c3, c2, c1, c0) else (c0, c1, c2, c3)).2.1
      (if le != h then (c3, c2, c1, c0) else (c0, c1, c2, c3)).2.2.1
      (if le != h then (c3, c2, c1, c0) else (c0, c1, c2, c3)).2.2.2 =
    if le then c0 + 256 * c1 + 65536 * c2 + 16777216 * c3
      else c3 + 256 * c2 + 65536 * c1 + 16777216 * c0 := by
  cases le <;> cases h <;> simp [memcpyVal4]

theorem flip_val8 (le h : Bool) (c0 c1 c2 c3 c4 c5 c6 c7 : Nat) :
    memcpyVal8 h
      (if le != h then (c7, c6, c5, c4, c3, c2, c1, c0)
        else (c0, c1, c2, c3, c4, c5, c6, c7)).1
      (if le != h then (c7, c6, c5, c4, c3, c2, c1, c0)
        else (c0, c1, c2, c3, c4, c5, c6, c7)).2.1
      (if le != h then (c7, c6, c5, c4, c3, c2, c1, c0)
        else (c0, c1, c2, c3, c4, c5, c6, c7)).2.2.1
      (if le != h then (c7, c6, c5, c4, c3, c2, c1, c0)
        else (c0, c1, c2, c3, c4, c5, c6, c7)).2.2.2.1
      (if le != h then (c7, c6, c5, c4, c3, c2, c1, c0)
        else (c0, c1, c2, c3, c4, c5, c6, c7)).2.2.2.2.1
      (if le != h then (c7, c6, c5, c4, c3, c2, c1, c0)
        else (c0, c1, c2, c3, c4, c5, c6, c7)).2.2.2.2.2.1
      (if le != h then (c7, c6, c5, c4, c3, c2, c1, c0)
        else (c0, c1, c2, c3, c4, c5, c6, c7)).2.2.2.2.2.2.1
      (if le != h then (c7, c6, c5, c4, c3, c2, c1, c0)
        else (c0, c1, c2, c3, c4, c5, c6, c7)).2.2.2.2.2.2.2 =
    if le then c0 + 256 * c1 + 65536 * c2 + 16777216 * c3 +
      4294967296 * c4 + 1099511627776 * c5 + 281474976710656 * c6 +
      72057594037927936 * c7
    else c7 + 256 * c6 + 65536 * c5 + 16777216 * c4 + 4294967296 * c3 +
      1099511627776 * c2 + 281474976710656 * c1 +
      72057594037927936 * c0 := by
  cases le <;> cases h <;> simp [memcpyVal8]

theorem flip_val4w (le h : Bool) (r0 r1 : Nat) :
    memcpyVal4w h (if le != h then (r1, r0) else (r0, r1)).1
      (if le != h then (r1, r0) else (r0, r1)).2 =
    if le then r0 + 65536 * r1 else r1 + 65536 * r0 := by
  cases le <;> cases h <;> simp [memcpyVal4w]

theorem flip_val8w (le h : Bool) (r0 r1 : Nat) :
    memcpyVal8w h (if le != h then (r1, r0) else (r0, r1)).1
      (if le != h then (r1, r0) else (r0, r1)).2 =
    if le then r0 + 4294967296 * r1 else r1 + 4294967296 * r0 := by
  cases le <;> cases h <;> simp [memcpyVal8w]

theorem flip2_spec (le : Bool) (f : Int → Nat) (p : Int) :
    (if le then f p + 256 * f (p + 1) else f (p + 1) + 256 * f p) =
    spec_read_val le f p 2 := by
  cases le
  · rw [sv2F]
    simp only [Bool.false_eq_true, if_false]
    ring
  · rw [sv2T]
    simp

theorem flip4_spec (le : Bool) (f : Int → Nat) (p : Int) :
    (if le then f p + 256 * f (p + 1) + 65536 * f (p + 2) +
        16777216 * f (p + 3)
      else f (p + 3) + 256 * f (p + 2) + 65536 * f (p + 1) +
        16777216 * f p) =
    spec_read_val le f p 4 := by
  cases le
  · rw [sv4F]
    simp only [Bool.false_eq_true, if_false]
    ring
  · rw [sv4T]
    simp

theorem flip8_spec (le : Bool) (f : Int → Nat) (p : Int) :
    (if le then f p + 256 * f (p + 1) + 65536 * f (p + 2) +
        16777216 * f (p + 3) + 4294967296 * f (p + 4) +
        1099511627776 * f (p + 5) + 281474976710656 * f (p + 6) +
        72057594037927936 * f (p + 7)
      else f (p + 7) + 256 * f (p + 6) + 65536 * f (p + 5) +
        16777216 * f (p + 4) + 4294967296 * f (p + 3) +
        1099511627776 * f (p + 2) + 281474976710656 * f (p + 1) +
        72057594037927936 * f p) =
    spec_read_val le f p 8 := by
  cases le
  · rw [sv8F]
    simp only [Bool.false_eq_true, if_false]
    ring
  · rw [sv8T]
    simp

theorem join4_spec (le : Bool) (f : Int → Nat) (p : Int) :
    (if le then spec_read_val le f p 2 + 65536 * spec_read_val le f (p + 2) 2
      else spec_read_val le f (p + 2) 2 + 65536 * spec_read_val le f p 2) =
    spec_read_val le f p 4 := by
  cases le
  · rw [sv2F, sv2F, sv4F]
    simp only [Bool.false_eq_true, if_false]
    rw [show p + 2 + 1 = p + 3 from by ring]
    ring
  · rw [sv2T, sv2T, sv4T]
    simp only [if_pos trivial]
    rw [show p + 2 + 1 = p + 3 from by ring]
    ring

theorem join8_spec (le : Bool) (f : Int → Nat) (p : Int) :
    (if le then spec_read_val le f p 4 +
        4294967296 * spec_read_val le f (p + 4) 4
      else spec_read_val le f (p + 4) 4 +
        4294967296 * spec_read_val le f p 4) =
    spec_read_val le f p 8 := by
  cases le
  · rw [sv4F, sv4F, sv8F]
    simp only [Bool.false_eq_true, if_false]
    rw [show p + 4 + 1 = p + 5 from by ring,
      show p + 4 + 2 = p + 6 from by ring,
      show p + 4 + 3 = p + 7 from by ring]
    ring
  · rw [sv4T, sv4T, sv8T]
    simp only [if_pos trivial]
    rw [show p + 4 + 1 = p + 5 from by ring,
      show p + 4 + 2 = p + 6 from by ring,
      show p + 4 + 3 = p + 7 from by ring]
    ring

theorem read16u_spec {pv : AKSVIEW} {pos : Int} {le : Bool} (hI : Inv pv)
    (h0 : 0 ≤ pos) (h1 : pos + 2 ≤ pv.flen) :
    ∃ pv', aksview_read16u pv pos le =
        some (pv', spec_read_val le pv.file pos 2) ∧ Inv pv' ∧
      ReadFrame pv pv' ∧ pv'.mapped = true := by
  have hMAX : pos < AKSVIEW_MAXLEN := by
    have := hI.2.2.1
    omega
  have hpre : ¬(pos < 0 ∨ pos ≥ AKSVIEW_MAXLEN) := by omega
  unfold aksview_read16u
  rw [if_neg hpre]
  by_cases hali : pos % 2 = 0
  · rw [if_pos hali]
    obtain ⟨pv1, hrun, hI1, hRF1, hmp1, _, _⟩ :=
      mapByte_spec hI (b := pos + 1) (by omega) (by omega)
    have hc0 : winGet pv1 (pos - pv1.wfirst) = pv.file pos := by
      unfold winGet
      rw [show pv1.wfirst + (pos - pv1.wfirst) = pos from by ring, hRF1.2.1]
    have hc1 : winGet pv1 (pos - pv1.wfirst + 1) = pv.file (pos + 1) := by
      unfold winGet
      rw [show pv1.wfirst + (pos - pv1.wfirst + 1) = pos + 1 from by ring,
        hRF1.2.1]
    refine ⟨pv1, ?_, hI1, hRF1, hmp1⟩
    rw [hrun, Option.map_some']
    simp only [hc0, hc1]
    rw [flip_val2 le (hostLE pv1) (pv.file pos) (pv.file (pos + 1)),
      flip2_spec]
  · rw [if_neg hali]
    obtain ⟨pv1, hrun1, hI1, hRF1, hmp1⟩ := read8u_spec hI h0 (by omega)
    obtain ⟨pv2, hrun2, hI2, hRF2, hmp2⟩ :=
      @read8u_spec pv1 (pos + 1) hI1 (by omega) (by rw [hRF1.1.1]; omega)
    refine ⟨pv2, ?_, hI2, ReadFrame_trans hRF1 hRF2, hmp2⟩
    simp only [hrun1, Option.some_bind, hrun2, Option.map_some']
    rw [hRF1.2.1]
    rw [flip_val2 le (hostLE pv) (pv.file pos) (pv.file (pos + 1)),
      flip2_spec]

theorem read32u_spec {pv : AKSVIEW} {pos : Int} {le : Bool} (hI : Inv pv)
    (h0 : 0 ≤ pos) (h1 : pos + 4 ≤ pv.flen) :
    ∃ pv', aksview_read32u pv pos le =
        some (pv', spec_read_val le pv.file pos 4) ∧ Inv pv' ∧
      ReadFrame pv pv' ∧ pv'.mapped = true := by
  have hMAX : pos < AKSVIEW_MAXLEN := by
    have := hI.2.2.1
    omega
  have hpre : ¬(pos < 0 ∨ pos ≥ AKSVIEW_MAXLEN) := by omega
  unfold aksview_read32u
  rw [if_neg hpre]
  by_cases hali : pos % 4 = 0
  · rw [if_pos hali]
    obtain ⟨pv1, hrun, hI1, hRF1, hmp1, _, _⟩ :=
      mapByte_spec hI (b := pos + 3) (by omega) (by omega)
    have hc0 : winGet pv1 (pos - pv1.wfirst) = pv.file pos := by
      unfold winGet
      rw [show pv1.wfirst + (pos - pv1.wfirst) = pos from by ring, hRF1.2.1]
    have hc1 : winGet pv1 (pos - pv1.wfirst + 1) = pv.file (pos + 1) := by
      unfold winGet
      rw [show pv1.wfirst + (pos - pv1.wfirst + 1) = pos + 1 from by ring,
        hRF1.2.1]
    have hc2 : winGet pv1 (pos - pv1.wfirst + 2) = pv.file (pos + 2) := by
      unfold winGet
      rw [show pv1.wfirst + (pos - pv1.wfirst + 2) = pos + 2 from by ring,
        hRF1.2.1]
    have hc3 : winGet pv1 (pos - pv1.wfirst + 3) = pv.file (pos + 3) := by
      unfold winGet
      rw [show pv1.wfirst + (pos - pv1.wfirst + 3) = pos + 3 from by ring,
        hRF1.2.1]
    refine ⟨pv1, ?_, hI1, hRF1, hmp1⟩
    rw [hrun, Option.map_some']
    simp only [hc0, hc1, hc2, hc3]
    rw [flip_val4 le (hostLE pv1) (pv.file pos) (pv.file (pos + 1))
      (pv.file (pos + 2)) (pv.file (pos + 3)), flip4_spec]
  · rw [if_neg hali]
    obtain ⟨pv1, hrun1, hI1, hRF1, hmp1⟩ :=
      @read16u_spec pv pos le hI h0 (by omega)
    obtain ⟨pv2, hrun2, hI2, hRF2, hmp2⟩ :=
      @read16u_spec pv1 (pos + 2) le hI1 (by omega)
        (by rw [hRF1.1.1]; omega)
    refine ⟨pv2, ?_, hI2, ReadFrame_trans hRF1 hRF2, hmp2⟩
    simp only [hrun1, Option.some_bind, hrun2, Option.map_some']
    rw [hRF1.2.1]
    rw [flip_val4w le (hostLE pv) (spec_read_val le pv.file pos 2)
      (spec_read_val le pv.file (pos + 2) 2), join4_spec]

theorem read64u_spec {pv : AKSVIEW} {pos : Int} {le : Bool} (hI : Inv pv)
    (h0 : 0 ≤ pos) (h1 : pos + 8 ≤ pv.flen) :
    ∃ pv', aksview_read64u pv pos le =
        some (pv', spec_read_val le pv.file pos 8) ∧ Inv pv' ∧
      ReadFrame pv pv' ∧ pv'.mapped = true := by
  have hMAX : pos < AKSVIEW_MAXLEN := by
    have := hI.2.2.1
    omega
  have hpre : ¬(pos < 0 ∨ pos ≥ AKSVIEW_MAXLEN) := by omega
  unfold aksview_read64u
  rw [if_neg hpre]
  by_cases hali : pos % 8 = 0
  · rw [if_pos hali]
    obtain ⟨pv1, hrun, hI1, hRF1, hmp1, _, _⟩ :=
      mapByte_spec hI (b := pos + 7) (by omega) (by omega)
    have hc0 : winGet pv1 (pos - pv1.wfirst) = pv.file pos := by
      unfold winGet
      rw [show pv1.wfirst + (pos - pv1.wfirst) = pos from by ring, hRF1.2.1]
    have hc1 : winGet pv1 (pos - pv1.wfirst + 1) = pv.file (pos + 1) := by
      unfold winGet
      rw [show pv1.wfirst + (pos - pv1.wfirst + 1) = pos + 1 from by ring,
        hRF1.2.1]
    have hc2 : winGet pv1 (pos - pv1.wfirst + 2) = pv.file (pos + 2) := by
      unfold winGet
      rw [show pv1.wfirst + (pos - pv1.wfirst + 2) = pos + 2 from by ring,
        hRF1.2.1]
    have hc3 : winGet pv1 (pos - pv1.wfirst + 3) = pv.file (pos + 3) := by
      unfold winGet
      rw [show pv1.wfirst + (pos - pv1.wfirst + 3) = pos + 3 from by ring,
        hRF1.2.1]
    have hc4 : winGet pv1 (pos - pv1.wfirst + 4) = pv.file (pos + 4) := by
      unfold winGet
      rw [show pv1.wfirst + (pos - pv1.wfirst + 4) = pos + 4 from by ring,
        hRF1.2.1]
    have hc5 : winGet pv1 (pos - pv1.wfirst + 5) = pv.file (pos + 5) := by
      unfold winGet
      rw [show pv1.wfirst + (pos - pv1.wfirst + 5) = pos + 5 from by ring,
        hRF1.2.1]
    have hc6 : winGet pv1 (pos - pv1.wfirst + 6) = pv.file (pos + 6) := by
      unfold winGet
      rw [show pv1.wfirst + (pos - pv1.wfirst + 6) = pos + 6 from by ring,
        hRF1.2.1]
    have hc7 : winGet pv1 (pos - pv1.wfirst + 7) = pv.file (pos + 7) := by
      unfold winGet
      rw [show pv1.wfirst + (pos - pv1.wfirst + 7) = pos + 7 from by ring,
        hRF1.2.1]
    refine ⟨pv1, ?_, hI1, hRF1, hmp1⟩
    rw [hrun, Option.map_some']
    simp only [hc0, hc1, hc2, hc3, hc4, hc5, hc6, hc7]
    rw [flip_val8 le (hostLE pv1) (pv.file pos) (pv.file (pos + 1))
      (pv.file (pos + 2)) (pv.file (pos + 3)) (pv.file (pos + 4))
      (pv.file (pos + 5)) (pv.file (pos + 6)) (pv.file (pos + 7)),
      flip8_spec]
  · rw [if_neg hali]
    obtain ⟨pv1, hrun1, hI1, hRF1, hmp1⟩ :=
      @read32u_spec pv pos le hI h0 (by omega)
    obtain ⟨pv2, hrun2, hI2, hRF2, hmp2⟩ :=
      @read32u_spec pv1 (pos + 4) le hI1 (by omega)
        (by rw [hRF1.1.1]; omega)
    refine ⟨pv2, ?_, hI2, ReadFrame_trans hRF1 hRF2, hmp2⟩
    simp only [hrun1, Option.some_bind, hrun2, Option.map_some']
    rw [hRF1.2.1]
    rw [flip_val8w le (hostLE pv) (spec_read_val le pv.file pos 4)
      (spec_read_val le pv.file (pos + 4) 4), join8_spec]

theorem flip_bytes2 (le h : Bool) (v : Nat) :
    (if le != h then ((memcpyBytes2 h v).2, (memcpyBytes2 h v).1)
      else ((memcpyBytes2 h v).1, (memcpyBytes2 h v).2)) =
    (wByte le v 2 0, wByte le v 2 1) := by
  cases le <;> cases h <;> simp [memcpyBytes2, wByte]

theorem flip_bytes4 (le h : Bool) (v : Nat) :
    (if le != h then ((memcpyBytes4 h v).2.2.2, (memcpyBytes4 h v).2.2.1,
        (memcpyBytes4 h v).2.1, (memcpyBytes4 h v).1)
      else memcpyBytes4 h v) =
    (wByte le v 4 0, wByte le v 4 1, wByte le v 4 2, wByte le v 4 3) := by
  cases le <;> cases h <;> simp [memcpyBytes4, wByte] <;> norm_num

theorem flip_bytes8 (le h : Bool) (v : Nat) :
    (if le != h then ((memcpyBytes8 h v).2.2.2.2.2.2.2,
        (memcpyBytes8 h v).2.2.2.2.2.2.1, (memcpyBytes8 h v).2.2.2.2.2.1,
        (memcpyBytes8 h v).2.2.2.2.1, (memcpyBytes8 h v).2.2.2.1,
        (memcpyBytes8 h v).2.2.1, (memcpyBytes8 h v).2.1,
        (memcpyBytes8 h v).1)
      else memcpyBytes8 h v) =
    (wByte le v 8 0, wByte le v 8 1, wByte le v 8 2, wByte le v 8 3,
     wByte le v 8 4, wByte le v 8 5, wByte le v 8 6, wByte le v 8 7) := by
  cases le <;> cases h <;> simp [memcpyBytes8, wByte] <;> norm_num

theorem flip_halves4 (le h : Bool) (v : Nat) :
    (if le != h then ((memcpyHalves4 h v).2, (memcpyHalves4 h v).1)
      else memcpyHalves4 h v) =
    (if le then v % 65536 else v / 65536 % 65536,
     if le then v / 65536 % 65536 else v % 65536) := by
  cases le <;> cases h <;> simp [memcpyHalves4]

theorem flip_halves8 (le h : Bool) (v : Nat) :
    (if le != h then ((memcpyHalves8 h v).2, (memcpyHalves8 h v).1)
      else memcpyHalves8 h v) =
    (if le then v % 4294967296 else v / 4294967296 % 4294967296,
     if le then v / 4294967296 % 4294967296 else v % 4294967296) := by
  cases le <;> cases h <;> simp [memcpyHalves8]

theorem wr2_eval (le : Bool) (v : Nat) (p : Int) (f : Int → Nat) :
    (fun j => if j = p + 1 then wByte le v 2 1
      else if j = p then wByte le v 2 0 else f j) = wrFile le v p 2 f := by
  funext j
  unfold wrFile
  by_cases h1 : j = p + 1
  · subst h1
    rw [if_pos rfl, if_pos (by constructor <;> omega)]
    rw [show p + 1 - p = (1 : Int) from by ring]
    rfl
  · by_cases h0 : j = p
    · rw [if_neg h1, if_pos h0, if_pos (by constructor <;> omega)]
      rw [show j - p = (0 : Int) from by omega]
      rfl
    · rw [if_neg h1, if_neg h0, if_neg (by omega)]

theorem wr4_eval (le : Bool) (v : Nat) (p : Int) (f : Int → Nat) :
    (fun j => if j = p + 3 then wByte le v 4 3
      else if j = p + 2 then wByte le v 4 2
      else if j = p + 1 then wByte le v 4 1
      else if j = p then wByte le v 4 0 else f j) = wrFile le v p 4 f := by
  funext j
  unfold wrFile
  by_cases h3 : j = p + 3
  · subst h3
    rw [if_pos rfl, if_pos (by constructor <;> omega)]
    rw [show p + 3 - p = (3 : Int) from by ring]
    rfl
  · by_cases h2 : j = p + 2
    · subst h2
      rw [if_neg h3, if_pos rfl, if_pos (by constructor <;> omega)]
      rw [show p + 2 - p = (2 : Int) from by ring]
      rfl
    · by_cases h1 : j = p + 1
      · subst h1
        rw [if_neg h3, if_neg h2, if_pos rfl,
          if_pos (by constructor <;> omega)]
        rw [show p + 1 - p = (1 : Int) from by ring]
        rfl
      · by_cases h0 : j = p
        · rw [if_neg h3, if_neg h2, if_neg h1, if_pos h0,
            if_pos (by constructor <;> omega)]
          rw [show j - p = (0 : Int) from by omega]
          rfl
        · rw [if_neg h3, if_neg h2, if_neg h1, if_neg h0, if_neg (by omega)]

theorem wr8_eval (le : Bool) (v : Nat) (p : Int) (f : Int → Nat) :
    (fun j => if j = p + 7 then wByte le v 8 7
      else if j = p + 6 then wByte le v 8 6
      else if j = p + 5 then wByte le v 8 5
      else if j = p + 4 then wByte le v 8 4
      else if j = p + 3 then wByte le v 8 3
      else if j = p + 2 then wByte le v 8 2
      else if j = p + 1 then wByte le v 8 1
      else if j = p then wByte le v 8 0 else f j) = wrFile le v p 8 f := by
  funext j
  unfold wrFile
  by_cases h7 : j = p + 7
  · subst h7
    rw [if_pos rfl, if_pos (by constructor <;> omega)]
    rw [show p + 7 - p = (7 : Int) from by ring]
    rfl
  · by_cases h6 : j = p + 6
    · subst h6
      rw [if_neg h7, if_pos rfl, if_pos (by constructor <;> omega)]
      rw [show p + 6 - p = (6 : Int) from by ring]
      rfl
    · by_cases h5 : j = p + 5
      · subst h5
        rw [if_neg h7, if_neg h6, if_pos rfl,
          if_pos (by constructor <;> omega)]
        rw [show p + 5 - p = (5 : Int) from by ring]
        rfl
      · by_cases h4 : j = p + 4
        · subst h4
          rw [if_neg h7, if_neg h6, if_neg h5, if_pos rfl,
            if_pos (by constructor <;> omega)]
          rw [show p + 4 - p = (4 : Int) from by ring]
          rfl
        · by_cases h3 : j = p + 3
          · subst h3
            rw [if_neg h7, if_neg h6, if_neg h5, if_neg h4, if_pos rfl,
              if_pos (by constructor <;> omega)]
            rw [show p + 3 - p = (3 : Int) from by ring]
            rfl
          · by_cases h2 : j = p + 2
            · subst h2
              rw [if_neg h7, if_neg h6, if_neg h5, if_neg h4, if_neg h3,
                if_pos rfl, if_pos (by constructor <;> omega)]
              rw [show p + 2 - p = (2 : Int) from by ring]
              rfl
            · by_cases h1 : j = p + 1
              · subst h1
                rw [if_neg h7, if_neg h6, if_neg h5, if_neg h4, if_neg h3,
                  if_neg h2, if_pos rfl, if_pos (by constructor <;> omega)]
                rw [show p + 1 - p = (1 : Int) from by ring]
                rfl
              · by_cases h0 : j = p
                · rw [if_neg h7, if_neg h6, if_neg h5, if_neg h4, if_neg h3,
                    if_neg h2, if_neg h1, if_pos h0,
                    if_pos (by constructor <;> omega)]
                  rw [show j - p = (0 : Int) from by omega]
                  rfl
                · rw [if_neg h7, if_neg h6, if_neg h5, if_neg h4, if_neg h3,
                    if_neg h2, if_neg h1, if_neg h0, if_neg (by omega)]

theorem flip_bytes2_fst (le h : Bool) (v : Nat) :
    (if le != h then ((memcpyBytes2 h v).2, (memcpyBytes2 h v).1)
      else ((memcpyBytes2 h v).1, (memcpyBytes2 h v).2)).1 =
    wByte le v 2 0 := by
  cases le <;> cases h <;> simp [memcpyBytes2, wByte]

theorem flip_bytes2_snd (le h : Bool) (v : Nat) :
    (if le != h then ((memcpyBytes2 h v).2, (memcpyBytes2 h v).1)
      else ((memcpyBytes2 h v).1, (memcpyBytes2 h v).2)).2 =
    wByte le v 2 1 := by
  cases le <;> cases h <;> simp [memcpyBytes2, wByte]

theorem write16u_spec {pv : AKSVIEW} {pos : Int} {le : Bool} {v : Nat}
    (hI : Inv pv) (hRO : testFlag pv FLAG_RO = false) (h0 : 0 ≤ pos)
    (h1 : pos + 2 ≤ pv.flen) :
    ∃ pv', aksview_write16u pv pos le v = some pv' ∧ Inv pv' ∧
      BaseFrame pv pv' ∧ pv'.mapped = true ∧
      testFlag pv' FLAG_DT = true ∧ testFlag pv' FLAG_UT = true ∧
      pv'.file = wrFile le v pos 2 pv.file := by
  have hMAX : pos < AKSVIEW_MAXLEN := by
    have := hI.2.2.1
    omega
  have hpre : ¬(pos < 0 ∨ pos ≥ AKSVIEW_MAXLEN) := by omega
  simp only [aksview_write16u]
  rw [if_neg hpre]
  by_cases hali : pos % 2 = 0
  · rw [if_pos hali]
    obtain ⟨pv1, hrun, hI1, hRF1, hmp1, _, _⟩ :=
      mapByte_spec hI (b := pos + 1) (by omega) (by omega)
    obtain ⟨⟨b1, b2, b3, b4, b5, b6⟩, bfile, bUT, bDT⟩ := hRF1
    obtain ⟨k16, kf0, kfM, kp8, kpm, kw0, kwle, kwpos, kwal, kwm, kwu⟩ := hI1
    obtain ⟨o16, oRO, oLE, oDT, oUT⟩ := natFlagOrDtUt pv1.flags k16
    have hro1 : ¬ testFlag pv1 FLAG_RO = true := by
      rw [b5, hRO]
      simp
    rw [hrun]
    simp only [Option.some_bind]
    rw [if_neg hro1]
    refine ⟨_, rfl, ?_, ?_, hmp1, ?_, ?_, ?_⟩
    · exact ⟨o16, kf0, kfM, kp8, kpm, kw0, kwle, kwpos, kwal, kwm, kwu⟩
    · refine ⟨b1, b2, b3, b4, ?_, ?_⟩
      · show ((pv1.flags ||| 4 ||| 8) &&& 1 != 0) = (pv.flags &&& 1 != 0)
        rw [oRO]
        exact b5
      · show ((pv1.flags ||| 4 ||| 8) &&& 2 != 0) = (pv.flags &&& 2 != 0)
        rw [oLE]
        exact b6
    · show ((pv1.flags ||| 4 ||| 8) &&& 4 != 0) = true
      simp [oDT]
    · show ((pv1.flags ||| 4 ||| 8) &&& 8 != 0) = true
      simp [oUT]
    · show (fun j => if j = pv1.wfirst + (pos - pv1.wfirst + 1) then
          (if le != hostLE pv1
            then ((memcpyBytes2 (hostLE pv) v).2, (memcpyBytes2 (hostLE pv) v).1)
            else ((memcpyBytes2 (hostLE pv) v).1, (memcpyBytes2 (hostLE pv) v).2)).2
        else if j = pv1.wfirst + (pos - pv1.wfirst) then
          (if le != hostLE pv1
            then ((memcpyBytes2 (hostLE pv) v).2, (memcpyBytes2 (hostLE pv) v).1)
            else ((memcpyBytes2 (hostLE pv) v).1, (memcpyBytes2 (hostLE pv) v).2)).1
        else pv1.file j) = wrFile le v pos 2 pv.file
      rw [b6, flip_bytes2_fst le (hostLE pv) v, flip_bytes2_snd le (hostLE pv) v]
      rw [show pv1.wfirst + (pos - pv1.wfirst + 1) = pos + 1 from by ring,
        show pv1.wfirst + (pos - pv1.wfirst) = pos from by ring, bfile]
      exact wr2_eval le v pos pv.file
  · rw [if_neg hali]
    obtain ⟨pvA, hrunA, hIA, hBFA, hmpA, hDTA, hUTA, hfA⟩ :=
      write8u_spec (v := (if le != hostLE pv
          then ((memcpyBytes2 (hostLE pv) v).2, (memcpyBytes2 (hostLE pv) v).1)
          else ((memcpyBytes2 (hostLE pv) v).1, (memcpyBytes2 (hostLE pv) v).2)).1)
        hI hRO h0 (by omega)
    obtain ⟨a1, a2, a3, a4, a5, a6⟩ := hBFA
    obtain ⟨pvB, hrunB, hIB, hBFB, hmpB, hDTB, hUTB, hfB⟩ :=
      @write8u_spec pvA (pos + 1)
        ((if le != hostLE pv
          then ((memcpyBytes2 (hostLE pv) v).2, (memcpyBytes2 (hostLE pv) v).1)
          else ((memcpyBytes2 (hostLE pv) v).1, (memcpyBytes2 (hostLE pv) v).2)).2 : Nat)
        hIA (by rw [a5, hRO]) (by omega) (by rw [a1]; omega)
    refine ⟨pvB, ?_, hIB, BaseFrame_trans ⟨a1, a2, a3, a4, a5, a6⟩ hBFB,
      hmpB, hDTB, hUTB, ?_⟩
    · rw [hrunA]
      simp only [Option.some_bind]
      exact hrunB
    · rw [hfB, hfA]
      rw [flip_bytes2_fst le (hostLE pv) v, flip_bytes2_snd le (hostLE pv) v]
      exact wr2_eval le v pos pv.file

theorem wrFile_comp4 (le : Bool) (v : Nat) (p : Int) (f : Int → Nat) :
    wrFile le (if le then v / 65536 % 65536 else v % 65536) (p + 2) 2
      (wrFile le (if le then v % 65536 else v / 65536 % 65536) p 2 f) =
    wrFile le v p 4 f := by
  funext j
  unfold wrFile
  by_cases hA : 0 ≤ j - (p + 2) ∧ j - (p + 2) < ((2 : Nat) : Int)
  · rw [if_pos hA, if_pos (show 0 ≤ j - p ∧ j - p < ((4 : Nat) : Int)
      from by omega)]
    rcases (by omega : j - (p + 2) = 0 ∨ j - (p + 2) = 1) with h | h
    · rw [h, show j - p = (2 : Int) from by omega]
      cases le <;> simp [wByte] <;> omega
    · rw [h, show j - p = (3 : Int) from by omega]
      cases le <;> simp [wByte] <;> omega
  · rw [if_neg hA]
    by_cases hB : 0 ≤ j - p ∧ j - p < ((2 : Nat) : Int)
    · rw [if_pos hB, if_pos (show 0 ≤ j - p ∧ j - p < ((4 : Nat) : Int)
        from by omega)]
      rcases (by omega : j - p = 0 ∨ j - p = 1) with h | h
      · rw [h]
        cases le <;> simp [wByte] <;> omega
      · rw [h]
        cases le <;> simp [wByte] <;> omega
    · rw [if_neg hB, if_neg (show ¬(0 ≤ j - p ∧ j - p < ((4 : Nat) : Int))
        from by omega)]

theorem wrFile_comp8 (le : Bool) (v : Nat) (p : Int) (f : Int → Nat) :
    wrFile le (if le then v / 4294967296 % 4294967296 else v % 4294967296)
      (p + 4) 4
      (wrFile le (if le then v % 4294967296 else v / 4294967296 % 4294967296)
        p 4 f) =
    wrFile le v p 8 f := by
  funext j
  unfold wrFile
  by_cases hA : 0 ≤ j - (p + 4) ∧ j - (p + 4) < ((4 : Nat) : Int)
  · rw [if_pos hA, if_pos (show 0 ≤ j - p ∧ j - p < ((8 : Nat) : Int)
      from by omega)]
    rcases (by omega : j - (p + 4) = 0 ∨ j - (p + 4) = 1 ∨
      j - (p + 4) = 2 ∨ j - (p + 4) = 3) with h | h | h | h
    · rw [h, show j - p = (4 : Int) from by omega]
      cases le <;> simp [wByte] <;> omega
    · rw [h, show j - p = (5 : Int) from by omega]
      cases le <;> simp [wByte] <;> omega
    · rw [h, show j - p = (6 : Int) from by omega]
      cases le <;> simp [wByte] <;> omega
    · rw [h, show j - p = (7 : Int) from by omega]
      cases le <;> simp [wByte] <;> omega
  · rw [if_neg hA]
    by_cases hB : 0 ≤ j - p ∧ j - p < ((4 : Nat) : Int)
    · rw [if_pos hB, if_pos (show 0 ≤ j - p ∧ j - p < ((8 : Nat) : Int)
        from by omega)]
      rcases (by omega : j - p = 0 ∨ j - p = 1 ∨ j - p = 2 ∨ j - p = 3)
        with h | h | h | h
      · rw [h]
        cases le <;> simp [wByte] <;> omega
      · rw [h]
        cases le <;> simp [wByte] <;> omega
      · rw [h]
        cases le <;> simp [wByte] <;> omega
      · rw [h]
        cases le <;> simp [wByte] <;> omega
    · rw [if_neg hB, if_neg (show ¬(0 ≤ j - p ∧ j - p < ((8 : Nat) : Int))
        from by omega)]

theorem flip_bytes4_p0 (le h : Bool) (v : Nat) :
    (if le != h then ((memcpyBytes4 h v).2.2.2, (memcpyBytes4 h v).2.2.1,
        (memcpyBytes4 h v).2.1, (memcpyBytes4 h v).1)
      else memcpyBytes4 h v).1 = wByte le v 4 0 := by
  rw [flip_bytes4]

theorem flip_bytes4_p1 (le h : Bool) (v : Nat) :
    (if le != h then ((memcpyBytes4 h v).2.2.2, (memcpyBytes4 h v).2.2.1,
        (memcpyBytes4 h v).2.1, (memcpyBytes4 h v).1)
      else memcpyBytes4 h v).2.1 = wByte le v 4 1 := by
  rw [flip_bytes4]

theorem flip_bytes4_p2 (le h : Bool) (v : Nat) :
    (if le != h then ((memcpyBytes4 h v).2.2.2, (memcpyBytes4 h v).2.2.1,
        (memcpyBytes4 h v).2.1, (memcpyBytes4 h v).1)
      else memcpyBytes4 h v).2.2.1 = wByte le v 4 2 := by
  rw [flip_bytes4]

theorem flip_bytes4_p3 (le h : Bool) (v : Nat) :
    (if le != h then ((memcpyBytes4 h v).2.2.2, (memcpyBytes4 h v).2.2.1,
        (memcpyBytes4 h v).2.1, (memcpyBytes4 h v).1)
      else memcpyBytes4 h v).2.2.2 = wByte le v 4 3 := by
  rw [flip_bytes4]

theorem flip_halves4_fst (le h : Bool) (v : Nat) :
    (if le != h then ((memcpyHalves4 h v).2, (memcpyHalves4 h v).1)
      else memcpyHalves4 h v).1 =
    (if le then v % 65536 else v / 65536 % 65536) := by
  rw [flip_halves4]

theorem flip_halves4_snd (le h : Bool) (v : Nat) :
    (if le != h then ((memcpyHalves4 h v).2, (memcpyHalves4 h v).1)
      else memcpyHalves4 h v).2 =
    (if le then v / 65536 % 65536 else v % 65536) := by
  rw [flip_halves4]

theorem flip_halves8_fst (le h : Bool) (v : Nat) :
    (if le != h then ((memcpyHalves8 h v).2, (memcpyHalves8 h v).1)
      else memcpyHalves8 h v).1 =
    (if le then v % 4294967296 else v / 4294967296 % 4294967296) := by
  rw [flip_halves8]

theorem flip_halves8_snd (le h : Bool) (v : Nat) :
    (if le != h then ((memcpyHalves8 h v).2, (memcpyHalves8 h v).1)
      else memcpyHalves8 h v).2 =
    (if le then v / 4294967296 % 4294967296 else v % 4294967296) := by
  rw [flip_halves8]

theorem write32u_spec {pv : AKSVIEW} {pos : Int} {le : Bool} {v : Nat}
    (hI : Inv pv) (hRO : testFlag pv FLAG_RO = false) (h0 : 0 ≤ pos)
    (h1 : pos + 4 ≤ pv.flen) :
    ∃ pv', aksview_write32u pv pos le v = some pv' ∧ Inv pv' ∧
      BaseFrame pv pv' ∧ pv'.mapped = true ∧
      testFlag pv' FLAG_DT = true ∧ testFlag pv' FLAG_UT = true ∧
      pv'.file = wrFile le v pos 4 pv.file := by
  have hMAX : pos < AKSVIEW_MAXLEN := by
    have := hI.2.2.1
    omega
  have hpre : ¬(pos < 0 ∨ pos ≥ AKSVIEW_MAXLEN) := by omega
  simp only [aksview_write32u]
  rw [if_neg hpre]
  by_cases hali : pos % 4 = 0
  · rw [if_pos hali]
    obtain ⟨pv1, hrun, hI1, hRF1, hmp1, _, _⟩ :=
      mapByte_spec hI (b := pos + 3) (by omega) (by omega)
    obtain ⟨⟨b1, b2, b3, b4, b5, b6⟩, bfile, bUT, bDT⟩ := hRF1
    obtain ⟨k16, kf0, kfM, kp8, kpm, kw0, kwle, kwpos, kwal, kwm, kwu⟩ := hI1
    obtain ⟨o16, oRO, oLE, oDT, oUT⟩ := natFlagOrDtUt pv1.flags k16
    have hro1 : ¬ testFlag pv1 FLAG_RO = true := by
      rw [b5, hRO]
      simp
    rw [hrun]
    simp only [Option.some_bind]
    rw [if_neg hro1]
    simp only [winSet]
    refine ⟨_, rfl, ?_, ?_, hmp1, ?_, ?_, ?_⟩
    · exact ⟨o16, kf0, kfM, kp8, kpm, kw0, kwle, kwpos, kwal, kwm, kwu⟩
    · refine ⟨b1, b2, b3, b4, ?_, ?_⟩
      · show ((pv1.flags ||| 4 ||| 8) &&& 1 != 0) = (pv.flags &&& 1 != 0)
        rw [oRO]
        exact b5
      · show ((pv1.flags ||| 4 ||| 8) &&& 2 != 0) = (pv.flags &&& 2 != 0)
        rw [oLE]
        exact b6
    · show ((pv1.flags ||| 4 ||| 8) &&& 4 != 0) = true
      simp [oDT]
    · show ((pv1.flags ||| 4 ||| 8) &&& 8 != 0) = true
      simp [oUT]
    · funext j
      rw [b6, flip_bytes4_p0 le (hostLE pv) v, flip_bytes4_p1 le (hostLE pv) v,
        flip_bytes4_p2 le (hostLE pv) v, flip_bytes4_p3 le (hostLE pv) v]
      rw [show pv1.wfirst + (pos - pv1.wfirst + 3) = pos + 3 from by ring,
        show pv1.wfirst + (pos - pv1.wfirst + 2) = pos + 2 from by ring,
        show pv1.wfirst + (pos - pv1.wfirst + 1) = pos + 1 from by ring,
        show pv1.wfirst + (pos - pv1.wfirst) = pos from by ring, bfile]
      exact congrFun (wr4_eval le v pos pv.file) j
  · rw [if_neg hali]
    obtain ⟨pvA, hrunA, hIA, hBFA, hmpA, hDTA, hUTA, hfA⟩ :=
      @write16u_spec pv pos le ((if le != hostLE pv
          then ((memcpyHalves4 (hostLE pv) v).2, (memcpyHalves4 (hostLE pv) v).1)
          else memcpyHalves4 (hostLE pv) v).1)
        hI hRO h0 (by omega)
    obtain ⟨a1, a2, a3, a4, a5, a6⟩ := hBFA
    obtain ⟨pvB, hrunB, hIB, hBFB, hmpB, hDTB, hUTB, hfB⟩ :=
      @write16u_spec pvA (pos + 2) le
        ((if le != hostLE pv
          then ((memcpyHalves4 (hostLE pv) v).2, (memcpyHalves4 (hostLE pv) v).1)
          else memcpyHalves4 (hostLE pv) v).2)
        hIA (by rw [a5, hRO]) (by omega) (by rw [a1]; omega)
    refine ⟨pvB, ?_, hIB, BaseFrame_trans ⟨a1, a2, a3, a4, a5, a6⟩ hBFB,
      hmpB, hDTB, hUTB, ?_⟩
    · rw [hrunA]
      simp only [Option.some_bind]
      exact hrunB
    · rw [hfB, hfA]
      rw [flip_halves4_fst le (hostLE pv) v, flip_halves4_snd le (hostLE pv) v]
      exact wrFile_comp4 le v pos pv.file

theorem flip_bytes8_p0 (le h : Bool) (v : Nat) :
    (if le != h then ((memcpyBytes8 h v).2.2.2.2.2.2.2,
        (memcpyBytes8 h v).2.2.2.2.2.2.1, (memcpyBytes8 h v).2.2.2.2.2.1,
        (memcpyBytes8 h v).2.2.2.2.1, (memcpyBytes8 h v).2.2.2.1,
        (memcpyBytes8 h v).2.2.1, (memcpyBytes8 h v).2.1,
        (memcpyBytes8 h v).1)
      else memcpyBytes8 h v).1 = wByte le v 8 0 := by
  rw [flip_bytes8]

theorem flip_bytes8_p1 (le h : Bool) (v : Nat) :
    (if le != h then ((memcpyBytes8 h v).2.2.2.2.2.2.2,
        (memcpyBytes8 h v).2.2.2.2.2.2.1, (memcpyBytes8 h v).2.2.2.2.2.1,
        (memcpyBytes8 h v).2.2.2.2.1, (memcpyBytes8 h v).2.2.2.1,
        (memcpyBytes8 h v).2.2.1, (memcpyBytes8 h v).2.1,
        (memcpyBytes8 h v).1)
      else memcpyBytes8 h v).2.1 = wByte le v 8 1 := by
  rw [flip_bytes8]

theorem flip_bytes8_p2 (le h : Bool) (v : Nat) :
    (if le != h then ((memcpyBytes8 h v).2.2.2.2.2.2.2,
        (memcpyBytes8 h v).2.2.2.2.2.2.1, (memcpyBytes8 h v).2.2.2.2.2.1,
        (memcpyBytes8 h v).2.2.2.2.1, (memcpyBytes8 h v).2.2.2.1,
        (memcpyBytes8 h v).2.2.1, (memcpyBytes8 h v).2.1,
        (memcpyBytes8 h v).1)
      else memcpyBytes8 h v).2.2.1 = wByte le v 8 2 := by
  rw [flip_bytes8]

theorem flip_bytes8_p3 (le h : Bool) (v : Nat) :
    (if le != h then ((memcpyBytes8 h v).2.2.2.2.2.2.2,
        (memcpyBytes8 h v).2.2.2.2.2.2.1, (memcpyBytes8 h v).2.2.2.2.2.1,
        (memcpyBytes8 h v).2.2.2.2.1, (memcpyBytes8 h v).2.2.2.1,
        (memcpyBytes8 h v).2.2.1, (memcpyBytes8 h v).2.1,
        (memcpyBytes8 h v).1)
      else memcpyBytes8 h v).2.2.2.1 = wByte le v 8 3 := by
  rw [flip_bytes8]

theorem flip_bytes8_p4 (le h : Bool) (v : Nat) :
    (if le != h then ((memcpyBytes8 h v).2.2.2.2.2.2.2,
        (memcpyBytes8 h v).2.2.2.2.2.2.1, (memcpyBytes8 h v).2.2.2.2.2.1,
        (memcpyBytes8 h v).2.2.2.2.1, (memcpyBytes8 h v).2.2.2.1,
        (memcpyBytes8 h v).2.2.1, (memcpyBytes8 h v).2.1,
        (memcpyBytes8 h v).1)
      else memcpyBytes8 h v).2.2.2.2.1 = wByte le v 8 4 := by
  rw [flip_bytes8]

theorem flip_bytes8_p5 (le h : Bool) (v : Nat) :
    (if le != h then ((memcpyBytes8 h v).2.2.2.2.2.2.2,
        (memcpyBytes8 h v).2.2.2.2.2.2.1, (memcpyBytes8 h v).2.2.2.2.2.1,
        (memcpyBytes8 h v).2.2.2.2.1, (memcpyBytes8 h v).2.2.2.1,
        (memcpyBytes8 h v).2.2.1, (memcpyBytes8 h v).2.1,
        (memcpyBytes8 h v).1)
      else memcpyBytes8 h v).2.2.2.2.2.1 = wByte le v 8 5 := by
  rw [flip_bytes8]

theorem flip_bytes8_p6 (le h : Bool) (v : Nat) :
    (if le != h then ((memcpyBytes8 h v).2.2.2.2.2.2.2,
        (memcpyBytes8 h v).2.2.2.2.2.2.1, (memcpyBytes8 h v).2.2.2.2.2.1,
        (memcpyBytes8 h v).2.2.2.2.1, (memcpyBytes8 h v).2.2.2.1,
        (memcpyBytes8 h v).2.2.1, (memcpyBytes8 h v).2.1,
        (memcpyBytes8 h v).1)
      else memcpyBytes8 h v).2.2.2.2.2.2.1 = wByte le v 8 6 := by
  rw [flip_bytes8]

theorem flip_bytes8_p7 (le h : Bool) (v : Nat) :
    (if le != h then ((memcpyBytes8 h v).2.2.2.2.2.2.2,
        (memcpyBytes8 h v).2.2.2.2.2.2.1, (memcpyBytes8 h v).2.2.2.2.2.1,
        (memcpyBytes8 h v).2.2.2.2.1, (memcpyBytes8 h v).2.2.2.1,
        (memcpyBytes8 h v).2.2.1, (memcpyBytes8 h v).2.1,
        (memcpyBytes8 h v).1)
      else memcpyBytes8 h v).2.2.2.2.2.2.2 = wByte le v 8 7 := by
  rw [flip_bytes8]

theorem write64u_spec {pv : AKSVIEW} {pos : Int} {le : Bool} {v : Nat}
    (hI : Inv pv) (hRO : testFlag pv FLAG_RO = false) (h0 : 0 ≤ pos)
    (h1 : pos + 8 ≤ pv.flen) :
    ∃ pv', aksview_write64u pv pos le v = some pv' ∧ Inv pv' ∧
      BaseFrame pv pv' ∧ pv'.mapped = true ∧
      testFlag pv' FLAG_DT = true ∧ testFlag pv' FLAG_UT = true ∧
      pv'.file = wrFile le v pos 8 pv.file := by
  have hMAX : pos < AKSVIEW_MAXLEN := by
    have := hI.2.2.1
    omega
  have hpre : ¬(pos < 0 ∨ pos ≥ AKSVIEW_MAXLEN) := by omega
  simp only [aksview_write64u]
  rw [if_neg hpre]
  by_cases hali : pos % 8 = 0
  · rw [if_pos hali]
    obtain ⟨pv1, hrun, hI1, hRF1, hmp1, _, _⟩ :=
      mapByte_spec hI (b := pos + 7) (by omega) (by omega)
    obtain ⟨⟨b1, b2, b3, b4, b5, b6⟩, bfile, bUT, bDT⟩ := hRF1
    obtain ⟨k16, kf0, kfM, kp8, kpm, kw0, kwle, kwpos, kwal, kwm, kwu⟩ := hI1
    obtain ⟨o16, oRO, oLE, oDT, oUT⟩ := natFlagOrDtUt pv1.flags k16
    have hro1 : ¬ testFlag pv1 FLAG_RO = true := by
      rw [b5, hRO]
      simp
    rw [hrun]
    simp only [Option.some_bind]
    rw [if_neg hro1]
    simp only [winSet]
    refine ⟨_, rfl, ?_, ?_, hmp1, ?_, ?_, ?_⟩
    · exact ⟨o16, kf0, kfM, kp8, kpm, kw0, kwle, kwpos, kwal, kwm, kwu⟩
    · refine ⟨b1, b2, b3, b4, ?_, ?_⟩
      · show ((pv1.flags ||| 4 ||| 8) &&& 1 != 0) = (pv.flags &&& 1 != 0)
        rw [oRO]
        exact b5
      · show ((pv1.flags ||| 4 ||| 8) &&& 2 != 0) = (pv.flags &&& 2 != 0)
        rw [oLE]
        exact b6
    · show ((pv1.flags ||| 4 ||| 8) &&& 4 != 0) = true
      simp [oDT]
    · show ((pv1.flags ||| 4 ||| 8) &&& 8 != 0) = true
      simp [oUT]
    · funext j
      rw [b6, flip_bytes8_p0 le (hostLE pv) v, flip_bytes8_p1 le (hostLE pv) v,
        flip_bytes8_p2 le (hostLE pv) v, flip_bytes8_p3 le (hostLE pv) v,
        flip_bytes8_p4 le (hostLE pv) v, flip_bytes8_p5 le (hostLE pv) v,
        flip_bytes8_p6 le (hostLE pv) v, flip_bytes8_p7 le (hostLE pv) v]
      rw [show pv1.wfirst + (pos - pv1.wfirst + 7) = pos + 7 from by ring,
        show pv1.wfirst + (pos - pv1.wfirst + 6) = pos + 6 from by ring,
        show pv1.wfirst + (pos - pv1.wfirst + 5) = pos + 5 from by ring,
        show pv1.wfirst + (pos - pv1.wfirst + 4) = pos + 4 from by ring,
        show pv1.wfirst + (pos - pv1.wfirst + 3) = pos + 3 from by ring,
        show pv1.wfirst + (pos - pv1.wfirst + 2) = pos + 2 from by ring,
        show pv1.wfirst + (pos - pv1.wfirst + 1) = pos + 1 from by ring,
        show pv1.wfirst + (pos - pv1.wfirst) = pos from by ring, bfile]
      exact congrFun (wr8_eval le v pos pv.file) j
  · rw [if_neg hali]
    obtain ⟨pvA, hrunA, hIA, hBFA, hmpA, hDTA, hUTA, hfA⟩ :=
      @write32u_spec pv pos le ((if le != hostLE pv
          then ((memcpyHalves8 (hostLE pv) v).2, (memcpyHalves8 (hostLE pv) v).1)
          else memcpyHalves8 (hostLE pv) v).1)
        hI hRO h0 (by omega)
    obtain ⟨a1, a2, a3, a4, a5, a6⟩ := hBFA
    obtain ⟨pvB, hrunB, hIB, hBFB, hmpB, hDTB, hUTB, hfB⟩ :=
      @write32u_spec pvA (pos + 4) le
        ((if le != hostLE pv
          then ((memcpyHalves8 (hostLE pv) v).2, (memcpyHalves8 (hostLE pv) v).1)
          else memcpyHalves8 (hostLE pv) v).2)
        hIA (by rw [a5, hRO]) (by omega) (by rw [a1]; omega)
    refine ⟨pvB, ?_, hIB, BaseFrame_trans ⟨a1, a2, a3, a4, a5, a6⟩ hBFB,
      hmpB, hDTB, hUTB, ?_⟩
    · rw [hrunA]
      simp only [Option.some_bind]
      exact hrunB
    · rw [hfB, hfA]
      rw [flip_halves8_fst le (hostLE pv) v, flip_halves8_snd le (hostLE pv) v]
      exact wrFile_comp8 le v pos pv.file

theorem write8s_eq (pv : AKSVIEW) (pos : Int) (v : Int) :
    aksview_write8s pv pos v = aksview_write8u pv pos (toUnsigned 8 v) := rfl

theorem write16s_eq (pv : AKSVIEW) (pos : Int) (le : Bool) (v : Int) :
    aksview_write16s pv pos le v =
    aksview_write16u pv pos le (toUnsigned 16 v) := rfl

theorem write32s_eq (pv : AKSVIEW) (pos : Int) (le : Bool) (v : Int) :
    aksview_write32s pv pos le v =
    aksview_write32u pv pos le (toUnsigned 32 v) := rfl

theorem write64s_eq (pv : AKSVIEW) (pos : Int) (le : Bool) (v : Int) :
    aksview_write64s pv pos le v =
    aksview_write64u pv pos le (toUnsigned 64 v) := rfl

theorem read8s_eq (pv : AKSVIEW) (pos : Int) :
    aksview_read8s pv pos =
    (aksview_read8u pv pos).map (fun s => (s.1, toSigned 8 s.2)) := by
  unfold aksview_read8s aksview_read8u
  cases mapByte pv pos <;> simp

theorem read16s_eq (pv : AKSVIEW) (pos : Int) (le : Bool) :
    aksview_read16s pv pos le =
    (aksview_read16u pv pos le).map (fun s => (s.1, toSigned 16 s.2)) := by
  unfold aksview_read16s aksview_read16u
  by_cases hpre : pos < 0 ∨ pos ≥ AKSVIEW_MAXLEN
  · rw [if_pos hpre, if_pos hpre]
    rfl
  · rw [if_neg hpre, if_neg hpre]
    by_cases hali : pos % 2 = 0
    · rw [if_pos hali, if_pos hali]
      cases mapByte pv (pos + 1) <;> simp
    · rw [if_neg hali, if_neg hali]
      cases hs0 : aksview_read8u pv pos
      · simp
      · rename_i s0
        cases hs1 : aksview_read8u s0.1 (pos + 1) <;> simp [hs1]

theorem read32s_eq (pv : AKSVIEW) (pos : Int) (le : Bool) :
    aksview_read32s pv pos le =
    (aksview_read32u pv pos le).map (fun s => (s.1, toSigned 32 s.2)) := by
  unfold aksview_read32s aksview_read32u
  by_cases hpre : pos < 0 ∨ pos ≥ AKSVIEW_MAXLEN
  · rw [if_pos hpre, if_pos hpre]
    rfl
  · rw [if_neg hpre, if_neg hpre]
    by_cases hali : pos % 4 = 0
    · rw [if_pos hali, if_pos hali]
      cases mapByte pv (pos + 3) <;> simp
    · rw [if_neg hali, if_neg hali]
      cases hs0 : aksview_read16u pv pos le
      · simp
      · rename_i s0
        cases hs1 : aksview_read16u s0.1 (pos + 2) le <;> simp [hs1]

theorem read64s_eq (pv : AKSVIEW) (pos : Int) (le : Bool) :
    aksview_read64s pv pos le =
    (aksview_read64u pv pos le).map (fun s => (s.1, toSigned 64 s.2)) := by
  unfold aksview_read64s aksview_read64u
  by_cases hpre : pos < 0 ∨ pos ≥ AKSVIEW_MAXLEN
  · rw [if_pos hpre, if_pos hpre]
    rfl
  · rw [if_neg hpre, if_neg hpre]
    by_cases hali : pos % 8 = 0
    · rw [if_pos hali, if_pos hali]
      cases mapByte pv (pos + 7) <;> simp
    · rw [if_neg hali, if_neg hali]
      cases hs0 : aksview_read32u pv pos le
      · simp
      · rename_i s0
        cases hs1 : aksview_read32u s0.1 (pos + 4) le <;> simp [hs1]

theorem wrFile_at (le : Bool) (v : Nat) (p j : Int) (w : Nat)
    (f : Int → Nat) (k : Nat) (hj : j = p + k) (hk : k < w) :
    wrFile le v p w f j = wByte le v w k := by
  unfold wrFile
  rw [if_pos (by constructor <;> omega)]
  congr 1
  omega

theorem rt2 (le : Bool) (v : Nat) (p : Int) (f : Int → Nat)
    (hv : v < 65536) : spec_read_val le (wrFile le v p 2 f) p 2 = v := by
  cases le
  · rw [sv2F, wrFile_at false v p p 2 f 0 (by omega) (by norm_num),
      wrFile_at false v p (p + 1) 2 f 1 (by omega) (by norm_num)]
    simp [wByte]
    omega
  · rw [sv2T, wrFile_at true v p p 2 f 0 (by omega) (by norm_num),
      wrFile_at true v p (p + 1) 2 f 1 (by omega) (by norm_num)]
    simp [wByte]
    omega

theorem rt4 (le : Bool) (v : Nat) (p : Int) (f : Int → Nat)
    (hv : v < 4294967296) :
    spec_read_val le (wrFile le v p 4 f) p 4 = v := by
  cases le
  · rw [sv4F, wrFile_at false v p p 4 f 0 (by omega) (by norm_num),
      wrFile_at false v p (p + 1) 4 f 1 (by omega) (by norm_num),
      wrFile_at false v p (p + 2) 4 f 2 (by omega) (by norm_num),
      wrFile_at false v p (p + 3) 4 f 3 (by omega) (by norm_num)]
    simp [wByte]
    omega
  · rw [sv4T, wrFile_at true v p p 4 f 0 (by omega) (by norm_num),
      wrFile_at true v p (p + 1) 4 f 1 (by omega) (by norm_num),
      wrFile_at true v p (p + 2) 4 f 2 (by omega) (by norm_num),
      wrFile_at true v p (p + 3) 4 f 3 (by omega) (by norm_num)]
    simp [wByte]
    omega

theorem rt8 (le : Bool) (v : Nat) (p : Int) (f : Int → Nat)
    (hv : v < 18446744073709551616) :
    spec_read_val le (wrFile le v p 8 f) p 8 = v := by
  cases le
  · rw [sv8F, wrFile_at false v p p 8 f 0 (by omega) (by norm_num),
      wrFile_at false v p (p + 1) 8 f 1 (by omega) (by norm_num),
      wrFile_at false v p (p + 2) 8 f 2 (by omega) (by norm_num),
      wrFile_at false v p (p + 3) 8 f 3 (by omega) (by norm_num),
      wrFile_at false v p (p + 4) 8 f 4 (by omega) (by norm_num),
      wrFile_at false v p (p + 5) 8 f 5 (by omega) (by norm_num),
      wrFile_at false v p (p + 6) 8 f 6 (by omega) (by norm_num),
      wrFile_at false v p (p + 7) 8 f 7 (by omega) (by norm_num)]
    simp [wByte]
    omega
  · rw [sv8T, wrFile_at true v p p 8 f 0 (by omega) (by norm_num),
      wrFile_at true v p (p + 1) 8 f 1 (by omega) (by norm_num),
      wrFile_at true v p (p + 2) 8 f 2 (by omega) (by norm_num),
      wrFile_at true v p (p + 3) 8 f 3 (by omega) (by norm_num),
      wrFile_at true v p (p + 4) 8 f 4 (by omega) (by norm_num),
      wrFile_at true v p (p + 5) 8 f 5 (by omega) (by norm_num),
      wrFile_at true v p (p + 6) 8 f 6 (by omega) (by norm_num),
      wrFile_at true v p (p + 7) 8 f 7 (by omega) (by norm_num)]
    simp [wByte]
    omega

theorem toSigned_toUnsigned {w : Nat} (hw : w = 8 ∨ w = 16 ∨ w = 32 ∨ w = 64)
    (v : Int) (h1 : -(2 ^ (w - 1)) ≤ v) (h2 : v < 2 ^ (w - 1)) :
    toSigned w (toUnsigned w v) = v := by
  unfold toSigned toUnsigned
  rcases hw with rfl | rfl | rfl | rfl <;> norm_num at h1 h2 ⊢ <;>
    split <;> omega

theorem computeWindowVal_props (hint pgsize flen : Int) (hp8 : 8 ≤ pgsize)
    (hf0 : 0 ≤ flen) :
    ∃ cr : Int, computeWindowVal flen pgsize hint = min cr flen ∧
      pgsize ≤ cr ∧ cr % pgsize = 0 ∧
      cr ≤ (if (1073741824 : Int) % pgsize ≠ 0
        then (1073741824 / pgsize + 1) * pgsize else 1073741824) := by
  simp only [computeWindowVal]
  generalize hg1 : (if hint < pgsize then pgsize else hint) = wl1
  have h1 : pgsize ≤ wl1 := by
    rw [← hg1]
    split <;> omega
  generalize hg2 : (if wl1 > 1073741824 then 1073741824 else wl1) = wl2
  have h2a : 0 < wl2 := by
    rw [← hg2]
    split <;> omega
  have h2b : wl2 ≤ 1073741824 := by
    rw [← hg2]
    split <;> omega
  generalize hg3 :
    (if wl2 % pgsize ≠ 0 then (wl2 / pgsize + 1) * pgsize else wl2) = wl3
  have h3a : pgsize ≤ wl3 := by
    rw [← hg3]
    split
    · have hd : 0 ≤ wl2 / pgsize := Int.ediv_nonneg (by omega) (by omega)
      have hmul := mul_le_mul_of_nonneg_right
        (show (1 : Int) ≤ wl2 / pgsize + 1 from by omega)
        (show (0 : Int) ≤ pgsize from by omega)
      linarith
    · rename_i heq
      have hdvd : pgsize ∣ wl2 := Int.dvd_of_emod_eq_zero (not_not.mp heq)
      exact Int.le_of_dvd h2a hdvd
  have h3b : wl3 % pgsize = 0 := by
    rw [← hg3]
    split
    · exact Int.mul_emod_left _ _
    · rename_i heq
      exact not_not.mp heq
  have h3c : wl3 ≤ (if (1073741824 : Int) % pgsize ≠ 0
      then (1073741824 / pgsize + 1) * pgsize else 1073741824) := by
    by_cases hgig : (1073741824 : Int) % pgsize ≠ 0
    · rw [if_pos hgig, ← hg3]
      have hmono : wl2 / pgsize ≤ 1073741824 / pgsize :=
        Int.ediv_le_ediv (by omega) h2b
      have hh := Int.ediv_add_emod (1073741824 : Int) pgsize
      have hr0 : 0 ≤ (1073741824 : Int) % pgsize :=
        Int.emod_nonneg _ (by omega)
      have hrl : (1073741824 : Int) % pgsize < pgsize :=
        Int.emod_lt_of_pos _ (by omega)
      have hring : (1073741824 / pgsize + 1) * pgsize =
          pgsize * (1073741824 / pgsize) + pgsize := by ring
      split
      · have hmul := mul_le_mul_of_nonneg_right
          (show wl2 / pgsize + 1 ≤ 1073741824 / pgsize + 1 from by omega)
          (show (0 : Int) ≤ pgsize from by omega)
        linarith
      · omega
    · rw [if_neg hgig, ← hg3]
      have h30 : (1073741824 : Int) % pgsize = 0 := not_not.mp hgig
      have hh := Int.ediv_add_emod (1073741824 : Int) pgsize
      split
      · rename_i hne
        have hmono : wl2 / pgsize ≤ 1073741824 / pgsize :=
          Int.ediv_le_ediv (by omega) h2b
        have hh2 := Int.ediv_add_emod wl2 pgsize
        have hr0 : 0 ≤ wl2 % pgsize := Int.emod_nonneg _ (by omega)
        have hrl : wl2 % pgsize < pgsize := Int.emod_lt_of_pos _ (by omega)
        by_cases hq : wl2 / pgsize = 1073741824 / pgsize
        · exfalso
          rw [hq] at hh2
          omega
        · have hq1 : wl2 / pgsize + 1 ≤ 1073741824 / pgsize := by omega
          have hmul := mul_le_mul_of_nonneg_right hq1
            (show (0 : Int) ≤ pgsize from by omega)
          have hco : 1073741824 / pgsize * pgsize =
              pgsize * (1073741824 / pgsize) := mul_comm _ _
          omega
      · omega
  refine ⟨wl3, ?_, h3a, h3b, h3c⟩
  split
  · exact (min_eq_right (by omega)).symm
  · exact (min_eq_left (by omega)).symm

theorem computeWindowVal_inv (hint pgsize flen : Int) (hp8 : 8 ≤ pgsize)
    (hpm : pgsize % 8 = 0) (hf0 : 0 ≤ flen) :
    0 ≤ computeWindowVal flen pgsize hint ∧
    computeWindowVal flen pgsize hint ≤ flen ∧
    (0 < flen → 1 ≤ computeWindowVal flen pgsize hint) ∧
    (computeWindowVal flen pgsize hint % 8 = 0 ∨
      computeWindowVal flen pgsize hint = flen) := by
  obtain ⟨cr, heq, hcr1, hcr2, hcr3⟩ :=
    computeWindowVal_props hint pgsize flen hp8 hf0
  have hcr8 : cr % 8 = 0 := by
    have h8p : (8 : Int) ∣ pgsize := Int.dvd_of_emod_eq_zero hpm
    have hpc : pgsize ∣ cr := Int.dvd_of_emod_eq_zero hcr2
    exact Int.emod_eq_zero_of_dvd (dvd_trans h8p hpc)
  rw [heq]
  rcases min_cases cr flen with ⟨hm, hmle⟩ | ⟨hm, hmle⟩ <;> rw [hm]
  · exact ⟨by omega, by omega, fun _ => by omega, Or.inl hcr8⟩
  · exact ⟨hf0, le_refl _, fun h => h, Or.inr rfl⟩

theorem unview_state (pv : AKSVIEW) :
    (unview pv).flen = pv.flen ∧ (unview pv).pgsize = pv.pgsize ∧
    (unview pv).hint = pv.hint ∧ (unview pv).wlen = pv.wlen ∧
    (unview pv).file = pv.file := by
  unfold unview aksview_flush
  split
  · split <;> exact ⟨rfl, rfl, rfl, rfl, rfl⟩
  · exact ⟨rfl, rfl, rfl, rfl, rfl⟩

theorem unview_flags (pv : AKSVIEW) (h16 : pv.flags < 16) :
    (unview pv).flags < 16 ∧
    testFlag (unview pv) FLAG_RO = testFlag pv FLAG_RO ∧
    hostLE (unview pv) = hostLE pv ∧
    testFlag (unview pv) FLAG_UT = testFlag pv FLAG_UT ∧
    (testFlag (unview pv) FLAG_DT = true → testFlag pv FLAG_DT = true) := by
  obtain ⟨g16, gRF, _⟩ := flush_spec pv h16
  obtain ⟨⟨_, _, _, _, b5, b6⟩, _, gUT, gDT⟩ := gRF
  unfold unview
  split
  · exact ⟨g16, b5, b6, gUT, gDT⟩
  · exact ⟨h16, rfl, rfl, rfl, fun h => h⟩

theorem mapByte_state {pv pv' : AKSVIEW} {b : Int}
    (h : mapByte pv b = some pv') :
    pv'.flen = pv.flen ∧ pv'.pgsize = pv.pgsize ∧ pv'.hint = pv.hint ∧
    pv'.wlen = pv.wlen ∧ pv'.file = pv.file := by
  unfold mapByte at h
  by_cases h1 : b < 0 ∨ b ≥ pv.flen
  · rw [if_pos h1] at h
    exact Option.noConfusion h
  · rw [if_neg h1] at h
    by_cases h2 : b < pv.wfirst ∨ b > pv.wlast
    · rw [if_pos h2] at h
      injection h with h'
      obtain ⟨u1, u2, u3, u4, u5⟩ := unview_state pv
      rw [← h']
      exact ⟨u1, u2, u3, u4, u5⟩
    · rw [if_neg h2] at h
      injection h with h'
      rw [← h']
      exact ⟨rfl, rfl, rfl, rfl, rfl⟩

theorem mapByte_flags {pv pv' : AKSVIEW} {b : Int} (h16 : pv.flags < 16)
    (h : mapByte pv b = some pv') :
    pv'.flags < 16 ∧ testFlag pv' FLAG_RO = testFlag pv FLAG_RO ∧
    hostLE pv' = hostLE pv ∧
    testFlag pv' FLAG_UT = testFlag pv FLAG_UT ∧
    (testFlag pv' FLAG_DT = true → testFlag pv FLAG_DT = true) := by
  unfold mapByte at h
  by_cases h1 : b < 0 ∨ b ≥ pv.flen
  · rw [if_pos h1] at h
    exact Option.noConfusion h
  · rw [if_neg h1] at h
    by_cases h2 : b < pv.wfirst ∨ b > pv.wlast
    · rw [if_pos h2] at h
      injection h with h'
      obtain ⟨u1, u2, u3, u4, u5⟩ := unview_flags pv h16
      rw [← h']
      exact ⟨u1, u2, u3, u4, u5⟩
    · rw [if_neg h2] at h
      injection h with h'
      rw [← h']
      exact ⟨h16, rfl, rfl, rfl, fun h => h⟩

theorem read8u_frame {pv : AKSVIEW} {pos : Int} {s : AKSVIEW × Nat}
    (h16 : pv.flags < 16) (h : aksview_read8u pv pos = some s) :
    s.1.flen = pv.flen ∧ s.1.file = pv.file ∧ s.1.flags < 16 ∧
    testFlag s.1 FLAG_RO = testFlag pv FLAG_RO ∧ hostLE s.1 = hostLE pv ∧
    testFlag s.1 FLAG_UT = testFlag pv FLAG_UT ∧
    (testFlag s.1 FLAG_DT = true → testFlag pv FLAG_DT = true) := by
  unfold aksview_read8u at h
  cases hm : mapByte pv pos
  · rw [hm] at h
    exact Option.noConfusion h
  · rename_i q
    rw [hm] at h
    simp only [Option.map_some'] at h
    injection h with h'
    obtain ⟨m1, _, _, _, m5⟩ := mapByte_state hm
    obtain ⟨f1, f2, f3, f4, f5⟩ := mapByte_flags h16 hm
    rw [← h']
    exact ⟨m1, m5, f1, f2, f3, f4, f5⟩

theorem read16u_frame {pv : AKSVIEW} {pos : Int} {le : Bool}
    {s : AKSVIEW × Nat} (h16 : pv.flags < 16)
    (h : aksview_read16u pv pos le = some s) :
    s.1.flen = pv.flen ∧ s.1.file = pv.file ∧ s.1.flags < 16 ∧
    testFlag s.1 FLAG_RO = testFlag pv FLAG_RO ∧ hostLE s.1 = hostLE pv ∧
    testFlag s.1 FLAG_UT = testFlag pv FLAG_UT ∧
    (testFlag s.1 FLAG_DT = true → testFlag pv FLAG_DT = true) := by
  unfold aksview_read16u at h
  by_cases hpre : pos < 0 ∨ pos ≥ AKSVIEW_MAXLEN
  · rw [if_pos hpre] at h
    exact Option.noConfusion h
  · rw [if_neg hpre] at h
    by_cases hali : pos % 2 = 0
    · rw [if_pos hali] at h
      cases hm : mapByte pv (pos + 1)
      · rw [hm] at h
        exact Option.noConfusion h
      · rename_i q
        rw [hm] at h
        simp only [Option.map_some'] at h
        injection h with h'
        obtain ⟨m1, _, _, _, m5⟩ := mapByte_state hm
        obtain ⟨f1, f2, f3, f4, f5⟩ := mapByte_flags h16 hm
        rw [← h']
        exact ⟨m1, m5, f1, f2, f3, f4, f5⟩
    · rw [if_neg hali] at h
      cases hs0 : aksview_read8u pv pos
      · rw [hs0] at h
        exact Option.noConfusion h
      · rename_i s0
        rw [hs0] at h
        simp only [Option.some_bind] at h
        cases hs1 : aksview_read8u s0.1 (pos + 1)
        · rw [hs1] at h
          exact Option.noConfusion h
        · rename_i s1
          rw [hs1] at h
          simp only [Option.map_some'] at h
          injection h with h'
          obtain ⟨a1, a2, a3, a4, a5, a6, a7⟩ := read8u_frame h16 hs0
          obtain ⟨b1, b2, b3, b4, b5, b6, b7⟩ := read8u_frame a3 hs1
          rw [← h']
          exact ⟨b1.trans a1, b2.trans a2, b3, b4.trans a4, b5.trans a5,
            b6.trans a6, fun hd => a7 (b7 hd)⟩

theorem read32u_frame {pv : AKSVIEW} {pos : Int} {le : Bool}
    {s : AKSVIEW × Nat} (h16 : pv.flags < 16)
    (h : aksview_read32u pv pos le = some s) :
    s.1.flen = pv.flen ∧ s.1.file = pv.file ∧ s.1.flags < 16 ∧
    testFlag s.1 FLAG_RO = testFlag pv FLAG_RO ∧ hostLE s.1 = hostLE pv ∧
    testFlag s.1 FLAG_UT = testFlag pv FLAG_UT ∧
    (testFlag s.1 FLAG_DT = true → testFlag pv FLAG_DT = true) := by
  unfold aksview_read32u at h
  by_cases hpre : pos < 0 ∨ pos ≥ AKSVIEW_MAXLEN
  · rw [if_pos hpre] at h
    exact Option.noConfusion h
  · rw [if_neg hpre] at h
    by_cases hali : pos % 4 = 0
    · rw [if_pos hali] at h
      cases hm : mapByte pv (pos + 3)
      · rw [hm] at h
        exact Option.noConfusion h
      · rename_i q
        rw [hm] at h
        simp only [Option.map_some'] at h
        injection h with h'
        obtain ⟨m1, _, _, _, m5⟩ := mapByte_state hm
        obtain ⟨f1, f2, f3, f4, f5⟩ := mapByte_flags h16 hm
        rw [← h']
        exact ⟨m1, m5, f1, f2, f3, f4, f5⟩
    · rw [if_neg hali] at h
      cases hs0 : aksview_read16u pv pos le
      · rw [hs0] at h
        exact Option.noConfusion h
      · rename_i s0
        rw [hs0] at h
        simp only [Option.some_bind] at h
        cases hs1 : aksview_read16u s0.1 (pos + 2) le
        · rw [hs1] at h
          exact Option.noConfusion h
        · rename_i s1
          rw [hs1] at h
          simp only [Option.map_some'] at h
          injection h with h'
          obtain ⟨a1, a2, a3, a4, a5, a6, a7⟩ := read16u_frame h16 hs0
          obtain ⟨b1, b2, b3, b4, b5, b6, b7⟩ := read16u_frame a3 hs1
          rw [← h']
          exact ⟨b1.trans a1, b2.trans a2, b3, b4.trans a4, b5.trans a5,
            b6.trans a6, fun hd => a7 (b7 hd)⟩

theorem read64u_frame {pv : AKSVIEW} {pos : Int} {le : Bool}
    {s : AKSVIEW × Nat} (h16 : pv.flags < 16)
    (h : aksview_read64u pv pos le = some s) :
    s.1.flen = pv.flen ∧ s.1.file = pv.file ∧ s.1.flags < 16 ∧
    testFlag s.1 FLAG_RO = testFlag pv FLAG_RO ∧ hostLE s.1 = hostLE pv ∧
    testFlag s.1 FLAG_UT = testFlag pv FLAG_UT ∧
    (testFlag s.1 FLAG_DT = true → testFlag pv FLAG_DT = true) := by
  unfold aksview_read64u at h
  by_cases hpre : pos < 0 ∨ pos ≥ AKSVIEW_MAXLEN
  · rw [if_pos hpre] at h
    exact Option.noConfusion h
  · rw [if_neg hpre] at h
    by_cases hali : pos % 8 = 0
    · rw [if_pos hali] at h
      cases hm : mapByte pv (pos + 7)
      · rw [hm] at h
        exact Option.noConfusion h
      · rename_i q
        rw [hm] at h
        simp only [Option.map_some'] at h
        injection h with h'
        obtain ⟨m1, _, _, _, m5⟩ := mapByte_state hm
        obtain ⟨f1, f2, f3, f4, f5⟩ := mapByte_flags h16 hm
        rw [← h']
        exact ⟨m1, m5, f1, f2, f3, f4, f5⟩
    · rw [if_neg hali] at h
      cases hs0 : aksview_read32u pv pos le
      · rw [hs0] at h
        exact Option.noConfusion h
      · rename_i s0
        rw [hs0] at h
        simp only [Option.some_bind] at h
        cases hs1 : aksview_read32u s0.1 (pos + 4) le
        · rw [hs1] at h
          exact Option.noConfusion h
        · rename_i s1
          rw [hs1] at h
          simp only [Option.map_some'] at h
          injection h with h'
          obtain ⟨a1, a2, a3, a4, a5, a6, a7⟩ := read32u_frame h16 hs0
          obtain ⟨b1, b2, b3, b4, b5, b6, b7⟩ := read32u_frame a3 hs1
          rw [← h']
          exact ⟨b1.trans a1, b2.trans a2, b3, b4.trans a4, b5.trans a5,
            b6.trans a6, fun hd => a7 (b7 hd)⟩

theorem mapByte_none {pv : AKSVIEW} {b : Int} (h : b < 0 ∨ b ≥ pv.flen) :
    mapByte pv b = none := by
  unfold mapByte
  rw [if_pos h]

theorem read8u_flen {pv : AKSVIEW} {pos : Int} {s : AKSVIEW × Nat}
    (h : aksview_read8u pv pos = some s) : s.1.flen = pv.flen := by
  unfold aksview_read8u at h
  cases hm : mapByte pv pos
  · rw [hm] at h
    exact Option.noConfusion h
  · rw [hm] at h
    simp only [Option.map_some'] at h
    injection h with h'
    rw [← h']
    exact (mapByte_state hm).1

theorem read8u_none {pv : AKSVIEW} {pos : Int}
    (h : pos < 0 ∨ pos + 1 > pv.flen) : aksview_read8u pv pos = none := by
  unfold aksview_read8u
  rw [mapByte_none (by omega)]
  rfl

theorem read16u_none {pv : AKSVIEW} {pos : Int} (le : Bool)
    (h : pos < 0 ∨ pos + 2 > pv.flen) :
    aksview_read16u pv pos le = none := by
  unfold aksview_read16u
  by_cases hpre : pos < 0 ∨ pos ≥ AKSVIEW_MAXLEN
  · rw [if_pos hpre]
  · rw [if_neg hpre]
    by_cases hali : pos % 2 = 0
    · rw [if_pos hali, mapByte_none (by omega)]
      rfl
    · rw [if_neg hali]
      cases hs0 : aksview_read8u pv pos
      · rfl
      · rename_i s0
        simp only [Option.some_bind]
        have hfl : s0.1.flen = pv.flen := read8u_flen hs0
        rw [@read8u_none s0.1 (pos + 1) (by omega)]
        rfl

theorem read16u_flen {pv : AKSVIEW} {pos : Int} {le : Bool}
    {s : AKSVIEW × Nat} (h : aksview_read16u pv pos le = some s) :
    s.1.flen = pv.flen := by
  unfold aksview_read16u at h
  by_cases hpre : pos < 0 ∨ pos ≥ AKSVIEW_MAXLEN
  · rw [if_pos hpre] at h
    exact Option.noConfusion h
  · rw [if_neg hpre] at h
    by_cases hali : pos % 2 = 0
    · rw [if_pos hali] at h
      cases hm : mapByte pv (pos + 1)
      · rw [hm] at h
        exact Option.noConfusion h
      · rw [hm] at h
        simp only [Option.map_some'] at h
        injection h with h'
        rw [← h']
        exact (mapByte_state hm).1
    · rw [if_neg hali] at h
      cases hs0 : aksview_read8u pv pos
      · rw [hs0] at h
        exact Option.noConfusion h
      · rename_i s0
        rw [hs0] at h
        simp only [Option.some_bind] at h
        cases hs1 : aksview_read8u s0.1 (pos + 1)
        · rw [hs1] at h
          exact Option.noConfusion h
        · rename_i s1
          rw [hs1] at h
          simp only [Option.map_some'] at h
          injection h with h'
          rw [← h']
          exact (read8u_flen hs1).trans (read8u_flen hs0)

theorem read32u_none {pv : AKSVIEW} {pos : Int} (le : Bool)
    (h : pos < 0 ∨ pos + 4 > pv.flen) :
    aksview_read32u pv pos le = none := by
  unfold aksview_read32u
  by_cases hpre : pos < 0 ∨ pos ≥ AKSVIEW_MAXLEN
  · rw [if_pos hpre]
  · rw [if_neg hpre]
    by_cases hali : pos % 4 = 0
    · rw [if_pos hali, mapByte_none (by omega)]
      rfl
    · rw [if_neg hali]
      cases hs0 : aksview_read16u pv pos le
      · rfl
      · rename_i s0
        simp only [Option.some_bind]
        have hfl : s0.1.flen = pv.flen := read16u_flen hs0
        rw [@read16u_none s0.1 (pos + 2) le (by omega)]
        rfl

theorem read32u_flen {pv : AKSVIEW} {pos : Int} {le : Bool}
    {s : AKSVIEW × Nat} (h : aksview_read32u pv pos le = some s) :
    s.1.flen = pv.flen := by
  unfold aksview_read32u at h
  by_cases hpre : pos < 0 ∨ pos ≥ AKSVIEW_MAXLEN
  · rw [if_pos hpre] at h
    exact Option.noConfusion h
  · rw [if_neg hpre] at h
    by_cases hali : pos % 4 = 0
    · rw [if_pos hali] at h
      cases hm : mapByte pv (pos + 3)
      · rw [hm] at h
        exact Option.noConfusion h
      · rw [hm] at h
        simp only [Option.map_some'] at h
        injection h with h'
        rw [← h']
        exact (mapByte_state hm).1
    · rw [if_neg hali] at h
      cases hs0 : aksview_read16u pv pos le
      · rw [hs0] at h
        exact Option.noConfusion h
      · rename_i s0
        rw [hs0] at h
        simp only [Option.some_bind] at h
        cases hs1 : aksview_read16u s0.1 (pos + 2) le
        · rw [hs1] at h
          exact Option.noConfusion h
        · rename_i s1
          rw [hs1] at h
          simp only [Option.map_some'] at h
          injection h with h'
          rw [← h']
          exact (read16u_flen hs1).trans (read16u_flen hs0)

theorem read64u_none {pv : AKSVIEW} {pos : Int} (le : Bool)
    (h : pos < 0 ∨ pos + 8 > pv.flen) :
    aksview_read64u pv pos le = none := by
  unfold aksview_read64u
  by_cases hpre : pos < 0 ∨ pos ≥ AKSVIEW_MAXLEN
  · rw [if_pos hpre]
  · rw [if_neg hpre]
    by_cases hali : pos % 8 = 0
    · rw [if_pos hali, mapByte_none (by omega)]
      rfl
    · rw [if_neg hali]
      cases hs0 : aksview_read32u pv pos le
      · rfl
      · rename_i s0
        simp only [Option.some_bind]
        have hfl : s0.1.flen = pv.flen := read32u_flen hs0
        rw [@read32u_none s0.1 (pos + 4) le (by omega)]
        rfl

theorem write8u_flen {pv pv' : AKSVIEW} {pos : Int} {v : Nat}
    (h : aksview_write8u pv pos v = some pv') : pv'.flen = pv.flen := by
  unfold aksview_write8u at h
  cases hm : mapByte pv pos
  · rw [hm] at h
    exact Option.noConfusion h
  · rename_i q
    rw [hm] at h
    simp only [Option.some_bind] at h
    by_cases hro : testFlag q FLAG_RO = true
    · rw [if_pos hro] at h
      exact Option.noConfusion h
    · rw [if_neg hro] at h
      injection h with h'
      rw [← h']
      exact (mapByte_state hm).1

theorem write8u_none {pv : AKSVIEW} {pos : Int} (v : Nat)
    (h : pos < 0 ∨ pos + 1 > pv.flen) : aksview_write8u pv pos v = none := by
  unfold aksview_write8u
  rw [mapByte_none (by omega)]
  rfl

theorem write8u_ro_none {pv : AKSVIEW} {pos : Int} (v : Nat)
    (h16 : pv.flags < 16) (hro : testFlag pv FLAG_RO = true) :
    aksview_write8u pv pos v = none := by
  unfold aksview_write8u
  cases hm : mapByte pv pos
  · rfl
  · rename_i q
    simp only [Option.some_bind]
    rw [if_pos (((mapByte_flags h16 hm).2.1).trans hro)]

theorem write16u_flen {pv pv' : AKSVIEW} {pos : Int} {le : Bool} {v : Nat}
    (h : aksview_write16u pv pos le v = some pv') : pv'.flen = pv.flen := by
  simp only [aksview_write16u] at h
  by_cases hpre : pos < 0 ∨ pos ≥ AKSVIEW_MAXLEN
  · rw [if_pos hpre] at h
    exact Option.noConfusion h
  · rw [if_neg hpre] at h
    by_cases hali : pos % 2 = 0
    · rw [if_pos hali] at h
      cases hm : mapByte pv (pos + 1)
      · rw [hm] at h
        exact Option.noConfusion h
      · rename_i q
        rw [hm] at h
        simp only [Option.some_bind] at h
        by_cases hro : testFlag q FLAG_RO = true
        · rw [if_pos hro] at h
          exact Option.noConfusion h
        · rw [if_neg hro] at h
          injection h with h'
          rw [← h']
          exact (mapByte_state hm).1
    · rw [if_neg hali] at h
      cases hs0 : aksview_write8u pv pos _
      · rw [hs0] at h
        exact Option.noConfusion h
      · rename_i q0
        rw [hs0] at h
        simp only [Option.some_bind] at h
        exact (write8u_flen h).trans (write8u_flen hs0)

theorem write16u_none {pv : AKSVIEW} {pos : Int} (le : Bool) (v : Nat)
    (h : pos < 0 ∨ pos + 2 > pv.flen) :
    aksview_write16u pv pos le v = none := by
  simp only [aksview_write16u]
  by_cases hpre : pos < 0 ∨ pos ≥ AKSVIEW_MAXLEN
  · rw [if_pos hpre]
  · rw [if_neg hpre]
    by_cases hali : pos % 2 = 0
    · rw [if_pos hali, mapByte_none (by omega)]
      rfl
    · rw [if_neg hali]
      cases hs0 : aksview_write8u pv pos _
      · rfl
      · rename_i q0
        simp only [Option.some_bind]
        have hfl : q0.flen = pv.flen := write8u_flen hs0
        rw [@write8u_none q0 (pos + 1) _ (by omega)]

theorem write16u_ro_none {pv : AKSVIEW} {pos : Int} (le : Bool) (v : Nat)
    (h16 : pv.flags < 16) (hro : testFlag pv FLAG_RO = true) :
    aksview_write16u pv pos le v = none := by
  simp only [aksview_write16u]
  by_cases hpre : pos < 0 ∨ pos ≥ AKSVIEW_MAXLEN
  · rw [if_pos hpre]
  · rw [if_neg hpre]
    by_cases hali : pos % 2 = 0
    · rw [if_pos hali]
      cases hm : mapByte pv (pos + 1)
      · rfl
      · rename_i q
        simp only [Option.some_bind]
        rw [if_pos (((mapByte_flags h16 hm).2.1).trans hro)]
    · rw [if_neg hali]
      rw [write8u_ro_none _ h16 hro]
      rfl

theorem write32u_flen {pv pv' : AKSVIEW} {pos : Int} {le : Bool} {v : Nat}
    (h : aksview_write32u pv pos le v = some pv') : pv'.flen = pv.flen := by
  simp only [aksview_write32u] at h
  by_cases hpre : pos < 0 ∨ pos ≥ AKSVIEW_MAXLEN
  · rw [if_pos hpre] at h
    exact Option.noConfusion h
  · rw [if_neg hpre] at h
    by_cases hali : pos % 4 = 0
    · rw [if_pos hali] at h
      cases hm : mapByte pv (pos + 3)
      · rw [hm] at h
        exact Option.noConfusion h
      · rename_i q
        rw [hm] at h
        simp only [Option.some_bind] at h
        by_cases hro : testFlag q FLAG_RO = true
        · rw [if_pos hro] at h
          exact Option.noConfusion h
        · rw [if_neg hro] at h
          injection h with h'
          rw [← h']
          exact (mapByte_state hm).1
    · rw [if_neg hali] at h
      cases hs0 : aksview_write16u pv pos le _
      · rw [hs0] at h
        exact Option.noConfusion h
      · rename_i q0
        rw [hs0] at h
        simp only [Option.some_bind] at h
        exact (write16u_flen h).trans (write16u_flen hs0)

theorem write32u_none {pv : AKSVIEW} {pos : Int} (le : Bool) (v : Nat)
    (h : pos < 0 ∨ pos + 4 > pv.flen) :
    aksview_write32u pv pos le v = none := by
  simp only [aksview_write32u]
  by_cases hpre : pos < 0 ∨ pos ≥ AKSVIEW_MAXLEN
  · rw [if_pos hpre]
  · rw [if_neg hpre]
    by_cases hali : pos % 4 = 0
    · rw [if_pos hali, mapByte_none (by omega)]
      rfl
    · rw [if_neg hali]
      cases hs0 : aksview_write16u pv pos le _
      · rfl
      · rename_i q0
        simp only [Option.some_bind]
        have hfl : q0.flen = pv.flen := write16u_flen hs0
        rw [@write16u_none q0 (pos + 2) le _ (by omega)]

theorem write32u_ro_none {pv : AKSVIEW} {pos : Int} (le : Bool) (v : Nat)
    (h16 : pv.flags < 16) (hro : testFlag pv FLAG_RO = true) :
    aksview_write32u pv pos le v = none := by
  simp only [aksview_write32u]
  by_cases hpre : pos < 0 ∨ pos ≥ AKSVIEW_MAXLEN
  · rw [if_pos hpre]
  · rw [if_neg hpre]
    by_cases hali : pos % 4 = 0
    · rw [if_pos hali]
      cases hm : mapByte pv (pos + 3)
      · rfl
      · rename_i q
        simp only [Option.some_bind]
        rw [if_pos (((mapByte_flags h16 hm).2.1).trans hro)]
    · rw [if_neg hali]
      rw [write16u_ro_none le _ h16 hro]
      rfl

theorem write64u_none {pv : AKSVIEW} {pos : Int} (le : Bool) (v : Nat)
    (h : pos < 0 ∨ pos + 8 > pv.flen) :
    aksview_write64u pv pos le v = none := by
  simp only [aksview_write64u]
  by_cases hpre : pos < 0 ∨ pos ≥ AKSVIEW_MAXLEN
  · rw [if_pos hpre]
  · rw [if_neg hpre]
    by_cases hali : pos % 8 = 0
    · rw [if_pos hali, mapByte_none (by omega)]
      rfl
    · rw [if_neg hali]
      cases hs0 : aksview_write32u pv pos le _
      · rfl
      · rename_i q0
        simp only [Option.some_bind]
        have hfl : q0.flen = pv.flen := write32u_flen hs0
        rw [@write32u_none q0 (pos + 4) le _ (by omega)]

theorem read8s_frame {pv : AKSVIEW} {pos : Int} {s : AKSVIEW × Int}
    (h16 : pv.flags < 16) (h : aksview_read8s pv pos = some s) :
    s.1.flen = pv.flen ∧ s.1.file = pv.file ∧ s.1.flags < 16 ∧
    testFlag s.1 FLAG_RO = testFlag pv FLAG_RO ∧ hostLE s.1 = hostLE pv ∧
    testFlag s.1 FLAG_UT = testFlag pv FLAG_UT ∧
    (testFlag s.1 FLAG_DT = true → testFlag pv FLAG_DT = true) := by
  rw [read8s_eq] at h
  cases ht : aksview_read8u pv pos
  · rw [ht] at h
    exact Option.noConfusion h
  · rename_i t
    rw [ht] at h
    simp only [Option.map_some'] at h
    injection h with h'
    rw [← h']
    exact read8u_frame h16 ht

theorem read16s_frame {pv : AKSVIEW} {pos : Int} {le : Bool}
    {s : AKSVIEW × Int} (h16 : pv.flags < 16)
    (h : aksview_read16s pv pos le = some s) :
    s.1.flen = pv.flen ∧ s.1.file = pv.file ∧ s.1.flags < 16 ∧
    testFlag s.1 FLAG_RO = testFlag pv FLAG_RO ∧ hostLE s.1 = hostLE pv ∧
    testFlag s.1 FLAG_UT = testFlag pv FLAG_UT ∧
    (testFlag s.1 FLAG_DT = true → testFlag pv FLAG_DT = true) := by
  rw [read16s_eq] at h
  cases ht : aksview_read16u pv pos le
  · rw [ht] at h
    exact Option.noConfusion h
  · rename_i t
    rw [ht] at h
    simp only [Option.map_some'] at h
    injection h with h'
    rw [← h']
    exact read16u_frame h16 ht

theorem read32s_frame {pv : AKSVIEW} {pos : Int} {le : Bool}
    {s : AKSVIEW × Int} (h16 : pv.flags < 16)
    (h : aksview_read32s pv pos le = some s) :
    s.1.flen = pv.flen ∧ s.1.file = pv.file ∧ s.1.flags < 16 ∧
    testFlag s.1 FLAG_RO = testFlag pv FLAG_RO ∧ hostLE s.1 = hostLE pv ∧
    testFlag s.1 FLAG_UT = testFlag pv FLAG_UT ∧
    (testFlag s.1 FLAG_DT = true → testFlag pv FLAG_DT = true) := by
  rw [read32s_eq] at h
  cases ht : aksview_read32u pv pos le
  · rw [ht] at h
    exact Option.noConfusion h
  · rename_i t
    rw [ht] at h
    simp only [Option.map_some'] at h
    injection h with h'
    rw [← h']
    exact read32u_frame h16 ht

theorem read64s_frame {pv : AKSVIEW} {pos : Int} {le : Bool}
    {s : AKSVIEW × Int} (h16 : pv.flags < 16)
    (h : aksview_read64s pv pos le = some s) :
    s.1.flen = pv.flen ∧ s.1.file = pv.file ∧ s.1.flags < 16 ∧
    testFlag s.1 FLAG_RO = testFlag pv FLAG_RO ∧ hostLE s.1 = hostLE pv ∧
    testFlag s.1 FLAG_UT = testFlag pv FLAG_UT ∧
    (testFlag s.1 FLAG_DT = true → testFlag pv FLAG_DT = true) := by
  rw [read64s_eq] at h
  cases ht : aksview_read64u pv pos le
  · rw [ht] at h
    exact Option.noConfusion h
  · rename_i t
    rw [ht] at h
    simp only [Option.map_some'] at h
    injection h with h'
    rw [← h']
    exact read64u_frame h16 ht

theorem runROp_frame {pv pv' : AKSVIEW} {op : ROp} (h16 : pv.flags < 16)
    (h : runROp pv op = some pv') :
    pv'.file = pv.file ∧ pv'.flags < 16 ∧
    testFlag pv' FLAG_UT = testFlag pv FLAG_UT ∧
    (testFlag pv' FLAG_DT = true → testFlag pv FLAG_DT = true) := by
  cases op <;> simp only [runROp] at h
  case r8 pos =>
    cases ht : aksview_read8u pv pos
    · rw [ht] at h
      exact Option.noConfusion h
    · rename_i t
      rw [ht] at h
      simp only [Option.map_some'] at h
      injection h with h'
      obtain ⟨_, a2, a3, _, _, a6, a7⟩ := read8u_frame h16 ht
      rw [← h']
      exact ⟨a2, a3, a6, a7⟩
  case r8s pos =>
    cases ht : aksview_read8s pv pos
    · rw [ht] at h
      exact Option.noConfusion h
    · rename_i t
      rw [ht] at h
      simp only [Option.map_some'] at h
      injection h with h'
      obtain ⟨_, a2, a3, _, _, a6, a7⟩ := read8s_frame h16 ht
      rw [← h']
      exact ⟨a2, a3, a6, a7⟩
  case r16u pos le =>
    cases ht : aksview_read16u pv pos le
    · rw [ht] at h
      exact Option.noConfusion h
    · rename_i t
      rw [ht] at h
      simp only [Option.map_some'] at h
      injection h with h'
      obtain ⟨_, a2, a3, _, _, a6, a7⟩ := read16u_frame h16 ht
      rw [← h']
      exact ⟨a2, a3, a6, a7⟩
  case r16s pos le =>
    cases ht : aksview_read16s pv pos le
    · rw [ht] at h
      exact Option.noConfusion h
    · rename_i t
      rw [ht] at h
      simp only [Option.map_some'] at h
      injection h with h'
      obtain ⟨_, a2, a3, _, _, a6, a7⟩ := read16s_frame h16 ht
      rw [← h']
      exact ⟨a2, a3, a6, a7⟩
  case r32u pos le =>
    cases ht : aksview_read32u pv pos le
    · rw [ht] at h
      exact Option.noConfusion h
    · rename_i t
      rw [ht] at h
      simp only [Option.map_some'] at h
      injection h with h'
      obtain ⟨_, a2, a3, _, _, a6, a7⟩ := read32u_frame h16 ht
      rw [← h']
      exact ⟨a2, a3, a6, a7⟩
  case r32s pos le =>
    cases ht : aksview_read32s pv pos le
    · rw [ht] at h
      exact Option.noConfusion h
    · rename_i t
      rw [ht] at h
      simp only [Option.map_some'] at h
      injection h with h'
      obtain ⟨_, a2, a3, _, _, a6, a7⟩ := read32s_frame h16 ht
      rw [← h']
      exact ⟨a2, a3, a6, a7⟩
  case r64u pos le =>
    cases ht : aksview_read64u pv pos le
    · rw [ht] at h
      exact Option.noConfusion h
    · rename_i t
      rw [ht] at h
      simp only [Option.map_some'] at h
      injection h with h'
      obtain ⟨_, a2, a3, _, _, a6, a7⟩ := read64u_frame h16 ht
      rw [← h']
      exact ⟨a2, a3, a6, a7⟩
  case r64s pos le =>
    cases ht : aksview_read64s pv pos le
    · rw [ht] at h
      exact Option.noConfusion h
    · rename_i t
      rw [ht] at h
      simp only [Option.map_some'] at h
      injection h with h'
      obtain ⟨_, a2, a3, _, _, a6, a7⟩ := read64s_frame h16 ht
      rw [← h']
      exact ⟨a2, a3, a6, a7⟩
  case wrtble =>
    injection h with h'
    rw [← h']
    exact ⟨rfl, h16, rfl, fun x => x⟩
  case glen =>
    injection h with h'
    rw [← h']
    exact ⟨rfl, h16, rfl, fun x => x⟩
  case fl =>
    injection h with h'
    obtain ⟨g16, gRF, _⟩ := flush_spec pv h16
    rw [← h']
    exact ⟨gRF.2.1, g16, gRF.2.2.1, gRF.2.2.2⟩

theorem runROps_frame {ops : List ROp} : ∀ {pv pv' : AKSVIEW},
    pv.flags < 16 → runROps pv ops = some pv' →
    pv'.file = pv.file ∧ pv'.flags < 16 ∧
    testFlag pv' FLAG_UT = testFlag pv FLAG_UT ∧
    (testFlag pv' FLAG_DT = true → testFlag pv FLAG_DT = true) := by
  induction ops with
  | nil =>
    intro pv pv' h16 h
    simp only [runROps] at h
    injection h with h'
    rw [← h']
    exact ⟨rfl, h16, rfl, fun x => x⟩
  | cons op t ih =>
    intro pv pv' h16 h
    simp only [runROps] at h
    cases h1 : runROp pv op
    · rw [h1] at h
      exact Option.noConfusion h
    · rename_i q
      rw [h1] at h
      simp only [Option.some_bind] at h
      obtain ⟨a1, a2, a3, a4⟩ := runROp_frame h16 h1
      obtain ⟨b1, b2, b3, b4⟩ := ih a2 h
      exact ⟨b1.trans a1, b2, b3.trans a3, fun hd => a4 (b4 hd)⟩

theorem write64u_ro_none {pv : AKSVIEW} {pos : Int} (le : Bool) (v : Nat)
    (h16 : pv.flags < 16) (hro : testFlag pv FLAG_RO = true) :
    aksview_write64u pv pos le v = none := by
  simp only [aksview_write64u]
  by_cases hpre : pos < 0 ∨ pos ≥ AKSVIEW_MAXLEN
  · rw [if_pos hpre]
  · rw [if_neg hpre]
    by_cases hali : pos % 8 = 0
    · rw [if_pos hali]
      cases hm : mapByte pv (pos + 7)
      · rfl
      · rename_i q
        simp only [Option.some_bind]
        rw [if_pos (((mapByte_flags h16 hm).2.1).trans hro)]
    · rw [if_neg hali]
      rw [write32u_ro_none le _ h16 hro]
      rfl

theorem dtinv_of_dt_false {pv : AKSVIEW}
    (h : testFlag pv FLAG_DT = false) : DtInv pv := by
  intro hdt
  rw [h] at hdt
  exact Bool.noConfusion hdt

theorem mapped_dtinv {pv : AKSVIEW} (hI : Inv pv) (hm : pv.mapped = true) :
    DtInv pv := by
  intro _
  obtain ⟨_, hf0, _, _, _, hw0, hwle, hwpos, _, hwm, _⟩ := hI
  obtain ⟨g0, gF, _, gl⟩ := hwm hm
  have h1 : 1 ≤ pv.wlen := hwpos (by omega)
  refine ⟨hm, g0, ?_⟩
  rcases min_cases pv.wlen (pv.flen - pv.wfirst) with ⟨he, _⟩ | ⟨he, _⟩ <;>
    rw [he] at gl <;> omega

theorem read8u_dtinv {pv : AKSVIEW} {pos : Int} {s : AKSVIEW × Nat}
    (hI : Inv pv) (h : aksview_read8u pv pos = some s) : DtInv s.1 := by
  by_cases hb : pos < 0 ∨ pos + 1 > pv.flen
  · rw [read8u_none hb] at h
    exact Option.noConfusion h
  · obtain ⟨pv', hrun, hI', _, hmp'⟩ := @read8u_spec pv pos hI (by omega) (by omega)
    rw [hrun] at h
    injection h with h'
    rw [← h']
    exact mapped_dtinv hI' hmp'

theorem read16u_dtinv {pv : AKSVIEW} {pos : Int} {le : Bool}
    {s : AKSVIEW × Nat} (hI : Inv pv)
    (h : aksview_read16u pv pos le = some s) : DtInv s.1 := by
  by_cases hb : pos < 0 ∨ pos + 2 > pv.flen
  · rw [read16u_none le hb] at h
    exact Option.noConfusion h
  · obtain ⟨pv', hrun, hI', _, hmp'⟩ :=
      @read16u_spec pv pos le hI (by omega) (by omega)
    rw [hrun] at h
    injection h with h'
    rw [← h']
    exact mapped_dtinv hI' hmp'

theorem read32u_dtinv {pv : AKSVIEW} {pos : Int} {le : Bool}
    {s : AKSVIEW × Nat} (hI : Inv pv)
    (h : aksview_read32u pv pos le = some s) : DtInv s.1 := by
  by_cases hb : pos < 0 ∨ pos + 4 > pv.flen
  · rw [read32u_none le hb] at h
    exact Option.noConfusion h
  · obtain ⟨pv', hrun, hI', _, hmp'⟩ :=
      @read32u_spec pv pos le hI (by omega) (by omega)
    rw [hrun] at h
    injection h with h'
    rw [← h']
    exact mapped_dtinv hI' hmp'

theorem read64u_dtinv {pv : AKSVIEW} {pos : Int} {le : Bool}
    {s : AKSVIEW × Nat} (hI : Inv pv)
    (h : aksview_read64u pv pos le = some s) : DtInv s.1 := by
  by_cases hb : pos < 0 ∨ pos + 8 > pv.flen
  · rw [read64u_none le hb] at h
    exact Option.noConfusion h
  · obtain ⟨pv', hrun, hI', _, hmp'⟩ :=
      @read64u_spec pv pos le hI (by omega) (by omega)
    rw [hrun] at h
    injection h with h'
    rw [← h']
    exact mapped_dtinv hI' hmp'

theorem write8u_dtinv {pv pv' : AKSVIEW} {pos : Int} {v : Nat}
    (hI : Inv pv) (h : aksview_write8u pv pos v = some pv') : DtInv pv' := by
  by_cases hb : pos < 0 ∨ pos + 1 > pv.flen
  · rw [write8u_none v hb] at h
    exact Option.noConfusion h
  · cases hro : testFlag pv FLAG_RO
    · obtain ⟨q, hrun, hIq, _, hmq, _⟩ :=
        @write8u_spec pv pos v hI hro (by omega) (by omega)
      rw [hrun] at h
      injection h with h'
      rw [← h']
      exact mapped_dtinv hIq hmq
    · rw [write8u_ro_none v hI.1 hro] at h
      exact Option.noConfusion h

theorem write16u_dtinv {pv pv' : AKSVIEW} {pos : Int} {le : Bool} {v : Nat}
    (hI : Inv pv) (h : aksview_write16u pv pos le v = some pv') :
    DtInv pv' := by
  by_cases hb : pos < 0 ∨ pos + 2 > pv.flen
  · rw [write16u_none le v hb] at h
    exact Option.noConfusion h
  · cases hro : testFlag pv FLAG_RO
    · obtain ⟨q, hrun, hIq, _, hmq, _⟩ :=
        @write16u_spec pv pos le v hI hro (by omega) (by omega)
      rw [hrun] at h
      injection h with h'
      rw [← h']
      exact mapped_dtinv hIq hmq
    · rw [write16u_ro_none le v hI.1 hro] at h
      exact Option.noConfusion h

theorem write32u_dtinv {pv pv' : AKSVIEW} {pos : Int} {le : Bool} {v : Nat}
    (hI : Inv pv) (h : aksview_write32u pv pos le v = some pv') :
    DtInv pv' := by
  by_cases hb : pos < 0 ∨ pos + 4 > pv.flen
  · rw [write32u_none le v hb] at h
    exact Option.noConfusion h
  · cases hro : testFlag pv FLAG_RO
    · obtain ⟨q, hrun, hIq, _, hmq, _⟩ :=
        @write32u_spec pv pos le v hI hro (by omega) (by omega)
      rw [hrun] at h
      injection h with h'
      rw [← h']
      exact mapped_dtinv hIq hmq
    · rw [write32u_ro_none le v hI.1 hro] at h
      exact Option.noConfusion h

theorem write64u_dtinv {pv pv' : AKSVIEW} {pos : Int} {le : Bool} {v : Nat}
    (hI : Inv pv) (h : aksview_write64u pv pos le v = some pv') :
    DtInv pv' := by
  by_cases hb : pos < 0 ∨ pos + 8 > pv.flen
  · rw [write64u_none le v hb] at h
    exact Option.noConfusion h
  · cases hro : testFlag pv FLAG_RO
    · obtain ⟨q, hrun, hIq, _, hmq, _⟩ :=
        @write64u_spec pv pos le v hI hro (by omega) (by omega)
      rw [hrun] at h
      injection h with h'
      rw [← h']
      exact mapped_dtinv hIq hmq
    · rw [write64u_ro_none le v hI.1 hro] at h
      exact Option.noConfusion h

theorem flush_dtinv {pv : AKSVIEW} (h16 : pv.flags < 16) (hD : DtInv pv) :
    DtInv (aksview_flush pv) := by
  unfold aksview_flush
  by_cases hc : (testFlag pv FLAG_DT && pv.mapped) = true
  · rw [if_pos hc]
    intro hdt
    exfalso
    obtain ⟨_, _, _, _, x5⟩ := natFlagXor pv.flags h16
    have hdt0 : pv.flags &&& 4 ≠ 0 := by
      have hb := (Bool.and_eq_true _ _).mp hc
      simpa [testFlag, FLAG_DT] using hb.1
    have h0 := x5 hdt0
    simp [testFlag, FLAG_DT, h0] at hdt
  · rw [if_neg hc]
    exact hD

theorem unview_dt {pv : AKSVIEW} (h16 : pv.flags < 16) (hD : DtInv pv) :
    testFlag (unview pv) FLAG_DT = false := by
  unfold unview
  by_cases hm : pv.mapped = true
  · rw [if_pos hm]
    show testFlag (aksview_flush pv) FLAG_DT = false
    unfold aksview_flush
    by_cases hg : (testFlag pv FLAG_DT && pv.mapped) = true
    · rw [if_pos hg]
      obtain ⟨_, _, _, _, x5⟩ := natFlagXor pv.flags h16
      have hdt0 : pv.flags &&& 4 ≠ 0 := by
        have hb := (Bool.and_eq_true _ _).mp hg
        simpa [testFlag, FLAG_DT] using hb.1
      have h0 := x5 hdt0
      simp [testFlag, FLAG_DT, h0]
    · rw [if_neg hg]
      cases hdt : testFlag pv FLAG_DT
      · rfl
      · exact absurd (by rw [hdt, hm]; rfl) hg
  · rw [if_neg hm]
    cases hdt : testFlag pv FLAG_DT
    · rfl
    · exact absurd (hD hdt).1 hm

theorem computeWindow_eq {pv : AKSVIEW}
    (h1 : ¬(pv.flen < 0 ∨ pv.flen > AKSVIEW_MAXLEN))
    (h2 : ¬(pv.pgsize < 8 ∨ pv.pgsize % 8 ≠ 0)) :
    computeWindow pv = some
      ({ pv with wlen := computeWindowVal pv.flen pv.pgsize pv.hint },
        pv.wlen != computeWindowVal pv.flen pv.pgsize pv.hint) := by
  unfold computeWindow
  rw [if_neg h1, if_neg h2]

theorem computeWindow_state {pv q : AKSVIEW} {b : Bool}
    (h : computeWindow pv = some (q, b)) :
    q.flags = pv.flags ∧ q.flen = pv.flen ∧ q.pgsize = pv.pgsize ∧
    q.hint = pv.hint ∧ q.mapped = pv.mapped ∧ q.wfirst = pv.wfirst ∧
    q.wlast = pv.wlast ∧ q.file = pv.file ∧
    q.wlen = computeWindowVal pv.flen pv.pgsize pv.hint := by
  unfold computeWindow at h
  by_cases h1 : pv.flen < 0 ∨ pv.flen > AKSVIEW_MAXLEN
  · rw [if_pos h1] at h
    exact Option.noConfusion h
  · rw [if_neg h1] at h
    by_cases h2 : pv.pgsize < 8 ∨ pv.pgsize % 8 ≠ 0
    · rw [if_pos h2] at h
      exact Option.noConfusion h
    · rw [if_neg h2] at h
      injection h with h'
      have hq : ({ pv with
          wlen := computeWindowVal pv.flen pv.pgsize pv.hint } : AKSVIEW)
          = q := congrArg Prod.fst h'
      rw [← hq]
      exact ⟨rfl, rfl, rfl, rfl, rfl, rfl, rfl, rfl, rfl⟩

theorem testFlag_congr {a b : AKSVIEW} (h : a.flags = b.flags) (fl : Nat) :
    testFlag a fl = testFlag b fl := by
  unfold testFlag
  rw [h]

theorem setlen_false_eq (pv : AKSVIEW) (newlen : Int)
    (h1 : ¬(newlen < 0 ∨ newlen > AKSVIEW_MAXLEN))
    (h2 : ¬(testFlag pv FLAG_RO = true)) (h3 : newlen ≠ pv.flen) :
    aksview_setlen false pv newlen = some (unmap pv, false) := by
  unfold aksview_setlen
  rw [if_neg h1, if_neg h2, if_pos h3, if_neg Bool.false_ne_true]

theorem setlen_true_eq (pv : AKSVIEW) (newlen : Int)
    (h1 : ¬(newlen < 0 ∨ newlen > AKSVIEW_MAXLEN))
    (h2 : ¬(testFlag pv FLAG_RO = true)) (h3 : newlen ≠ pv.flen) :
    aksview_setlen true pv newlen =
      (computeWindow { unmap pv with
          flags := (unmap pv).flags ||| FLAG_UT, flen := newlen }).map
        (fun r => (r.1, true)) := by
  unfold aksview_setlen
  rw [if_neg h1, if_neg h2, if_pos h3, if_pos rfl]

theorem sethint_ne_eq (pv : AKSVIEW) (wl : Int) (h1 : wl ≠ pv.hint) :
    aksview_sethint pv wl =
      (computeWindow { pv with hint := wl }).map
        (fun r => if r.2 then unview r.1 else r.1) := by
  unfold aksview_sethint
  rw [if_pos h1]

theorem setlen_dtinv {pv : AKSVIEW} {osOk : Bool} {newlen : Int}
    {r : AKSVIEW × Bool} (h16 : pv.flags < 16) (hD : DtInv pv)
    (h : aksview_setlen osOk pv newlen = some r) : DtInv r.1 := by
  by_cases h1 : newlen < 0 ∨ newlen > AKSVIEW_MAXLEN
  · unfold aksview_setlen at h
    rw [if_pos h1] at h
    exact Option.noConfusion h
  · by_cases h2 : testFlag pv FLAG_RO = true
    · unfold aksview_setlen at h
      rw [if_neg h1, if_pos h2] at h
      exact Option.noConfusion h
    · by_cases h3 : newlen ≠ pv.flen
      · cases osOk
        · rw [setlen_false_eq pv newlen h1 h2 h3] at h
          injection h with h'
          rw [← h']
          exact dtinv_of_dt_false (unview_dt h16 hD)
        · rw [setlen_true_eq pv newlen h1 h2 h3] at h
          cases hc : computeWindow { unmap pv with
              flags := (unmap pv).flags ||| FLAG_UT, flen := newlen }
          · rw [hc] at h
            exact Option.noConfusion h
          · rename_i w
            rw [hc] at h
            simp only [Option.map_some'] at h
            injection h with h'
            obtain ⟨q1, _⟩ := computeWindow_state (q := w.1) (b := w.2) hc
            rw [← h']
            apply dtinv_of_dt_false
            show testFlag w.1 FLAG_DT = false
            rw [testFlag_congr q1 FLAG_DT]
            obtain ⟨u16, _⟩ := unview_flags pv h16
            obtain ⟨_, _, _, o4, _⟩ := natFlagOrUt (unview pv).flags u16
            show (((unview pv).flags ||| 8) &&& 4 != 0) = false
            rw [o4]
            have hu := unview_dt h16 hD
            exact hu
      · unfold aksview_setlen at h
        rw [if_neg h1, if_neg h2, if_neg h3] at h
        injection h with h'
        rw [← h']
        exact hD

theorem sethint_dtinv {pv pv' : AKSVIEW} {wl : Int} (h16 : pv.flags < 16)
    (hD : DtInv pv) (h : aksview_sethint pv wl = some pv') : DtInv pv' := by
  by_cases h1 : wl ≠ pv.hint
  · rw [sethint_ne_eq pv wl h1] at h
    cases hc : computeWindow { pv with hint := wl }
    · rw [hc] at h
      exact Option.noConfusion h
    · rename_i w
      rw [hc] at h
      simp only [Option.map_some'] at h
      injection h with h'
      obtain ⟨q1, _, _, _, q5, q6, q7, _, _⟩ :=
        computeWindow_state (q := w.1) (b := w.2) hc
      have h16' : w.1.flags < 16 := by
        rw [q1]
        exact h16
      have hD' : DtInv w.1 := by
        intro hdt
        have hdtp : testFlag pv FLAG_DT = true :=
          (testFlag_congr q1 FLAG_DT).symm.trans hdt
        obtain ⟨hm, hw0, hwl0⟩ := hD hdtp
        refine ⟨q5.trans hm, ?_, ?_⟩
        · rw [q6]
          exact hw0
        · rw [q7]
          exact hwl0
      rw [← h']
      cases hch : w.2
      · rw [if_neg Bool.false_ne_true]
        exact hD'
      · rw [if_pos rfl]
        exact dtinv_of_dt_false (unview_dt h16' hD')
  · unfold aksview_sethint at h
    rw [if_neg h1] at h
    injection h with h'
    rw [← h']
    exact hD

theorem pvA_inv : Inv pvA := by
  unfold Inv
  decide

theorem pvE_inv : Inv pvE := by
  unfold Inv
  decide

theorem pvA_dtinv : DtInv pvA := by
  unfold DtInv
  decide

/-- C1: round-trip — for every width W ∈ {8,16,32,64}, both signednesses,
both byte-order selectors, every offset O with 0 ≤ O and O + W/8 ≤ the file
length, and every value representable in the type: on a writable viewer
satisfying the state invariant, the typed write of the value at O followed
by the typed read at O with the same selector succeeds and returns exactly
the value. -/
theorem C1_roundtrip (pv : AKSVIEW) (pos : Int) (le : Bool) (hI : Inv pv)
    (hRO : testFlag pv FLAG_RO = false) (h0 : 0 ≤ pos) :
    (∀ v : Nat, v < 2 ^ 8 → pos + 1 ≤ pv.flen →
      ∃ pv' pv'', aksview_write8u pv pos v = some pv' ∧
        aksview_read8u pv' pos = some (pv'', v)) ∧
    (∀ v : Int, -(2 ^ 7) ≤ v → v < 2 ^ 7 → pos + 1 ≤ pv.flen →
      ∃ pv' pv'', aksview_write8s pv pos v = some pv' ∧
        aksview_read8s pv' pos = some (pv'', v)) ∧
    (∀ v : Nat, v < 2 ^ 16 → pos + 2 ≤ pv.flen →
      ∃ pv' pv'', aksview_write16u pv pos le v = some pv' ∧
        aksview_read16u pv' pos le = some (pv'', v)) ∧
    (∀ v : Int, -(2 ^ 15) ≤ v → v < 2 ^ 15 → pos + 2 ≤ pv.flen →
      ∃ pv' pv'', aksview_write16s pv pos le v = some pv' ∧
        aksview_read16s pv' pos le = some (pv'', v)) ∧
    (∀ v : Nat, v < 2 ^ 32 → pos + 4 ≤ pv.flen →
      ∃ pv' pv'', aksview_write32u pv pos le v = some pv' ∧
        aksview_read32u pv' pos le = some (pv'', v)) ∧
    (∀ v : Int, -(2 ^ 31) ≤ v → v < 2 ^ 31 → pos + 4 ≤ pv.flen →
      ∃ pv' pv'', aksview_write32s pv pos le v = some pv' ∧
        aksview_read32s pv' pos le = some (pv'', v)) ∧
    (∀ v : Nat, v < 2 ^ 64 → pos + 8 ≤ pv.flen →
      ∃ pv' pv'', aksview_write64u pv pos le v = some pv' ∧
        aksview_read64u pv' pos le = some (pv'', v)) ∧
    (∀ v : Int, -(2 ^ 63) ≤ v → v < 2 ^ 63 → pos + 8 ≤ pv.flen →
      ∃ pv' pv'', aksview_write64s pv pos le v = some pv' ∧
        aksview_read64s pv' pos le = some (pv'', v)) := by
  refine ⟨?_, ?_, ?_, ?_, ?_, ?_, ?_, ?_⟩
  · intro v hv h1
    obtain ⟨pv', hw, hI', hBF', _, _, _, hfile⟩ :=
      @write8u_spec pv pos v hI hRO h0 h1
    obtain ⟨pv'', hr, _, _, _⟩ :=
      @read8u_spec pv' pos hI' h0 (by rw [hBF'.1]; omega)
    refine ⟨pv', pv'', hw, ?_⟩
    rw [hr]
    have hval : pv'.file pos = v := by
      rw [hfile]
      simp
    rw [hval]
  · intro v hmin hmax h1
    obtain ⟨pv', hw, hI', hBF', _, _, _, hfile⟩ :=
      @write8u_spec pv pos (toUnsigned 8 v) hI hRO h0 h1
    obtain ⟨pv'', hr, _, _, _⟩ :=
      @read8u_spec pv' pos hI' h0 (by rw [hBF'.1]; omega)
    refine ⟨pv', pv'', ?_, ?_⟩
    · rw [write8s_eq]
      exact hw
    · rw [read8s_eq, hr]
      simp only [Option.map_some']
      have hval : pv'.file pos = toUnsigned 8 v := by
        rw [hfile]
        simp
      rw [hval, toSigned_toUnsigned (Or.inl rfl) v hmin hmax]
  · intro v hv h1
    obtain ⟨pv', hw, hI', hBF', _, _, _, hfile⟩ :=
      @write16u_spec pv pos le v hI hRO h0 h1
    obtain ⟨pv'', hr, _, _, _⟩ :=
      @read16u_spec pv' pos le hI' h0 (by rw [hBF'.1]; omega)
    refine ⟨pv', pv'', hw, ?_⟩
    rw [hr, hfile, rt2 le v pos pv.file (by omega)]
  · intro v hmin hmax h1
    have hvU : toUnsigned 16 v < 2 ^ 16 := by
      unfold toUnsigned
      omega
    obtain ⟨pv', hw, hI', hBF', _, _, _, hfile⟩ :=
      @write16u_spec pv pos le (toUnsigned 16 v) hI hRO h0 h1
    obtain ⟨pv'', hr, _, _, _⟩ :=
      @read16u_spec pv' pos le hI' h0 (by rw [hBF'.1]; omega)
    refine ⟨pv', pv'', ?_, ?_⟩
    · rw [write16s_eq]
      exact hw
    · rw [read16s_eq, hr]
      simp only [Option.map_some']
      rw [hfile, rt2 le (toUnsigned 16 v) pos pv.file (by omega),
        toSigned_toUnsigned (Or.inr (Or.inl rfl)) v hmin hmax]
  · intro v hv h1
    obtain ⟨pv', hw, hI', hBF', _, _, _, hfile⟩ :=
      @write32u_spec pv pos le v hI hRO h0 h1
    obtain ⟨pv'', hr, _, _, _⟩ :=
      @read32u_spec pv' pos le hI' h0 (by rw [hBF'.1]; omega)
    refine ⟨pv', pv'', hw, ?_⟩
    rw [hr, hfile, rt4 le v pos pv.file (by omega)]
  · intro v hmin hmax h1
    have hvU : toUnsigned 32 v < 2 ^ 32 := by
      unfold toUnsigned
      omega
    obtain ⟨pv', hw, hI', hBF', _, _, _, hfile⟩ :=
      @write32u_spec pv pos le (toUnsigned 32 v) hI hRO h0 h1
    obtain ⟨pv'', hr, _, _, _⟩ :=
      @read32u_spec pv' pos le hI' h0 (by rw [hBF'.1]; omega)
    refine ⟨pv', pv'', ?_, ?_⟩
    · rw [write32s_eq]
      exact hw
    · rw [read32s_eq, hr]
      simp only [Option.map_some']
      rw [hfile, rt4 le (toUnsigned 32 v) pos pv.file (by omega),
        toSigned_toUnsigned (Or.inr (Or.inr (Or.inl rfl))) v hmin hmax]
  · intro v hv h1
    obtain ⟨pv', hw, hI', hBF', _, _, _, hfile⟩ :=
      @write64u_spec pv pos le v hI hRO h0 h1
    obtain ⟨pv'', hr, _, _, _⟩ :=
      @read64u_spec pv' pos le hI' h0 (by rw [hBF'.1]; omega)
    refine ⟨pv', pv'', hw, ?_⟩
    rw [hr, hfile, rt8 le v pos pv.file (by omega)]
  · intro v hmin hmax h1
    have hvU : toUnsigned 64 v < 2 ^ 64 := by
      unfold toUnsigned
      omega
    obtain ⟨pv', hw, hI', hBF', _, _, _, hfile⟩ :=
      @write64u_spec pv pos le (toUnsigned 64 v) hI hRO h0 h1
    obtain ⟨pv'', hr, _, _, _⟩ :=
      @read64u_spec pv' pos le hI' h0 (by rw [hBF'.1]; omega)
    refine ⟨pv', pv'', ?_, ?_⟩
    · rw [write64s_eq]
      exact hw
    · rw [read64s_eq, hr]
      simp only [Option.map_some']
      rw [hfile, rt8 le (toUnsigned 64 v) pos pv.file (by omega),
        toSigned_toUnsigned (Or.inr (Or.inr (Or.inr rfl))) v hmin hmax]

/-- C1 witness: the round-trip theorem evaluated on the concrete writable
viewer, width 8, offset 0, value 7. -/
theorem C1_roundtrip_witness :
    ∃ pv' pv'', aksview_write8u pvA 0 7 = some pv' ∧
      aksview_read8u pv' 0 = some (pv'', 7) :=
  (C1_roundtrip pvA 0 true pvA_inv (by decide) (by decide)).1 7
    (by decide) (by decide)

/-- C2 (amended): for every page size ≥ 8 that is a multiple of 8 and file
length in [0, AKSVIEW_MAXLEN], the derived window size lies in
[0, min(1 GiB rounded up to a page multiple, file length)], is zero exactly
when the file is empty, and when positive is at most the file length and
moreover either equals the file length or is a multiple of the page size,
at least one page, and at most 1 GiB rounded up to a page multiple.  (The
claimed bounds "≥ page_size", "≤ 1 GiB" and "multiple of page_size" fail
for small files, where the window is clipped to the file length.) -/
theorem C2_window_size (flen pgsize hint : Int) (hp8 : 8 ≤ pgsize)
    (hpm : pgsize % 8 = 0) (hf0 : 0 ≤ flen) :
    0 ≤ computeWindowVal flen pgsize hint ∧
    computeWindowVal flen pgsize hint ≤
      min (if (1073741824 : Int) % pgsize ≠ 0
        then (1073741824 / pgsize + 1) * pgsize else 1073741824) flen ∧
    (computeWindowVal flen pgsize hint = 0 ↔ flen = 0) ∧
    (0 < computeWindowVal flen pgsize hint →
      computeWindowVal flen pgsize hint ≤ flen ∧
      (computeWindowVal flen pgsize hint = flen ∨
        (pgsize ≤ computeWindowVal flen pgsize hint ∧
         computeWindowVal flen pgsize hint % pgsize = 0 ∧
         computeWindowVal flen pgsize hint ≤
           (if (1073741824 : Int) % pgsize ≠ 0
             then (1073741824 / pgsize + 1) * pgsize else 1073741824)))) := by
  obtain ⟨cr, heq, hc1, hc2, hc3⟩ :=
    computeWindowVal_props hint pgsize flen hp8 hf0
  obtain ⟨hi1, hi2, hi3, _⟩ :=
    computeWindowVal_inv hint pgsize flen hp8 hpm hf0
  refine ⟨hi1, ?_, ?_, ?_⟩
  · rw [heq]
    exact le_min (le_trans (min_le_left _ _) hc3) (min_le_right _ _)
  · constructor
    · intro h0
      by_contra hne
      have hfp : 0 < flen := by omega
      have := hi3 hfp
      omega
    · intro h0
      omega
  · intro hpos
    refine ⟨hi2, ?_⟩
    rw [heq]
    rcases min_cases cr flen with ⟨hm, hmle⟩ | ⟨hm, hmle⟩
    · rw [hm]
      exact Or.inr ⟨hc1, hc2, hc3⟩
    · rw [hm]
      exact Or.inl rfl

/-- C2 counterexample: with hint 16777216, page size 4096 and file length
100 the derived window size is 100 — positive, yet smaller than the page
size and not a multiple of it, contradicting the claimed "whenever
window_size is positive it is ≥ page_size ... and a multiple of
page_size". -/
theorem C2_counterexample :
    computeWindowVal 100 4096 16777216 = 100 ∧
    0 < computeWindowVal 100 4096 16777216 ∧
    ¬(4096 ≤ computeWindowVal 100 4096 16777216 ∧
      computeWindowVal 100 4096 16777216 % 4096 = 0) := by
  decide

/-- C2 witness: the amended bounds evaluated at hint 16777216, page size
4096, file length 100. -/
theorem C2_window_size_witness :
    0 ≤ computeWindowVal 100 4096 16777216 ∧
    (computeWindowVal 100 4096 16777216 = 0 ↔ (100 : Int) = 0) :=
  ⟨(C2_window_size 100 4096 16777216 (by decide) (by decide) (by decide)).1,
   (C2_window_size 100 4096 16777216 (by decide) (by decide)
     (by decide)).2.2.1⟩

/-- C3: byte order — a width-W little-endian write stores the byte
`v / 256^k % 256` at offset pos + k (least significant first), a big-endian
write stores `v / 256^(W-1-k) % 256` there (most significant first), and
every byte outside [pos, pos+W) is untouched; concretely, writing
0xDEADBEEF little-endian at 0 and big-endian at 4 over the 16-byte zero
file yields bytes EF BE AD DE DE AD BE EF at offsets 0–7. -/
theorem C3_byte_order (pv : AKSVIEW) (pos : Int) (v : Nat) (le : Bool)
    (hI : Inv pv) (hRO : testFlag pv FLAG_RO = false) (h0 : 0 ≤ pos) :
    (pos + 2 ≤ pv.flen → ∃ pv', aksview_write16u pv pos le v = some pv' ∧
      (∀ k : Nat, k < 2 → pv'.file (pos + k) = wByte le v 2 k) ∧
      (∀ j, j < pos ∨ pos + 2 ≤ j → pv'.file j = pv.file j)) ∧
    (pos + 4 ≤ pv.flen → ∃ pv', aksview_write32u pv pos le v = some pv' ∧
      (∀ k : Nat, k < 4 → pv'.file (pos + k) = wByte le v 4 k) ∧
      (∀ j, j < pos ∨ pos + 4 ≤ j → pv'.file j = pv.file j)) ∧
    (pos + 8 ≤ pv.flen → ∃ pv', aksview_write64u pv pos le v = some pv' ∧
      (∀ k : Nat, k < 8 → pv'.file (pos + k) = wByte le v 8 k) ∧
      (∀ j, j < pos ∨ pos + 8 ≤ j → pv'.file j = pv.file j)) ∧
    ((aksview_write32u pvA 0 true 3735928559).bind
        (fun a => aksview_write32u a 4 false 3735928559)).map
      (fun b => [b.file 0, b.file 1, b.file 2, b.file 3,
        b.file 4, b.file 5, b.file 6, b.file 7]) =
      some [239, 190, 173, 222, 222, 173, 190, 239] := by
  refine ⟨?_, ?_, ?_, ?_⟩
  · intro h1
    obtain ⟨pv', hw, _, _, _, _, _, hfile⟩ :=
      @write16u_spec pv pos le v hI hRO h0 h1
    refine ⟨pv', hw, ?_, ?_⟩
    · intro k hk
      rw [hfile]
      exact wrFile_at le v pos (pos + k) 2 pv.file k rfl hk
    · intro j hj
      rw [hfile]
      unfold wrFile
      rw [if_neg (by omega)]
  · intro h1
    obtain ⟨pv', hw, _, _, _, _, _, hfile⟩ :=
      @write32u_spec pv pos le v hI hRO h0 h1
    refine ⟨pv', hw, ?_, ?_⟩
    · intro k hk
      rw [hfile]
      exact wrFile_at le v pos (pos + k) 4 pv.file k rfl hk
    · intro j hj
      rw [hfile]
      unfold wrFile
      rw [if_neg (by omega)]
  · intro h1
    obtain ⟨pv', hw, _, _, _, _, _, hfile⟩ :=
      @write64u_spec pv pos le v hI hRO h0 h1
    refine ⟨pv', hw, ?_, ?_⟩
    · intro k hk
      rw [hfile]
      exact wrFile_at le v pos (pos + k) 8 pv.file k rfl hk
    · intro j hj
      rw [hfile]
      unfold wrFile
      rw [if_neg (by omega)]
  · rfl

/-- C3 witness: the byte-placement clause evaluated on the concrete
writable viewer with a 16-bit write of 513 = 0x0201 at offset 0. -/
theorem C3_byte_order_witness :
    ∃ pv', aksview_write16u pvA 0 true 513 = some pv' ∧
      (∀ k : Nat, k < 2 → pv'.file (0 + k) = wByte true 513 2 k) ∧
      (∀ j, j < 0 ∨ 0 + 2 ≤ j → pv'.file j = pvA.file j) :=
  (C3_byte_order pvA 0 513 true pvA_inv (by decide) (by decide)).1
    (by decide)

/-- C4: refinement — for every width W, byte-order selector and offset O
with O + W/8 ≤ file length, the value returned by the width-W read equals
the byte-wise assembly `spec_read_val` of the W/8 file bytes at
O..O+W/8-1 in the requested order; since the implementation takes the
aligned fast path or the unaligned two-half decomposition depending on O,
both paths are observationally equivalent to byte-wise assembly and hence
to each other, including when the access spans a window boundary. -/
theorem C4_read_equals_bytes (pv : AKSVIEW) (pos : Int) (le : Bool)
    (hI : Inv pv) (h0 : 0 ≤ pos) :
    (pos + 1 ≤ pv.flen → ∃ pv',
      aksview_read8u pv pos = some (pv', spec_read_val le pv.file pos 1)) ∧
    (pos + 2 ≤ pv.flen → ∃ pv',
      aksview_read16u pv pos le =
        some (pv', spec_read_val le pv.file pos 2)) ∧
    (pos + 4 ≤ pv.flen → ∃ pv',
      aksview_read32u pv pos le =
        some (pv', spec_read_val le pv.file pos 4)) ∧
    (pos + 8 ≤ pv.flen → ∃ pv',
      aksview_read64u pv pos le =
        some (pv', spec_read_val le pv.file pos 8)) := by
  refine ⟨?_, ?_, ?_, ?_⟩
  · intro h1
    obtain ⟨pv', hr, _, _, _⟩ := @read8u_spec pv pos hI h0 h1
    refine ⟨pv', ?_⟩
    rw [hr]
    have hv1 : spec_read_val le pv.file pos 1 = pv.file pos := by
      cases le <;> simp [spec_read_val, rdLE, rdBE]
    rw [hv1]
  · intro h1
    obtain ⟨pv', hr, _, _, _⟩ := @read16u_spec pv pos le hI h0 h1
    exact ⟨pv', hr⟩
  · intro h1
    obtain ⟨pv', hr, _, _, _⟩ := @read32u_spec pv pos le hI h0 h1
    exact ⟨pv', hr⟩
  · intro h1
    obtain ⟨pv', hr, _, _, _⟩ := @read64u_spec pv pos le hI h0 h1
    exact ⟨pv', hr⟩

/-- C4 witness: the width-8 clause evaluated on the concrete viewer at
offset 0. -/
theorem C4_read_equals_bytes_witness :
    ∃ pv', aksview_read8u pvA 0 =
      some (pv', spec_read_val true pvA.file 0 1) :=
  (C4_read_equals_bytes pvA 0 true pvA_inv (by decide)).1 (by decide)

/-- C5: window safety — for every naturally aligned access of width
W ∈ {1,2,4,8} with 0 ≤ offset and offset + W ≤ file length, after
`mapByte` ensures the last byte offset + W − 1 is mapped, the whole access
lies inside the mapped window: window_first ≤ offset and
offset + W − 1 ≤ window_last. -/
theorem C5_aligned_in_window (pv : AKSVIEW) (pos W : Int) (hI : Inv pv)
    (hW : W = 1 ∨ W = 2 ∨ W = 4 ∨ W = 8) (hal : pos % W = 0)
    (h0 : 0 ≤ pos) (hWle : pos + W ≤ pv.flen) :
    ∃ pv', mapByte pv (pos + W - 1) = some pv' ∧ pv'.mapped = true ∧
      pv'.wfirst ≤ pos ∧ pos + W - 1 ≤ pv'.wlast := by
  obtain ⟨pv', h1, _, _, h4, h5, h6⟩ := mapByte_aligned hI hW hal h0 hWle
  exact ⟨pv', h1, h4, h5, h6⟩

/-- C5 witness: the window-containment property evaluated on the concrete
viewer for an aligned 8-byte access at offset 0. -/
theorem C5_aligned_in_window_witness :
    ∃ pv', mapByte pvA (0 + 8 - 1) = some pv' ∧ pv'.mapped = true ∧
      pv'.wfirst ≤ 0 ∧ 0 + 8 - 1 ≤ pv'.wlast :=
  C5_aligned_in_window pvA 0 8 pvA_inv (Or.inr (Or.inr (Or.inr rfl)))
    (by decide) (by decide) (by decide)

/-- C6: fault conditions — every typed read or write of width W returns
the fatal fault (none) when the offset is negative or offset + W/8 exceeds
the file length; every typed write faults on a read-only viewer; and on an
empty file no window is ever mapped (`mapByte` always faults, so the
window-selection division by a zero window size is never reached) and
every access faults. -/
theorem C6_fault_conditions (pv : AKSVIEW) (h16 : pv.flags < 16) :
    (∀ pos : Int, pos < 0 ∨ pos + 1 > pv.flen →
      aksview_read8u pv pos = none ∧ aksview_read8s pv pos = none ∧
      ∀ v w, aksview_write8u pv pos v = none ∧
        aksview_write8s pv pos w = none) ∧
    (∀ pos le, pos < 0 ∨ pos + 2 > pv.flen →
      aksview_read16u pv pos le = none ∧
      aksview_read16s pv pos le = none ∧
      ∀ v w, aksview_write16u pv pos le v = none ∧
        aksview_write16s pv pos le w = none) ∧
    (∀ pos le, pos < 0 ∨ pos + 4 > pv.flen →
      aksview_read32u pv pos le = none ∧
      aksview_read32s pv pos le = none ∧
      ∀ v w, aksview_write32u pv pos le v = none ∧
        aksview_write32s pv pos le w = none) ∧
    (∀ pos le, pos < 0 ∨ pos + 8 > pv.flen →
      aksview_read64u pv pos le = none ∧
      aksview_read64s pv pos le = none ∧
      ∀ v w, aksview_write64u pv pos le v = none ∧
        aksview_write64s pv pos le w = none) ∧
    (testFlag pv FLAG_RO = true → ∀ pos le v w,
      aksview_write8u pv pos v = none ∧
      aksview_write8s pv pos w = none ∧
      aksview_write16u pv pos le v = none ∧
      aksview_write16s pv pos le w = none ∧
      aksview_write32u pv pos le v = none ∧
      aksview_write32s pv pos le w = none ∧
      aksview_write64u pv pos le v = none ∧
      aksview_write64s pv pos le w = none) ∧
    (pv.flen = 0 → ∀ b : Int, mapByte pv b = none ∧
      aksview_read8u pv b = none ∧ ∀ v, aksview_write8u pv b v = none) := by
  refine ⟨?_, ?_, ?_, ?_, ?_, ?_⟩
  · intro pos hb
    refine ⟨read8u_none hb, ?_, ?_⟩
    · rw [read8s_eq, read8u_none hb]
      rfl
    · intro v w
      refine ⟨write8u_none v hb, ?_⟩
      rw [write8s_eq]
      exact write8u_none _ hb
  · intro pos le hb
    refine ⟨read16u_none le hb, ?_, ?_⟩
    · rw [read16s_eq, read16u_none le hb]
      rfl
    · intro v w
      refine ⟨write16u_none le v hb, ?_⟩
      rw [write16s_eq]
      exact write16u_none le _ hb
  · intro pos le hb
    refine ⟨read32u_none le hb, ?_, ?_⟩
    · rw [read32s_eq, read32u_none le hb]
      rfl
    · intro v w
      refine ⟨write32u_none le v hb, ?_⟩
      rw [write32s_eq]
      exact write32u_none le _ hb
  · intro pos le hb
    refine ⟨read64u_none le hb, ?_, ?_⟩
    · rw [read64s_eq, read64u_none le hb]
      rfl
    · intro v w
      refine ⟨write64u_none le v hb, ?_⟩
      rw [write64s_eq]
      exact write64u_none le _ hb
  · intro hro pos le v w
    refine ⟨write8u_ro_none v h16 hro, ?_, write16u_ro_none le v h16 hro,
      ?_, write32u_ro_none le v h16 hro, ?_,
      write64u_ro_none le v h16 hro, ?_⟩
    · rw [write8s_eq]
      exact write8u_ro_none _ h16 hro
    · rw [write16s_eq]
      exact write16u_ro_none le _ h16 hro
    · rw [write32s_eq]
      exact write32u_ro_none le _ h16 hro
    · rw [write64s_eq]
      exact write64u_ro_none le _ h16 hro
  · intro hf b
    refine ⟨mapByte_none (by omega), read8u_none (by omega), ?_⟩
    intro v
    exact write8u_none v (by omega)

/-- C6 witness: an out-of-range read on the empty-file viewer and a write
on the read-only viewer both fault. -/
theorem C6_fault_conditions_witness :
    aksview_read8u pvE 0 = none ∧ aksview_write8u pvRO 0 7 = none :=
  ⟨((C6_fault_conditions pvE (by decide)).1 0 (by decide)).1,
   ((C6_fault_conditions pvRO (by decide)).2.2.2.2.1 (by decide)
     0 true 7 0).1⟩

/-- C7: no-op calls — `aksview_setlen` with the current cached length (on
a writable viewer with a valid length) and `aksview_sethint` with the
current hint return successfully with the state object entirely
unchanged: no unmapping, no window-size change, no flag changes. -/
theorem C7_noop (pv : AKSVIEW) (osOk : Bool) (hf0 : 0 ≤ pv.flen)
    (hfM : pv.flen ≤ AKSVIEW_MAXLEN)
    (hRO : testFlag pv FLAG_RO = false) :
    aksview_setlen osOk pv pv.flen = some (pv, true) ∧
    aksview_sethint pv pv.hint = some pv := by
  constructor
  · unfold aksview_setlen
    rw [if_neg (by omega), if_neg (by simp [hRO]), if_neg (by simp)]
  · unfold aksview_sethint
    rw [if_neg (by simp)]

/-- C7 witness: the no-op calls evaluated on the concrete viewer. -/
theorem C7_noop_witness :
    aksview_setlen true pvA pvA.flen = some (pvA, true) ∧
    aksview_sethint pvA pvA.hint = some pvA :=
  C7_noop pvA true (by decide) (by decide) (by decide)

/-- C8: setlen contract — for an actual length change on a writable viewer
with a valid requested length: if the OS resize fails, the call returns
failure and the cached file length, the window size and the
timestamp-dirty flag are all unchanged; if it succeeds, the call returns
success, the cached length becomes the new length, the window size is
recomputed from it, and the timestamp-dirty flag is set. -/
theorem C8_setlen_contract (pv : AKSVIEW) (newlen : Int) (hI : Inv pv)
    (hRO : testFlag pv FLAG_RO = false) (hn0 : 0 ≤ newlen)
    (hnM : newlen ≤ AKSVIEW_MAXLEN) (hne : newlen ≠ pv.flen) :
    (∃ pv', aksview_setlen false pv newlen = some (pv', false) ∧
      pv'.flen = pv.flen ∧ pv'.wlen = pv.wlen ∧
      testFlag pv' FLAG_UT = testFlag pv FLAG_UT) ∧
    (∃ pv', aksview_setlen true pv newlen = some (pv', true) ∧
      pv'.flen = newlen ∧
      pv'.wlen = computeWindowVal newlen pv.pgsize pv.hint ∧
      testFlag pv' FLAG_UT = true) := by
  have hb : ¬(newlen < 0 ∨ newlen > AKSVIEW_MAXLEN) := by omega
  have hro' : ¬(testFlag pv FLAG_RO = true) := by simp [hRO]
  obtain ⟨u1, u2, u3, u4, u5⟩ := unview_state pv
  obtain ⟨u16, _, _, uUT, _⟩ := unview_flags pv hI.1
  constructor
  · exact ⟨unmap pv, setlen_false_eq pv newlen hb hro' hne, u1, u4, uUT⟩
  · rw [setlen_true_eq pv newlen hb hro' hne]
    cases hc : computeWindow { unmap pv with
        flags := (unmap pv).flags ||| FLAG_UT, flen := newlen }
    · exfalso
      rw [computeWindow_eq
          (by show ¬(newlen < 0 ∨ newlen > AKSVIEW_MAXLEN)
              omega)
          (by show ¬((unview pv).pgsize < 8 ∨ (unview pv).pgsize % 8 ≠ 0)
              rw [u2]
              have g1 := hI.2.2.2.1
              have g2 := hI.2.2.2.2.1
              omega)] at hc
      exact Option.noConfusion hc
    · rename_i w
      rw [Option.map_some']
      obtain ⟨q1, q2, _, _, _, _, _, _, q9⟩ :=
        computeWindow_state (q := w.1) (b := w.2) hc
      refine ⟨w.1, rfl, q2.trans rfl, ?_, ?_⟩
      · rw [q9]
        show computeWindowVal newlen (unview pv).pgsize (unview pv).hint =
          computeWindowVal newlen pv.pgsize pv.hint
        rw [u2, u3]
      · rw [testFlag_congr q1 FLAG_UT]
        show (((unview pv).flags ||| 8) &&& 8 != 0) = true
        obtain ⟨_, _, _, _, o5⟩ := natFlagOrUt (unview pv).flags u16
        simp [o5]

/-- C8 witness: the failure branch evaluated on the concrete viewer with a
shrink from 16 to 8 bytes. -/
theorem C8_setlen_contract_witness :
    ∃ pv', aksview_setlen false pvA 8 = some (pv', false) ∧
      pv'.flen = pvA.flen ∧ pv'.wlen = pvA.wlen ∧
      testFlag pv' FLAG_UT = testFlag pvA FLAG_UT :=
  (C8_setlen_contract pvA 8 pvA_inv (by decide) (by decide) (by decide)
    (by decide)).1

/-- C9: dirty-implies-mapped invariant — on a reachable viewer state where
a set dirty flag implies a mapped window with non-negative bounds,
`aksview_flush` preserves the invariant, a set dirty flag makes the flush
guard true (so dirty data is never silently skipped), and every public
operation — both setters and all sixteen typed accessors — preserves the
invariant on success. -/
theorem C9_dirty_window_invariant (pv : AKSVIEW) (hI : Inv pv)
    (hD : DtInv pv) :
    DtInv (aksview_flush pv) ∧
    (testFlag pv FLAG_DT = true → flushes pv = true) ∧
    (∀ osOk newlen r, aksview_setlen osOk pv newlen = some r →
      DtInv r.1) ∧
    (∀ wl pv', aksview_sethint pv wl = some pv' → DtInv pv') ∧
    (∀ pos s, aksview_read8u pv pos = some s → DtInv s.1) ∧
    (∀ pos s, aksview_read8s pv pos = some s → DtInv s.1) ∧
    (∀ pos le s, aksview_read16u pv pos le = some s → DtInv s.1) ∧
    (∀ pos le s, aksview_read16s pv pos le = some s → DtInv s.1) ∧
    (∀ pos le s, aksview_read32u pv pos le = some s → DtInv s.1) ∧
    (∀ pos le s, aksview_read32s pv pos le = some s → DtInv s.1) ∧
    (∀ pos le s, aksview_read64u pv pos le = some s → DtInv s.1) ∧
    (∀ pos le s, aksview_read64s pv pos le = some s → DtInv s.1) ∧
    (∀ pos v pv', aksview_write8u pv pos v = some pv' → DtInv pv') ∧
    (∀ pos v pv', aksview_write8s pv pos v = some pv' → DtInv pv') ∧
    (∀ pos le v pv', aksview_write16u pv pos le v = some pv' →
      DtInv pv') ∧
    (∀ pos le v pv', aksview_write16s pv pos le v = some pv' →
      DtInv pv') ∧
    (∀ pos le v pv', aksview_write32u pv pos le v = some pv' →
      DtInv pv') ∧
    (∀ pos le v pv', aksview_write32s pv pos le v = some pv' →
      DtInv pv') ∧
    (∀ pos le v pv', aksview_write64u pv pos le v = some pv' →
      DtInv pv') ∧
    (∀ pos le v pv', aksview_write64s pv pos le v = some pv' →
      DtInv pv') := by
  refine ⟨flush_dtinv hI.1 hD, ?_, ?_, ?_, ?_, ?_, ?_, ?_, ?_, ?_, ?_, ?_,
    ?_, ?_, ?_, ?_, ?_, ?_, ?_, ?_⟩
  · intro hdt
    show (testFlag pv FLAG_DT && pv.mapped) = true
    rw [hdt, (hD hdt).1]
    rfl
  · intro osOk newlen r h
    exact setlen_dtinv hI.1 hD h
  · intro wl pv' h
    exact sethint_dtinv hI.1 hD h
  · intro pos s h
    exact read8u_dtinv hI h
  · intro pos s h
    rw [read8s_eq] at h
    cases ht : aksview_read8u pv pos
    · rw [ht] at h
      exact Option.noConfusion h
    · rename_i t
      rw [ht] at h
      simp only [Option.map_some'] at h
      injection h with h'
      rw [← h']
      exact read8u_dtinv hI ht
  · intro pos le s h
    exact read16u_dtinv hI h
  · intro pos le s h
    rw [read16s_eq] at h
    cases ht : aksview_read16u pv pos le
    · rw [ht] at h
      exact Option.noConfusion h
    · rename_i t
      rw [ht] at h
      simp only [Option.map_some'] at h
      injection h with h'
      rw [← h']
      exact read16u_dtinv hI ht
  · intro pos le s h
    exact read32u_dtinv hI h
  · intro pos le s h
    rw [read32s_eq] at h
    cases ht : aksview_read32u pv pos le
    · rw [ht] at h
      exact Option.noConfusion h
    · rename_i t
      rw [ht] at h
      simp only [Option.map_some'] at h
      injection h with h'
      rw [← h']
      exact read32u_dtinv hI ht
  · intro pos le s h
    exact read64u_dtinv hI h
  · intro pos le s h
    rw [read64s_eq] at h
    cases ht : aksview_read64u pv pos le
    · rw [ht] at h
      exact Option.noConfusion h
    · rename_i t
      rw [ht] at h
      simp only [Option.map_some'] at h
      injection h with h'
      rw [← h']
      exact read64u_dtinv hI ht
  · intro pos v pv' h
    exact write8u_dtinv hI h
  · intro pos v pv' h
    rw [write8s_eq] at h
    exact write8u_dtinv hI h
  · intro pos le v pv' h
    exact write16u_dtinv hI h
  · intro pos le v pv' h
    rw [write16s_eq] at h
    exact write16u_dtinv hI h
  · intro pos le v pv' h
    exact write32u_dtinv hI h
  · intro pos le v pv' h
    rw [write32s_eq] at h
    exact write32u_dtinv hI h
  · intro pos le v pv' h
    exact write64u_dtinv hI h
  · intro pos le v pv' h
    rw [write64s_eq] at h
    exact write64u_dtinv hI h

/-- C9 witness: the flush-preservation and flush-guard clauses evaluated
on the concrete viewer. -/
theorem C9_dirty_window_invariant_witness :
    DtInv (aksview_flush pvA) ∧
    (testFlag pvA FLAG_DT = true → flushes pvA = true) :=
  ⟨(C9_dirty_window_invariant pvA pvA_inv pvA_dtinv).1,
   (C9_dirty_window_invariant pvA pvA_inv pvA_dtinv).2.1⟩

/-- C10: reads are pure — on any trace of read-type public calls (typed
reads, writable, getlen, flush) from a viewer with clear dirty and
timestamp flags, the file bytes are unchanged and close neither flushes
dirty data nor updates the last-modified timestamp; and each single typed
read on success leaves the file bytes unchanged, leaves the timestamp
flag unchanged and never newly sets the dirty flag. -/
theorem C10_reads_pure (pv : AKSVIEW) (h16 : pv.flags < 16) :
    (∀ ops pv', testFlag pv FLAG_DT = false →
      testFlag pv FLAG_UT = false → runROps pv ops = some pv' →
      pv'.file = pv.file ∧ aksview_close pv' = (false, false)) ∧
    (∀ pos s, aksview_read8u pv pos = some s → s.1.file = pv.file ∧
      testFlag s.1 FLAG_UT = testFlag pv FLAG_UT ∧
      (testFlag s.1 FLAG_DT = true → testFlag pv FLAG_DT = true)) ∧
    (∀ pos s, aksview_read8s pv pos = some s → s.1.file = pv.file ∧
      testFlag s.1 FLAG_UT = testFlag pv FLAG_UT ∧
      (testFlag s.1 FLAG_DT = true → testFlag pv FLAG_DT = true)) ∧
    (∀ pos le s, aksview_read16u pv pos le = some s →
      s.1.file = pv.file ∧
      testFlag s.1 FLAG_UT = testFlag pv FLAG_UT ∧
      (testFlag s.1 FLAG_DT = true → testFlag pv FLAG_DT = true)) ∧
    (∀ pos le s, aksview_read16s pv pos le = some s →
      s.1.file = pv.file ∧
      testFlag s.1 FLAG_UT = testFlag pv FLAG_UT ∧
      (testFlag s.1 FLAG_DT = true → testFlag pv FLAG_DT = true)) ∧
    (∀ pos le s, aksview_read32u pv pos le = some s →
      s.1.file = pv.file ∧
      testFlag s.1 FLAG_UT = testFlag pv FLAG_UT ∧
      (testFlag s.1 FLAG_DT = true → testFlag pv FLAG_DT = true)) ∧
    (∀ pos le s, aksview_read32s pv pos le = some s →
      s.1.file = pv.file ∧
      testFlag s.1 FLAG_UT = testFlag pv FLAG_UT ∧
      (testFlag s.1 FLAG_DT = true → testFlag pv FLAG_DT = true)) ∧
    (∀ pos le s, aksview_read64u pv pos le = some s →
      s.1.file = pv.file ∧
      testFlag s.1 FLAG_UT = testFlag pv FLAG_UT ∧
      (testFlag s.1 FLAG_DT = true → testFlag pv FLAG_DT = true)) ∧
    (∀ pos le s, aksview_read64s pv pos le = some s →
      s.1.file = pv.file ∧
      testFlag s.1 FLAG_UT = testFlag pv FLAG_UT ∧
      (testFlag s.1 FLAG_DT = true → testFlag pv FLAG_DT = true)) := by
  refine ⟨?_, ?_, ?_, ?_, ?_, ?_, ?_, ?_, ?_⟩
  · intro ops pv' hDT hUT h
    obtain ⟨f1, _, f3, f4⟩ := runROps_frame h16 h
    have hdt' : testFlag pv' FLAG_DT = false := by
      cases hx : testFlag pv' FLAG_DT
      · rfl
      · have hy := f4 hx
        rw [hDT] at hy
        exact Bool.noConfusion hy
    refine ⟨f1, ?_⟩
    show (testFlag pv' FLAG_DT && pv'.mapped, testFlag pv' FLAG_UT) =
      (false, false)
    rw [hdt', f3, hUT, Bool.false_and]
  · intro pos s h
    obtain ⟨_, b2, _, _, _, b6, b7⟩ := read8u_frame h16 h
    exact ⟨b2, b6, b7⟩
  · intro pos s h
    obtain ⟨_, b2, _, _, _, b6, b7⟩ := read8s_frame h16 h
    exact ⟨b2, b6, b7⟩
  · intro pos le s h
    obtain ⟨_, b2, _, _, _, b6, b7⟩ := read16u_frame h16 h
    exact ⟨b2, b6, b7⟩
  · intro pos le s h
    obtain ⟨_, b2, _, _, _, b6, b7⟩ := read16s_frame h16 h
    exact ⟨b2, b6, b7⟩
  · intro pos le s h
    obtain ⟨_, b2, _, _, _, b6, b7⟩ := read32u_frame h16 h
    exact ⟨b2, b6, b7⟩
  · intro pos le s h
    obtain ⟨_, b2, _, _, _, b6, b7⟩ := read32s_frame h16 h
    exact ⟨b2, b6, b7⟩
  · intro pos le s h
    obtain ⟨_, b2, _, _, _, b6, b7⟩ := read64u_frame h16 h
    exact ⟨b2, b6, b7⟩
  · intro pos le s h
    obtain ⟨_, b2, _, _, _, b6, b7⟩ := read64s_frame h16 h
    exact ⟨b2, b6, b7⟩

/-- C10 witness: a concrete read-only trace (one byte read) on the
concrete viewer: the file is unchanged and close reports no flush and no
timestamp update. -/
theorem C10_reads_pure_witness :
    runROps pvA [ROp.r8 0] =
      some { pvA with mapped := true, wfirst := 0, wlast := 15 } ∧
    ({ pvA with mapped := true, wfirst := 0, wlast := 15 } : AKSVIEW).file
      = pvA.file ∧
    aksview_close { pvA with mapped := true, wfirst := 0, wlast := 15 } =
      (false, false) := by
  have h := (C10_reads_pure pvA (by decide)).1 [ROp.r8 0]
    { pvA with mapped := true, wfirst := 0, wlast := 15 }
    (by decide) (by decide) (by rfl)
  exact ⟨by rfl, h.1, h.2⟩

end Aksview
